import Mathlib

/-!
# outlook-helper: credentials, the mail gateway and tags

A shallow embedding of `backend/internal/services/email_service.go` (the
operations of `EmailService` on credentials and the export),
`backend/internal/services/outlook_service.go` (the calls to the remote mail
gateway), `backend/internal/auth/service.go` (`Login`, `Logout`),
`backend/internal/constants/operation_types.go`, the handlers
`handleDeleteTag` and `handleLogout` and the import parser `parseEmailFile`
of `backend/internal/api/server.go`, and the parts of
`backend/internal/database` and `backend/internal/models` they run on.

* Go `int` is `Int`, slice positions and lengths are `Nat`, `time.Time` is a
  `Nat` whose zero value is `0`, a nil slice or map is the empty list, and an
  `error` is the `Option String` of its message; a call that returns a value
  or an error returns an `Except String _`.
* The SQLite database is an explicit value `DB` threaded through the calls.
  What the program cannot decide by itself (a failing query, a failing write,
  the answer of the remote gateway, what a text denotes as JSON or as a
  timestamp) is read from an environment `Env`.
* The worker pool of `BatchAddEmails` is a transition system on `Pool`: one
  transition per goroutine step, goroutine `0` being the caller and goroutine
  `k + 1` the `k`-th worker. A run is driven by a schedule, the list of
  goroutines chosen one after the other.
-/

namespace OutlookHelper

/-! ## Data model (`internal/models/models.go`, `internal/config/config.go`) -/

/-- Tag model `models.Tag`. -/
structure Tag where
  ID : Int := 0
  Name : String := ""
  Description : String := ""
  Color : String := ""
  CreatedAt : Nat := 0
  UpdatedAt : Nat := 0
  EmailCount : Int := 0
deriving DecidableEq, Repr

/-- Credential model `models.Email`; the defaults are the Go zero values. -/
structure Email where
  ID : Int := 0
  UserID : Int := 0
  EmailAddress : String := ""
  Password : String := ""
  ClientID : String := ""
  RefreshToken : String := ""
  Remark : String := ""
  LastOperationAt : Option Nat := none
  CreatedAt : Nat := 0
  UpdatedAt : Nat := 0
  Tags : List Tag := []
deriving DecidableEq, Repr

/-- Audit record `models.OperationLog`. -/
structure OperationLog where
  ID : Int := 0
  UserID : Int := 0
  OperationType : String := ""
  OperationName : String := ""
  TargetType : String := ""
  TargetID : Option Int := none
  Description : String := ""
  IPAddress : String := ""
  UserAgent : String := ""
  CreatedAt : Nat := 0
deriving DecidableEq, Repr

/-- Request `models.AddEmailRequest`. -/
structure AddEmailRequest where
  EmailAddress : String := ""
  Password : String := ""
  ClientID : String := ""
  RefreshToken : String := ""
  Remark : String := ""
deriving DecidableEq, Repr

/-- Request `models.BatchAddEmailRequest`. -/
structure BatchAddEmailRequest where
  Emails : List AddEmailRequest := []
deriving DecidableEq, Repr

/-- Application configuration `config.Config`. -/
structure Config where
  AppName : String := ""
  Port : String := ""
  Env : String := ""
  DBPath : String := ""
  JWTSecret : String := ""
  JWTExpire : Int := 0
  OutlookAPI : String := ""
  LogLevel : String := ""
  LogFile : String := ""
  CORSOrigins : String := ""
  SkipEmailValidation : Bool := false
  EmailValidationWorkers : Int := 0
  AuthToken : String := ""
deriving DecidableEq, Repr

/-- Mail model `models.OutlookMail`. -/
structure OutlookMail where
  ID : String := ""
  Subject : String := ""
  From : String := ""
  To : String := ""
  Body : String := ""
  IsRead : Bool := false
  ReceivedAt : Nat := 0
  VerifyCode : String := ""
deriving DecidableEq, Repr

/-- Association row of the table `email_tags`. -/
structure EmailTag where
  email_id : Int := 0
  tag_id : Int := 0
  created_at : Nat := 0
deriving DecidableEq, Repr

/-- User model `models.User`. -/
structure User where
  ID : Int := 0
  Username : String := ""
  PasswordHash : String := ""
  LastLoginAt : Option Nat := none
  CreatedAt : Nat := 0
  UpdatedAt : Nat := 0
deriving DecidableEq, Repr

/-- Response `models.LoginResponse`. -/
structure LoginResponse where
  Token : String := ""
  ExpiresAt : Int := 0
  User : User := {}
deriving DecidableEq, Repr

/-- Request `models.CreateTagRequest`. -/
structure CreateTagRequest where
  Name : String := ""
  Description : String := ""
  Color : String := ""
deriving DecidableEq, Repr

/-- Request `models.UpdateTagRequest`. -/
structure UpdateTagRequest where
  Name : String := ""
  Description : String := ""
  Color : String := ""
deriving DecidableEq, Repr

/-- Request `models.TagEmailRequest`. -/
structure TagEmailRequest where
  EmailIDs : List Int := []
  TagID : Int := 0
deriving DecidableEq, Repr

/-- Option `models.FieldOption`. -/
structure FieldOption where
  Key : String := ""
  Label : String := ""
  Value : String := ""
deriving DecidableEq, Repr

/-- Request `models.ExportEmailRequest`, with the two fields `SortField` and
`SortDirection` that `EmailService.ExportEmails` reads from it and that the
struct of `models.go` does not declare. -/
structure ExportEmailRequest where
  Range : String := ""
  Format : String := ""
  FieldOrder : List FieldOption := []
  EmailIDs : List Int := []
  SortField : String := ""
  SortDirection : String := ""
deriving DecidableEq, Repr

/-- Response `models.ExportEmailResponse`. -/
structure ExportEmailResponse where
  Content : String := ""
  Count : Int := 0
  Format : String := ""
deriving DecidableEq, Repr

/-- Claims `auth.JWTClaims`: the two fields of the application and, of the
registered claims, `exp` (nil when the token has none), in seconds. -/
structure JWTClaims where
  UserID : Int := 0
  Username : String := ""
  ExpiresAt : Option Nat := none
deriving DecidableEq, Repr

/-! ## What travels to and from the gateway -/

/-- A JSON value as `encoding/json` reads it into `interface{}`; a number
keeps its text, an object keeps its members in the order of the text. -/
inductive JSON where
  | null
  | bool (b : Bool)
  | num (text : String)
  | str (s : String)
  | arr (items : List JSON)
  | obj (fields : List (String × JSON))

/-- A decoded `map[string]interface{}`, as the list of the members that were
read; the nil map is the empty list. -/
abbrev JSONMap := List (String × JSON)

/-- The request `http.NewRequest("POST", requestURL, bytes.NewBuffer(jsonData))`
with its headers; `data` is the `map[string]string` that was marshalled,
listed in the key order `json.Marshal` writes. -/
structure HTTPRequest where
  method : String := ""
  url : String := ""
  headers : List (String × String) := []
  data : List (String × String) := []
deriving DecidableEq, Repr

/-- What `httpClient.Do` hands back: the status code and the outcome of
`io.ReadAll(resp.Body)`. -/
structure HTTPResponse where
  StatusCode : Nat := 200
  body : Except String String := Except.ok ""

/-- Response envelope `models.APIResponse`. -/
structure APIResponse where
  Success : Bool := false
  Message : String := ""
  Data : Option JSON := none
  Error : String := ""

/-! ## The store (`internal/database`) -/

/-- The tables of the SQLite database this development reads and writes:
`emails` with its AUTOINCREMENT counter, `operation_logs` with its own,
`tags` with its own (rows are stored with `EmailCount = 0`, which is not a
column), `email_tags`, and `users` with its counter. -/
structure DB where
  emails : List Email := []
  emailSeq : Int := 0
  operation_logs : List OperationLog := []
  logSeq : Int := 0
  tags : List Tag := []
  tagSeq : Int := 0
  email_tags : List EmailTag := []
  users : List User := []
  userSeq : Int := 0
deriving DecidableEq, Repr

/-- What the surroundings decide: the clock behind `CURRENT_TIMESTAMP`, the
failures of the database driver (`none` means the call goes through;
`stmtErr` is keyed by the text of the statement), the answer of the remote
gateway to a request, and the library calls the program relies on: the
syntax of JSON (`jsonParse`, the value a text denotes or the syntax error),
`strconv.ParseFloat(_, 64)` on the text of a JSON number (`parseFloatErr`
is true when it returns an error, the number being outside the range of a
float64), whether the pooled connection that runs a DELETE has
`PRAGMA foreign_keys = ON` (`foreignKeys`; `database.go` sets the pragma
with one `db.Exec` on the pool, so only the connection that ran it has it),
`time.Parse(time.RFC3339, _)`, `strconv.Atoi`, `JWTManager.GenerateToken`,
`time.Time.Format("2006-01-02 15:04:05")` and the URL check of
`http.NewRequest`. `prepareStmtErr` is `tx.Prepare` of a statement and
`execIDErr` one `Exec` of a prepared statement with an identifier;
`lastIDErr` is `LastInsertId` after the INSERT of a tag or a user. A
statement fails or goes through the same way each time it is run under one
`Env`; two calls that may differ take two of them. A failure of a statement
that the model does not derive from the tables (a violated foreign key, a
lost connection) is one of the failures these oracles stand for.
Further library calls: `bcrypt.GenerateFromPassword` (`bcryptGenerate`),
`bcrypt.CompareHashAndPassword(hash, password) == nil` (`bcryptCompare`),
`jwt.ParseWithClaims` with the key function of `JWTManager.ValidateToken`
(`parseWithClaims`: the error, or the claims and `token.Valid`),
`sort.Slice` on credentials with a `less` function (`sortSlice`),
`time.Time.MarshalJSON` (`marshalTime`), and `c.ShouldBindJSON` of gin on the
body of a request, for each request type a handler binds. The two repository
methods `GetEmailsByIDs` and `GetEmailsForExport`, which
`EmailService.ExportEmails` calls and `email_repository.go` does not define,
are oracles too: what they return on a database for their arguments. -/
structure Env where
  now : Nat := 0
  queryErr : Int → String → Option String := fun _ _ => none
  beginErr : Option String := none
  prepareErr : Option String := none
  execErr : Email → Option String := fun _ => none
  lastInsertIdErr : Email → Option String := fun _ => none
  commitErr : Option String := none
  logErr : OperationLog → Option String := fun _ => none
  stmtErr : String → Option String := fun _ => none
  newRequestErr : String → Option String := fun _ => none
  httpDo : HTTPRequest → Except String HTTPResponse :=
    fun _ => Except.ok { StatusCode := 200, body := Except.ok "\x7b\x7d" }
  jsonParse : String → Except String JSON := fun _ => Except.ok (JSON.obj [])
  parseFloatErr : String → Bool := fun _ => false
  foreignKeys : Bool := true
  parseRFC3339 : String → Option Nat := fun _ => none
  atoi : String → Option Int := fun _ => none
  prepareStmtErr : String → Option String := fun _ => none
  execIDErr : String → Int → Option String := fun _ _ => none
  generateToken : Int → String → Except String (String × Int) :=
    fun _ _ => Except.ok ("", 0)
  formatTime : Nat → String := fun _ => ""
  lastIDErr : String → Option String := fun _ => none
  bcryptGenerate : String → Except String String := fun password => Except.ok password
  bcryptCompare : String → String → Bool := fun hash password => hash == password
  parseWithClaims : String → Except String (JWTClaims × Bool) :=
    fun _ => Except.error "token is malformed"
  sortSlice : List Email → (Email → Email → Bool) → List Email := fun emails _ => emails
  marshalTime : Nat → String := fun _ => ""
  bindTagEmailRequest : String → Except String TagEmailRequest := fun _ => Except.error "EOF"
  bindCreateTagRequest : String → Except String CreateTagRequest :=
    fun _ => Except.error "EOF"
  bindUpdateTagRequest : String → Except String UpdateTagRequest :=
    fun _ => Except.error "EOF"
  getEmailsByIDs : DB → Int → List Int → Except String (List Email) :=
    fun _ _ _ => Except.ok []
  getEmailsForExport : DB → Int → String → String → Except String (List Email) :=
    fun _ _ _ _ => Except.ok []

/-- The query of `EmailRepository.EmailExists`:
`SELECT COUNT(*) FROM emails WHERE user_id = ? AND email_address = ?`,
then `count > 0`. -/
def EmailExists (env : Env) (db : DB) (userID : Int) (emailAddress : String) :
    Bool × Option String :=
  match env.queryErr userID emailAddress with
  | some err => (false, some err)
  | none =>
    let count := db.emails.countP
      (fun e => decide (e.UserID = userID) && decide (e.EmailAddress = emailAddress))
    (decide (count > 0), none)

/-- One execution of the INSERT of `BatchCreateEmails` and of `CreateEmail`
(the same statement), on the state the statement sees. The table constraint `UNIQUE(email_address, user_id)`
rejects a second row for the pair; `env.execErr` is any other failure. -/
def execInsert (env : Env) (cur : DB) (email : Email) : Except String DB :=
  if cur.emails.any
      (fun r => decide (r.UserID = email.UserID) && decide (r.EmailAddress = email.EmailAddress))
  then Except.error "UNIQUE constraint failed: emails.email_address, emails.user_id"
  else
    match env.execErr email with
    | some err => Except.error err
    | none =>
      Except.ok { cur with
        emails := cur.emails ++ [{
          ID := cur.emailSeq + 1
          UserID := email.UserID
          EmailAddress := email.EmailAddress
          Password := email.Password
          ClientID := email.ClientID
          RefreshToken := email.RefreshToken
          Remark := email.Remark
          CreatedAt := env.now
          UpdatedAt := env.now }]
        emailSeq := cur.emailSeq + 1 }

/-- A transaction `*sql.Tx`: the state at `Begin` and the state its own
statements have produced so far. -/
structure Tx where
  saved : DB
  cur : DB

/-- Rollback `tx.Rollback()`: the database is the one of `Begin`. -/
def Tx.Rollback (tx : Tx) : DB := tx.saved

/-- Commit `tx.Commit()`: the statements take effect unless the commit itself
fails, in which case nothing of the transaction is kept. -/
def Tx.Commit (env : Env) (tx : Tx) : Option String × DB :=
  match env.commitErr with
  | some err => (some err, tx.saved)
  | none => (none, tx.cur)

/-- The loop `for _, email := range emails` of `BatchCreateEmails`, from the
state `cur` of the transaction and the slice `createdEmails` built so far. -/
def createLoop (env : Env) : List Email → DB → List Email → Except String (List Email × DB)
  | [], cur, createdEmails => Except.ok (createdEmails, cur)
  | email :: rest, cur, createdEmails =>
    match execInsert env cur email with
    | Except.error err => Except.error err
    | Except.ok cur1 =>
      match env.lastInsertIdErr email with
      | some err => Except.error err
      | none =>
        let createdEmail : Email := {
          ID := cur1.emailSeq
          UserID := email.UserID
          EmailAddress := email.EmailAddress
          Remark := email.Remark
          CreatedAt := email.CreatedAt
          UpdatedAt := email.UpdatedAt }
        createLoop env rest cur1 (createdEmails ++ [createdEmail])

/-- Repository call `EmailRepository.BatchCreateEmails`: all rows in one
transaction, with the deferred `tx.Rollback()` on every error path. -/
def BatchCreateEmails (env : Env) (db : DB) (emails : List Email) :
    Except String (List Email) × DB :=
  if emails.length = 0 then (Except.ok [], db)
  else
    match env.beginErr with
    | some err => (Except.error err, db)
    | none =>
      let tx : Tx := { saved := db, cur := db }
      match env.prepareErr with
      | some err => (Except.error err, tx.Rollback)
      | none =>
        match createLoop env emails tx.cur [] with
        | Except.error err => (Except.error err, tx.Rollback)
        | Except.ok (createdEmails, cur) =>
          match Tx.Commit env { tx with cur := cur } with
          | (some err, db1) => (Except.error err, db1)
          | (none, db1) => (Except.ok createdEmails, db1)

/-- Repository call `LogRepository.CreateLog`: one INSERT into
`operation_logs`; on failure the row is not written. -/
def CreateLog (env : Env) (db : DB) (log : OperationLog) : Option String × DB :=
  match env.logErr log with
  | some err => (some err, db)
  | none =>
    (none, { db with
      operation_logs := db.operation_logs ++
        [{ log with ID := db.logSeq + 1, CreatedAt := env.now }]
      logSeq := db.logSeq + 1 })

/-- The record `LogRepository.LogEmail` hands to `CreateLog`. -/
def emailLog (userID : Int) (operation : String) (emailID : Int)
    (description ipAddress userAgent : String) : OperationLog :=
  { UserID := userID
    OperationType := operation
    TargetType := "email"
    TargetID := some emailID
    Description := description
    IPAddress := ipAddress
    UserAgent := userAgent }

/-- Repository call `LogRepository.LogEmail`. -/
def LogEmail (env : Env) (db : DB) (userID : Int) (operation : String) (emailID : Int)
    (description ipAddress userAgent : String) : Option String × DB :=
  CreateLog env db (emailLog userID operation emailID description ipAddress userAgent)

/-- The record `LogRepository.LogTag` hands to `CreateLog`. -/
def tagLog (userID : Int) (operation : String) (tagID : Int)
    (description ipAddress userAgent : String) : OperationLog :=
  { UserID := userID
    OperationType := operation
    TargetType := "tag"
    TargetID := some tagID
    Description := description
    IPAddress := ipAddress
    UserAgent := userAgent }

/-- Repository call `LogRepository.LogTag`. -/
def LogTag (env : Env) (db : DB) (userID : Int) (operation : String) (tagID : Int)
    (description ipAddress userAgent : String) : Option String × DB :=
  CreateLog env db (tagLog userID operation tagID description ipAddress userAgent)

/-- The error `sql.ErrNoRows` that `Scan` returns when `QueryRow` found no
row. -/
def ErrNoRows : String := "sql: no rows in result set"

/-- The `query` of `EmailRepository.GetEmailTags`, its white space
normalised. -/
def queryGetEmailTags : String :=
  "SELECT t.id, t.name, t.description, t.color, t.created_at, t.updated_at FROM tags t " ++
    "INNER JOIN email_tags et ON t.id = et.tag_id WHERE et.email_id = ? ORDER BY t.name"

/-- The `query` of `EmailRepository.GetEmailByID`, its white space
normalised. -/
def queryGetEmailByID : String :=
  "SELECT id, user_id, email_address, password, client_id, refresh_token, remark, " ++
    "last_operation_at, created_at, updated_at FROM emails WHERE id = ?"

/-- The `query` of `TagRepository.GetTagByID`, its white space normalised. -/
def queryGetTagByID : String :=
  "SELECT id, name, description, color, created_at, updated_at FROM tags WHERE id = ?"

/-- The `query` of `TagRepository.GetTagEmailCount`. -/
def queryGetTagEmailCount : String := "SELECT COUNT(*) FROM email_tags WHERE tag_id = ?"

/-- The `query` of `TagRepository.RemoveEmailTag`. -/
def queryRemoveEmailTag : String := "DELETE FROM email_tags WHERE email_id = ? AND tag_id = ?"

/-- The `query` of `TagRepository.RemoveAllEmailTags`. -/
def queryRemoveAllEmailTags : String := "DELETE FROM email_tags WHERE tag_id = ?"

/-- The `query` of `TagRepository.DeleteTag`. -/
def queryDeleteTag : String := "DELETE FROM tags WHERE id = ?"

/-- Repository call `EmailRepository.GetEmailTags`: the tags joined to the
associations of the credential, `ORDER BY t.name`. -/
def GetEmailTags (env : Env) (db : DB) (emailID : Int) : Except String (List Tag) :=
  match env.stmtErr queryGetEmailTags with
  | some err => Except.error err
  | none =>
    let joined : List Tag :=
      (db.email_tags.filter (fun et => decide (et.email_id = emailID))).flatMap
        (fun et => db.tags.filter (fun t => decide (t.ID = et.tag_id)))
    Except.ok
      ((joined.map (fun t => { t with EmailCount := 0 })).insertionSort
        (fun a b => ¬ b.Name < a.Name))

/-- Repository call `EmailRepository.GetEmailByID`: the row whose `id` is the
argument, read column by column, then its tags when they can be loaded. -/
def EmailRepository.GetEmailByID (env : Env) (db : DB) (id : Int) : Except String Email :=
  match env.stmtErr queryGetEmailByID with
  | some err => Except.error err
  | none =>
    match db.emails.find? (fun e => decide (e.ID = id)) with
    | none => Except.error ErrNoRows
    | some row =>
      let email : Email := { row with Tags := [] }
      match GetEmailTags env db email.ID with
      | Except.ok tags => Except.ok { email with Tags := tags }
      | Except.error _ => Except.ok email

/-- Repository call `EmailRepository.CreateEmail`: the INSERT outside any
transaction, `LastInsertId`, then the row read back. -/
def CreateEmail (env : Env) (db : DB) (email : Email) : Except String Email × DB :=
  match execInsert env db email with
  | Except.error err => (Except.error err, db)
  | Except.ok db1 =>
    match env.lastInsertIdErr email with
    | some err => (Except.error err, db1)
    | none => (EmailRepository.GetEmailByID env db1 db1.emailSeq, db1)

/-- The `query` of `EmailRepository.UpdateEmail`, its white space
normalised. -/
def queryUpdateEmail : String :=
  "UPDATE emails SET email_address = ?, password = ?, client_id = ?, refresh_token = ?, " ++
    "remark = ?, updated_at = CURRENT_TIMESTAMP WHERE id = ?"

/-- The `query` of `EmailRepository.DeleteEmail` and `emailQuery` of
`EmailRepository.BatchDeleteEmails`. -/
def queryDeleteEmail : String := "DELETE FROM emails WHERE id = ?"

/-- The `tagQuery` of `EmailRepository.BatchDeleteEmails`. -/
def queryDeleteEmailTags : String := "DELETE FROM email_tags WHERE email_id = ?"

/-- Repository call `EmailRepository.UpdateEmail`: the UPDATE of the row
whose `id` is that of the argument. The table constraint
`UNIQUE(email_address, user_id)` rejects the new address when another row of
the same account has it; no row with the `id` means nothing is changed and no
error. -/
def EmailRepository.UpdateEmail (env : Env) (db : DB) (email : Email) : Option String × DB :=
  match env.stmtErr queryUpdateEmail with
  | some err => (some err, db)
  | none =>
    match db.emails.find? (fun r => decide (r.ID = email.ID)) with
    | none => (none, db)
    | some row =>
      if db.emails.any (fun r => !decide (r.ID = email.ID) && decide (r.UserID = row.UserID) &&
          decide (r.EmailAddress = email.EmailAddress))
      then (some "UNIQUE constraint failed: emails.email_address, emails.user_id", db)
      else
        (none, { db with
          emails := db.emails.map (fun r =>
            if r.ID = email.ID then
              { r with
                EmailAddress := email.EmailAddress
                Password := email.Password
                ClientID := email.ClientID
                RefreshToken := email.RefreshToken
                Remark := email.Remark
                UpdatedAt := env.now }
            else r) })

/-- Repository call `EmailRepository.DeleteEmail`: the one statement
`DELETE FROM emails WHERE id = ?`. The tag associations of the row are
removed with it (`ON DELETE CASCADE`) only when the connection that runs the
statement has `PRAGMA foreign_keys = ON`; on a connection without the pragma
they stay in `email_tags`. -/
def EmailRepository.DeleteEmail (env : Env) (db : DB) (id : Int) : Option String × DB :=
  match env.stmtErr queryDeleteEmail with
  | some err => (some err, db)
  | none =>
    (none, { db with
      emails := db.emails.filter (fun r => !decide (r.ID = id))
      email_tags :=
        if env.foreignKeys then db.email_tags.filter (fun et => !decide (et.email_id = id))
        else db.email_tags })

/-- The first loop of `EmailRepository.BatchDeleteEmails`: `tagStmt.Exec(id)`
for every identifier, on the state of the transaction. -/
def deleteTagsLoop (env : Env) : List Int → DB → Except String DB
  | [], cur => Except.ok cur
  | id :: rest, cur =>
    match env.execIDErr queryDeleteEmailTags id with
    | some err => Except.error err
    | none =>
      deleteTagsLoop env rest
        { cur with email_tags := cur.email_tags.filter (fun et => !decide (et.email_id = id)) }

/-- The second loop of `EmailRepository.BatchDeleteEmails`:
`emailStmt.Exec(id)` for every identifier, on the state of the transaction;
the cascade on `email_tags` runs only with `PRAGMA foreign_keys = ON`. -/
def deleteEmailsLoop (env : Env) : List Int → DB → Except String DB
  | [], cur => Except.ok cur
  | id :: rest, cur =>
    match env.execIDErr queryDeleteEmail id with
    | some err => Except.error err
    | none =>
      deleteEmailsLoop env rest
        { cur with
          emails := cur.emails.filter (fun r => !decide (r.ID = id))
          email_tags :=
            if env.foreignKeys then
              cur.email_tags.filter (fun et => !decide (et.email_id = id))
            else cur.email_tags }

/-- Repository call `EmailRepository.BatchDeleteEmails`: both loops in one
transaction, with the deferred `tx.Rollback()` on every error path. -/
def EmailRepository.BatchDeleteEmails (env : Env) (db : DB) (ids : List Int) :
    Option String × DB :=
  if ids.length = 0 then (none, db)
  else
    match env.beginErr with
    | some err => (some err, db)
    | none =>
      let tx : Tx := { saved := db, cur := db }
      match env.prepareStmtErr queryDeleteEmailTags with
      | some err => (some err, tx.Rollback)
      | none =>
        match deleteTagsLoop env ids tx.cur with
        | Except.error err => (some err, tx.Rollback)
        | Except.ok cur1 =>
          match env.prepareStmtErr queryDeleteEmail with
          | some err => (some err, tx.Rollback)
          | none =>
            match deleteEmailsLoop env ids cur1 with
            | Except.error err => (some err, tx.Rollback)
            | Except.ok cur2 => Tx.Commit env { tx with cur := cur2 }

/-- Repository call `TagRepository.GetTagEmailCount`:
`SELECT COUNT(*) FROM email_tags WHERE tag_id = ?`. -/
def GetTagEmailCount (env : Env) (db : DB) (tagID : Int) : Int × Option String :=
  match env.stmtErr queryGetTagEmailCount with
  | some err => (0, some err)
  | none => ((db.email_tags.countP (fun et => decide (et.tag_id = tagID)) : Nat), none)

/-- Repository call `TagRepository.GetTagByID`: the row, then its number of
credentials when it can be counted. -/
def GetTagByID (env : Env) (db : DB) (id : Int) : Except String Tag :=
  match env.stmtErr queryGetTagByID with
  | some err => Except.error err
  | none =>
    match db.tags.find? (fun t => decide (t.ID = id)) with
    | none => Except.error ErrNoRows
    | some row =>
      let tag : Tag := { row with EmailCount := 0 }
      match GetTagEmailCount env db tag.ID with
      | (count, none) => Except.ok { tag with EmailCount := count }
      | (_, some _) => Except.ok tag

/-- Repository call `TagRepository.RemoveEmailTag`:
`DELETE FROM email_tags WHERE email_id = ? AND tag_id = ?`. -/
def RemoveEmailTag (env : Env) (db : DB) (emailID tagID : Int) : Option String × DB :=
  match env.stmtErr queryRemoveEmailTag with
  | some err => (some err, db)
  | none =>
    (none, { db with
      email_tags := db.email_tags.filter
        (fun et => !(decide (et.email_id = emailID) && decide (et.tag_id = tagID))) })

/-- Repository call `TagRepository.RemoveAllEmailTags`:
`DELETE FROM email_tags WHERE tag_id = ?`. -/
def RemoveAllEmailTags (env : Env) (db : DB) (tagID : Int) : Option String × DB :=
  match env.stmtErr queryRemoveAllEmailTags with
  | some err => (some err, db)
  | none =>
    (none, { db with
      email_tags := db.email_tags.filter (fun et => !decide (et.tag_id = tagID)) })

/-- Repository call `TagRepository.DeleteTag`: the associations first, then
`DELETE FROM tags WHERE id = ?`, which on a connection with
`PRAGMA foreign_keys = ON` also removes the associations of the tag
(`ON DELETE CASCADE`). The two statements are not in a transaction. -/
def DeleteTag (env : Env) (db : DB) (id : Int) : Option String × DB :=
  match RemoveAllEmailTags env db id with
  | (some err, db1) => (some err, db1)
  | (none, db1) =>
    match env.stmtErr queryDeleteTag with
    | some err => (some err, db1)
    | none =>
      (none, { db1 with
        tags := db1.tags.filter (fun t => !decide (t.ID = id))
        email_tags :=
          if env.foreignKeys then db1.email_tags.filter (fun et => !decide (et.tag_id = id))
          else db1.email_tags })

/-- The `query` of `TagRepository.TagExists`. -/
def queryTagExists : String := "SELECT COUNT(*) FROM tags WHERE name = ?"

/-- The `query` of `TagRepository.CreateTag`, its white space normalised. -/
def queryCreateTag : String :=
  "INSERT INTO tags (name, description, color, created_at, updated_at) " ++
    "VALUES (?, ?, ?, CURRENT_TIMESTAMP, CURRENT_TIMESTAMP)"

/-- The `query` of `TagRepository.UpdateTag`, its white space normalised. -/
def queryUpdateTag : String :=
  "UPDATE tags SET name = ?, description = ?, color = ?, updated_at = CURRENT_TIMESTAMP " ++
    "WHERE id = ?"

/-- The `query` of `TagRepository.AddEmailTag` and of
`TagRepository.BatchAddEmailTags`, its white space normalised. -/
def queryAddEmailTag : String :=
  "INSERT OR IGNORE INTO email_tags (email_id, tag_id, created_at) " ++
    "VALUES (?, ?, CURRENT_TIMESTAMP)"

/-- The `query` of `EmailRepository.UpdateLastOperation`, its white space
normalised. -/
def queryUpdateLastOperation : String :=
  "UPDATE emails SET last_operation_at = CURRENT_TIMESTAMP, " ++
    "updated_at = CURRENT_TIMESTAMP WHERE id = ?"

/-- The `query` of `LogRepository.ClearAllLogs`. -/
def queryClearAllLogs : String := "DELETE FROM operation_logs WHERE user_id = ?"

/-- The `query` of `UserRepository.GetUserByID`, its white space normalised. -/
def queryGetUserByID : String :=
  "SELECT id, username, password_hash, last_login_at, created_at, updated_at " ++
    "FROM users WHERE id = ?"

/-- The `query` of `UserRepository.UserExists`. -/
def queryUserExists : String := "SELECT COUNT(*) FROM users WHERE username = ?"

/-- The `query` of `UserRepository.CreateUser`, its white space normalised. -/
def queryCreateUser : String :=
  "INSERT INTO users (username, password_hash, created_at, updated_at) " ++
    "VALUES (?, ?, CURRENT_TIMESTAMP, CURRENT_TIMESTAMP)"

/-- Repository call `TagRepository.TagExists`. -/
def TagExists (env : Env) (db : DB) (name : String) : Bool × Option String :=
  match env.stmtErr queryTagExists with
  | some err => (false, some err)
  | none =>
    let count := db.tags.countP (fun t => decide (t.Name = name))
    (decide (count > 0), none)

/-- Repository call `TagRepository.CreateTag`: the INSERT, which the table
constraint `UNIQUE(name)` rejects for a name the table has, `LastInsertId`,
then the row read back with `GetTagByID`. -/
def CreateTag (env : Env) (db : DB) (tag : Tag) : Except String Tag × DB :=
  if db.tags.any (fun t => decide (t.Name = tag.Name)) then
    (Except.error "UNIQUE constraint failed: tags.name", db)
  else
    match env.stmtErr queryCreateTag with
    | some err => (Except.error err, db)
    | none =>
      let db1 : DB :=
        { db with
          tags := db.tags ++ [{
            ID := db.tagSeq + 1
            Name := tag.Name
            Description := tag.Description
            Color := tag.Color
            CreatedAt := env.now
            UpdatedAt := env.now }]
          tagSeq := db.tagSeq + 1 }
      match env.lastIDErr queryCreateTag with
      | some err => (Except.error err, db1)
      | none => (GetTagByID env db1 db1.tagSeq, db1)

/-- Repository call `TagRepository.UpdateTag`: the UPDATE of the row whose
`id` is that of the argument. The table constraint `UNIQUE(name)` rejects the
new name when another row has it; no row with the `id` means nothing is
changed and no error. -/
def UpdateTag (env : Env) (db : DB) (tag : Tag) : Option String × DB :=
  match env.stmtErr queryUpdateTag with
  | some err => (some err, db)
  | none =>
    match db.tags.find? (fun t => decide (t.ID = tag.ID)) with
    | none => (none, db)
    | some _ =>
      if db.tags.any (fun t => !decide (t.ID = tag.ID) && decide (t.Name = tag.Name))
      then (some "UNIQUE constraint failed: tags.name", db)
      else
        (none, { db with
          tags := db.tags.map (fun t =>
            if t.ID = tag.ID then
              { t with
                Name := tag.Name
                Description := tag.Description
                Color := tag.Color
                UpdatedAt := env.now }
            else t) })

/-- What one `INSERT OR IGNORE INTO email_tags` does to the table: nothing
when the pair is there (`PRIMARY KEY (email_id, tag_id)`), a new row
otherwise. -/
def insertEmailTag (env : Env) (cur : DB) (emailID tagID : Int) : DB :=
  if cur.email_tags.any (fun et => decide (et.email_id = emailID) && decide (et.tag_id = tagID))
  then cur
  else
    { cur with
      email_tags := cur.email_tags ++
        [{ email_id := emailID, tag_id := tagID, created_at := env.now }] }

/-- Repository call `TagRepository.AddEmailTag`. -/
def AddEmailTag (env : Env) (db : DB) (emailID tagID : Int) : Option String × DB :=
  match env.stmtErr queryAddEmailTag with
  | some err => (some err, db)
  | none => (none, insertEmailTag env db emailID tagID)

/-- The loop of `TagRepository.BatchAddEmailTags`: `stmt.Exec(emailID, tagID)`
for every identifier, on the state of the transaction. -/
def addTagsLoop (env : Env) (tagID : Int) : List Int → DB → Except String DB
  | [], cur => Except.ok cur
  | emailID :: rest, cur =>
    match env.execIDErr queryAddEmailTag emailID with
    | some err => Except.error err
    | none => addTagsLoop env tagID rest (insertEmailTag env cur emailID tagID)

/-- Repository call `TagRepository.BatchAddEmailTags`: the loop in one
transaction, with the deferred `tx.Rollback()` on every error path. -/
def BatchAddEmailTags (env : Env) (db : DB) (emailIDs : List Int) (tagID : Int) :
    Option String × DB :=
  if emailIDs.length = 0 then (none, db)
  else
    match env.beginErr with
    | some err => (some err, db)
    | none =>
      let tx : Tx := { saved := db, cur := db }
      match env.prepareStmtErr queryAddEmailTag with
      | some err => (some err, tx.Rollback)
      | none =>
        match addTagsLoop env tagID emailIDs tx.cur with
        | Except.error err => (some err, tx.Rollback)
        | Except.ok cur1 => Tx.Commit env { tx with cur := cur1 }

/-- The loop of `TagRepository.BatchRemoveEmailTags`:
`stmt.Exec(emailID, tagID)` for every identifier, on the state of the
transaction. -/
def removeTagsLoop (env : Env) (tagID : Int) : List Int → DB → Except String DB
  | [], cur => Except.ok cur
  | emailID :: rest, cur =>
    match env.execIDErr queryRemoveEmailTag emailID with
    | some err => Except.error err
    | none =>
      removeTagsLoop env tagID rest
        { cur with
          email_tags := cur.email_tags.filter
            (fun et => !(decide (et.email_id = emailID) && decide (et.tag_id = tagID))) }

/-- Repository call `TagRepository.BatchRemoveEmailTags`: the loop in one
transaction, with the deferred `tx.Rollback()` on every error path. -/
def BatchRemoveEmailTags (env : Env) (db : DB) (emailIDs : List Int) (tagID : Int) :
    Option String × DB :=
  if emailIDs.length = 0 then (none, db)
  else
    match env.beginErr with
    | some err => (some err, db)
    | none =>
      let tx : Tx := { saved := db, cur := db }
      match env.prepareStmtErr queryRemoveEmailTag with
      | some err => (some err, tx.Rollback)
      | none =>
        match removeTagsLoop env tagID emailIDs tx.cur with
        | Except.error err => (some err, tx.Rollback)
        | Except.ok cur1 => Tx.Commit env { tx with cur := cur1 }

/-- Repository call `EmailRepository.UpdateLastOperation`. -/
def EmailRepository.UpdateLastOperation (env : Env) (db : DB) (emailID : Int) :
    Option String × DB :=
  match env.stmtErr queryUpdateLastOperation with
  | some err => (some err, db)
  | none =>
    (none, { db with
      emails := db.emails.map (fun r =>
        if r.ID = emailID then
          { r with LastOperationAt := some env.now, UpdatedAt := env.now }
        else r) })

/-- Repository call `LogRepository.ClearAllLogs`. -/
def ClearAllLogs (env : Env) (db : DB) (userID : Int) : Option String × DB :=
  match env.stmtErr queryClearAllLogs with
  | some err => (some err, db)
  | none =>
    (none, { db with
      operation_logs := db.operation_logs.filter (fun l => !decide (l.UserID = userID)) })

/-- Repository call `UserRepository.GetUserByID`. -/
def UserRepository.GetUserByID (env : Env) (db : DB) (id : Int) : Except String User :=
  match env.stmtErr queryGetUserByID with
  | some err => Except.error err
  | none =>
    match db.users.find? (fun u => decide (u.ID = id)) with
    | none => Except.error ErrNoRows
    | some row => Except.ok row

/-- Repository call `UserRepository.UserExists`. -/
def UserRepository.UserExists (env : Env) (db : DB) (username : String) :
    Bool × Option String :=
  match env.stmtErr queryUserExists with
  | some err => (false, some err)
  | none =>
    let count := db.users.countP (fun u => decide (u.Username = username))
    (decide (count > 0), none)

/-- Repository call `UserRepository.CreateUser`: the hash of the password,
the INSERT, which the column constraint `username ... UNIQUE` rejects for a
name the table has, `LastInsertId`, then the row read back. -/
def UserRepository.CreateUser (env : Env) (db : DB) (username password : String) :
    Except String User × DB :=
  match env.bcryptGenerate password with
  | Except.error err => (Except.error err, db)
  | Except.ok hashedPassword =>
    if db.users.any (fun u => decide (u.Username = username)) then
      (Except.error "UNIQUE constraint failed: users.username", db)
    else
      match env.stmtErr queryCreateUser with
      | some err => (Except.error err, db)
      | none =>
        let db1 : DB :=
          { db with
            users := db.users ++ [{
              ID := db.userSeq + 1
              Username := username
              PasswordHash := hashedPassword
              CreatedAt := env.now
              UpdatedAt := env.now }]
            userSeq := db.userSeq + 1 }
        match env.lastIDErr queryCreateUser with
        | some err => (Except.error err, db1)
        | none => (UserRepository.GetUserByID env db1 db1.userSeq, db1)

/-- Repository call `UserRepository.ValidatePassword`. -/
def UserRepository.ValidatePassword (env : Env) (user : User) (password : String) : Bool :=
  env.bcryptCompare user.PasswordHash password

/-! ## The gateway (`internal/services/outlook_service.go`) -/

/-- Service `services.OutlookService`; what its `httpClient` does is
`Env.httpDo`. -/
structure OutlookService where
  baseURL : String := ""
deriving DecidableEq, Repr

/-- Constructor `services.NewOutlookService`. -/
def NewOutlookService (baseURL : String) : OutlookService :=
  { baseURL := baseURL }

/-- The word an `UnmarshalTypeError` of `encoding/json` uses for the value it
could not store. -/
def JSON.kind : JSON → String
  | JSON.null => "null"
  | JSON.bool _ => "bool"
  | JSON.num _ => "number"
  | JSON.str _ => "string"
  | JSON.arr _ => "array"
  | JSON.obj _ => "object"

/-- The map index `m[key]` with its `ok`: when the text of the object had the
key more than once, the map holds the last value. -/
def mapLookup (m : JSONMap) (key : String) : Option JSON :=
  m.foldl (fun found member => if member.1 = key then some member.2 else found) none

/-- The `UnmarshalTypeError` that `encoding/json` records when
`strconv.ParseFloat(text, 64)` fails on a number it stores into an
`interface{}`. -/
def floatError (text : String) : String :=
  "json: cannot unmarshal number " ++ text ++ " into Go value of type float64"

mutual
/-- Storing a value into an `interface{}`: every number in it is converted
with `strconv.ParseFloat(_, 64)`, and the first one, in the order of the
text, for which that fails is the error `Unmarshal` returns (`outOfRange` is
`Env.parseFloatErr`). -/
def JSON.floatErr (outOfRange : String → Bool) : JSON → Option String
  | JSON.num text => if outOfRange text then some (floatError text) else none
  | JSON.arr items => floatErrItems outOfRange items
  | JSON.obj fields => floatErrFields outOfRange fields
  | _ => none
/-- The elements of an array stored into an `[]interface{}`, in order. -/
def floatErrItems (outOfRange : String → Bool) : List JSON → Option String
  | [] => none
  | v :: rest =>
    match JSON.floatErr outOfRange v with
    | some err => some err
    | none => floatErrItems outOfRange rest
/-- The members of an object stored into a `map[string]interface{}`, in the
order of the text (a repeated key is decoded each time). -/
def floatErrFields (outOfRange : String → Bool) : List (String × JSON) → Option String
  | [] => none
  | (_, v) :: rest =>
    match JSON.floatErr outOfRange v with
    | some err => some err
    | none => floatErrFields outOfRange rest
end

/-- Decoding `json.Unmarshal(body, &m)` for `m` of type
`map[string]interface{}`: a text that is not JSON is a syntax error, `null`
leaves the map nil without error, an object fills it and is an error when
one of its numbers does not fit a float64, any other value is an
`UnmarshalTypeError`. -/
def unmarshalMap (env : Env) (body : String) : Except String JSONMap :=
  match env.jsonParse body with
  | Except.error err => Except.error err
  | Except.ok JSON.null => Except.ok []
  | Except.ok (JSON.obj fields) =>
    match floatErrFields env.parseFloatErr fields with
    | some err => Except.error err
    | none => Except.ok fields
  | Except.ok v =>
    Except.error
      ("json: cannot unmarshal " ++ v.kind ++ " into Go value of type map[string]interface {}")

/-- The elements of a JSON array stored into a `[]map[string]interface{}`:
`null` gives a nil map, an object a filled one; the error `Unmarshal`
returns is the first one in the order of the text, an element of another
type (`UnmarshalTypeError`) or a number of an object that does not fit a
float64. -/
def unmarshalElems (outOfRange : String → Bool) : List JSON → Except String (List JSONMap)
  | [] => Except.ok []
  | JSON.null :: rest =>
    match unmarshalElems outOfRange rest with
    | Except.error err => Except.error err
    | Except.ok ms => Except.ok ([] :: ms)
  | JSON.obj fields :: rest =>
    match floatErrFields outOfRange fields with
    | some err => Except.error err
    | none =>
      match unmarshalElems outOfRange rest with
      | Except.error err => Except.error err
      | Except.ok ms => Except.ok (fields :: ms)
  | v :: _ =>
    Except.error
      ("json: cannot unmarshal " ++ v.kind ++ " into Go value of type map[string]interface {}")

/-- Decoding `json.Unmarshal(body, &ms)` for `ms` of type
`[]map[string]interface{}`. -/
def unmarshalMaps (env : Env) (body : String) : Except String (List JSONMap) :=
  match env.jsonParse body with
  | Except.error err => Except.error err
  | Except.ok JSON.null => Except.ok []
  | Except.ok (JSON.arr items) => unmarshalElems env.parseFloatErr items
  | Except.ok v =>
    Except.error
      ("json: cannot unmarshal " ++ v.kind ++
        " into Go value of type []map[string]interface {}")

/-- Helper `getStringFromMap`. -/
def getStringFromMap (m : JSONMap) (key : String) : String :=
  match mapLookup m key with
  | some (JSON.str str) => str
  | _ => ""

/-- Helper `getBoolFromMap`. -/
def getBoolFromMap (m : JSONMap) (key : String) : Bool :=
  match mapLookup m key with
  | some (JSON.bool b) => b
  | _ => false

/-- What `GetLatestMail`, `GetAllMails` and `ClearInbox` all do with their
`requestData` and `requestURL`: build the POST request, send it, read the
body and check the status code. `json.Marshal` of a `map[string]string`
cannot fail, so its error branch is not here. The result is the body of a
200 response, or the error the function returns. -/
def post (env : Env) (requestURL : String) (requestData : List (String × String)) :
    Except String String :=
  match env.newRequestErr requestURL with
  | some err => Except.error ("创建请求失败: " ++ err)
  | none =>
    let req : HTTPRequest :=
      { method := "POST"
        url := requestURL
        headers := [("Content-Type", "application/json"), ("Accept", "*/*"),
          ("Connection", "keep-alive")]
        data := requestData }
    match env.httpDo req with
    | Except.error err => Except.error ("请求失败: " ++ err)
    | Except.ok resp =>
      match resp.body with
      | Except.error err => Except.error ("读取响应失败: " ++ err)
      | Except.ok body =>
        if resp.StatusCode ≠ 200 then
          Except.error
            ("API请求失败，状态码: " ++ toString resp.StatusCode ++ ", 响应: " ++ body)
        else Except.ok body

/-- The end of `GetLatestMail`, from the decoded `mailData` to the returned
mail (`outlook_service.go`, lines 120 to 152). -/
def latestMail (env : Env) (mailData : JSONMap) : OutlookMail :=
  let dateStr := getStringFromMap mailData "date"
  let receivedAt : Nat :=
    if dateStr ≠ "" then
      match env.parseRFC3339 dateStr with
      | some parsedTime => parsedTime
      | none => 0
    else 0
  let html := getStringFromMap mailData "html"
  let mailBody := if html = "" then getStringFromMap mailData "text" else html
  let mail : OutlookMail :=
    { ID := getStringFromMap mailData "id"
      Subject := getStringFromMap mailData "subject"
      From := getStringFromMap mailData "send"
      To := getStringFromMap mailData "to"
      Body := mailBody
      IsRead := getBoolFromMap mailData "isRead"
      VerifyCode := getStringFromMap mailData "verifyCode"
      ReceivedAt := receivedAt }
  let receivedAtStr := getStringFromMap mailData "receivedDateTime"
  if receivedAtStr ≠ "" then
    match env.parseRFC3339 receivedAtStr with
    | some parsedTime => { mail with ReceivedAt := parsedTime }
    | none => mail
  else mail

/-- Service call `OutlookService.GetLatestMail`: the returned mail, or the
returned error (the pointer is then nil). -/
def GetLatestMail (env : Env) (s : OutlookService) (email : Email)
    (mailbox responseType : String) : Except String OutlookMail :=
  let requestData : List (String × String) :=
    [("client_id", email.ClientID), ("email", email.EmailAddress), ("mailbox", mailbox),
      ("refresh_token", email.RefreshToken)] ++
    (if responseType ≠ "" then [("response_type", responseType)] else [])
  match post env (s.baseURL ++ "/api/mail-new") requestData with
  | Except.error err => Except.error err
  | Except.ok body =>
    match unmarshalMap env body with
    | Except.ok mailData => Except.ok (latestMail env mailData)
    | Except.error err =>
      match unmarshalMaps env body with
      | Except.error _ =>
        Except.error ("解析响应失败: " ++ err ++ ", 响应内容: " ++ body)
      | Except.ok [] => Except.error "API返回空邮件数组"
      | Except.ok (mailData :: _) => Except.ok (latestMail env mailData)

/-- The body of the loop `for _, mailData := range mailsData` of
`GetAllMails` (`outlook_service.go`, lines 211 to 234). -/
def listedMail (env : Env) (mailData : JSONMap) : OutlookMail :=
  let dateStr := getStringFromMap mailData "date"
  let receivedAt : Nat :=
    if dateStr ≠ "" then
      match env.parseRFC3339 dateStr with
      | some parsedTime => parsedTime
      | none => 0
    else 0
  let html := getStringFromMap mailData "html"
  let mailBody := if html = "" then getStringFromMap mailData "text" else html
  { ID := getStringFromMap mailData "id"
    Subject := getStringFromMap mailData "subject"
    From := getStringFromMap mailData "send"
    To := getStringFromMap mailData "to"
    Body := mailBody
    IsRead := getBoolFromMap mailData "isRead"
    VerifyCode := getStringFromMap mailData "verifyCode"
    ReceivedAt := receivedAt }

/-- Service call `OutlookService.GetAllMails`: the returned slice, or the
returned error (the slice is then nil). -/
def GetAllMails (env : Env) (s : OutlookService) (email : Email) (mailbox : String) :
    Except String (List OutlookMail) :=
  let requestData : List (String × String) :=
    [("client_id", email.ClientID), ("email", email.EmailAddress), ("mailbox", mailbox),
      ("refresh_token", email.RefreshToken)]
  match post env (s.baseURL ++ "/api/mail-all") requestData with
  | Except.error err => Except.error err
  | Except.ok body =>
    match unmarshalMaps env body with
    | Except.error err =>
      Except.error ("解析响应失败: " ++ err ++ ", 响应内容: " ++ body)
    | Except.ok mailsData => Except.ok (mailsData.map (listedMail env))

/-- Service call `OutlookService.ClearInbox`. -/
def ClearInbox (env : Env) (s : OutlookService) (email : Email) : Option String :=
  let requestData : List (String × String) :=
    [("client_id", email.ClientID), ("email", email.EmailAddress),
      ("refresh_token", email.RefreshToken)]
  match post env (s.baseURL ++ "/api/process-inbox") requestData with
  | Except.error err => some err
  | Except.ok body =>
    match unmarshalMap env body with
    | Except.error err => some ("解析响应失败: " ++ err ++ ", 响应内容: " ++ body)
    | Except.ok response =>
      let errorMsg := getStringFromMap response "error"
      if errorMsg ≠ "" then some ("API返回错误: " ++ errorMsg) else none

/-- Service call `OutlookService.ValidateEmailCredentials`: fetch the latest
mail of the inbox and wrap its error. -/
def ValidateEmailCredentials (env : Env) (s : OutlookService) (email : Email) :
    Option String :=
  match GetLatestMail env s email "INBOX" "json" with
  | Except.error err => some ("验证邮箱 " ++ email.EmailAddress ++ " 凭据失败: " ++ err)
  | Except.ok _ => none

/-! ## The worker pool of `BatchAddEmails` -/

/-- The local type `emailTask`. -/
structure emailTask where
  index : Nat := 0
  req : AddEmailRequest := {}
deriving DecidableEq, Repr

/-- The local type `emailResult`; `email` is the pointer, `none` when nil. -/
structure emailResult where
  email : Option Email := none
  error : String := ""
  index : Nat := 0
deriving DecidableEq, Repr

/-- Where a worker goroutine stands: at `for task := range taskChan`, holding
a task before the existence check, inside `ValidateEmailCredentials`, or past
the end of its loop. -/
inductive Worker where
  | waiting
  | checking (task : emailTask)
  | validating (task : emailTask) (email : Email)
  | exited
deriving DecidableEq, Repr

/-- What a run does to the outside, tagged with the index of the task it is
done for: an `EmailExists` query, the start of a gateway call. -/
inductive Event where
  | existsQuery (index : Nat) (userID : Int) (emailAddress : String)
  | gatewayCall (index : Nat) (email : Email)
deriving DecidableEq, Repr

/-- The state of one run of the pool. `toSend` is what the loop that fills
`taskChan` has still to send, `results` the slice `results` and `received`
the counter of the collecting loop. -/
structure Pool where
  toSend : List emailTask := []
  closed : Bool := false
  taskChan : List emailTask := []
  workers : List Worker := []
  resultChan : List emailResult := []
  results : List emailResult := []
  received : Nat := 0
  trace : List Event := []
deriving DecidableEq, Repr

/-- The tasks `emailTask{index: i, req: emailReq}` of `for i, emailReq := range
req.Emails`, counting from `i`. -/
def tasksFrom : Nat → List AddEmailRequest → List emailTask
  | _, [] => []
  | i, emailReq :: rest => { index := i, req := emailReq } :: tasksFrom (i + 1) rest

/-- The worker sends `result` on `resultChan` and returns to the head of its
loop (`resultChan <- result; continue`). -/
def deliver (k : Nat) (result : emailResult) (p : Pool) : Pool :=
  { p with
    resultChan := p.resultChan ++ [result]
    workers := p.workers.set k Worker.waiting }

/-- The `models.Email` a worker builds from its task. -/
def newEmail (userID : Int) (req : AddEmailRequest) : Email :=
  { UserID := userID
    EmailAddress := req.EmailAddress
    Password := req.Password
    ClientID := req.ClientID
    RefreshToken := req.RefreshToken
    Remark := req.Remark }

/-- One step of worker `k`, the body of `go func() ... ()`. `none` when the
worker is blocked on the empty open `taskChan` or has returned. -/
def workerStep (env : Env) (cfg : Config) (db : DB) (userID : Int) (k : Nat) (p : Pool) :
    Option Pool :=
  match p.workers[k]? with
  | none => none
  | some Worker.exited => none
  | some Worker.waiting =>
    match p.taskChan with
    | task :: rest =>
      some { p with taskChan := rest, workers := p.workers.set k (Worker.checking task) }
    | [] =>
      if p.closed then some { p with workers := p.workers.set k Worker.exited } else none
  | some (Worker.checking task) =>
    let result : emailResult := { index := task.index }
    let p1 : Pool :=
      { p with trace := p.trace ++ [Event.existsQuery task.index userID task.req.EmailAddress] }
    match EmailExists env db userID task.req.EmailAddress with
    | (_, some err) =>
      some (deliver k { result with
        error := "邮箱 " ++ task.req.EmailAddress ++ ": 检查邮箱存在性失败: " ++ err } p1)
    | (true, none) =>
      some (deliver k { result with
        error := "邮箱 " ++ task.req.EmailAddress ++ ": 邮箱已存在" } p1)
    | (false, none) =>
      let email := newEmail userID task.req
      if !cfg.SkipEmailValidation then
        some { p1 with
          workers := p1.workers.set k (Worker.validating task email)
          trace := p1.trace ++ [Event.gatewayCall task.index email] }
      else
        some (deliver k { result with email := some email } p1)
  | some (Worker.validating task email) =>
    let result : emailResult := { index := task.index }
    match ValidateEmailCredentials env (NewOutlookService cfg.OutlookAPI) email with
    | some err =>
      some (deliver k { result with
        error := "邮箱 " ++ task.req.EmailAddress ++ ": " ++ err } p)
    | none => some (deliver k { result with email := some email } p)

/-- One step of the calling goroutine: send the next task, then
`close(taskChan)`, then receive one result and store it at its index, until
`len(req.Emails)` results have been received. -/
def mainStep (p : Pool) : Option Pool :=
  match p.toSend with
  | task :: rest => some { p with toSend := rest, taskChan := p.taskChan ++ [task] }
  | [] =>
    if !p.closed then some { p with closed := true }
    else if p.received < p.results.length then
      match p.resultChan with
      | result :: rest =>
        some { p with
          resultChan := rest
          results := p.results.set result.index result
          received := p.received + 1 }
      | [] => none
    else none

/-- One step of goroutine `g`. -/
def stepG (env : Env) (cfg : Config) (db : DB) (userID : Int) (g : Nat) (p : Pool) :
    Option Pool :=
  match g with
  | 0 => mainStep p
  | k + 1 => workerStep env cfg db userID k p

/-- Run the goroutines in the order of the schedule; a goroutine that cannot
move when it is chosen leaves the state as it is. -/
def exec (env : Env) (cfg : Config) (db : DB) (userID : Int) (sched : List Nat) (p : Pool) :
    Pool :=
  sched.foldl (fun q g => (stepG env cfg db userID g q).getD q) p

/-- The step of the first goroutine that can move, if any. -/
def firstEnabled (env : Env) (cfg : Config) (db : DB) (userID : Int) (p : Pool) :
    Option Pool :=
  (List.range (p.workers.length + 1)).findSome? (fun g => stepG env cfg db userID g p)

/-- Keep stepping until no goroutine can move. -/
def drain (env : Env) (cfg : Config) (db : DB) (userID : Int) : Nat → Pool → Pool
  | 0, p => p
  | fuel + 1, p =>
    match firstEnabled env cfg db userID p with
    | none => p
    | some q => drain env cfg db userID fuel q

/-- A whole run: the schedule first, then whatever is left to do. Every step
uses up part of `5 * len(results) + len(workers) + 1`, which bounds the
number of steps of any run. -/
def runPool (env : Env) (cfg : Config) (db : DB) (userID : Int) (sched : List Nat) (p : Pool) :
    Pool :=
  drain env cfg db userID (5 * p.results.length + p.workers.length + 1)
    (exec env cfg db userID sched p)

/-- The worker count: `maxWorkers := s.config.EmailValidationWorkers`,
replaced by `5` when it is not positive. -/
def maxWorkers (cfg : Config) : Int :=
  if cfg.EmailValidationWorkers ≤ 0 then 5 else cfg.EmailValidationWorkers

/-- The pool right after `for w := 0; w < maxWorkers; w++ { go func() ... }`:
both channels empty, `results` made of zero values. -/
def initPool (cfg : Config) (emails : List AddEmailRequest) : Pool :=
  { toSend := tasksFrom 0 emails
    closed := false
    taskChan := []
    workers := List.replicate (maxWorkers cfg).toNat Worker.waiting
    resultChan := []
    results := List.replicate emails.length {}
    received := 0
    trace := [] }

/-- The loop `for _, result := range results` that splits the results into
`validEmails` and `errors`. -/
def partitionResults (results : List emailResult) : List Email × List String :=
  results.foldl
    (fun (acc : List Email × List String) result =>
      if result.error ≠ "" then (acc.1, acc.2 ++ [result.error])
      else
        match result.email with
        | some email => (acc.1 ++ [email], acc.2)
        | none => acc)
    ([], [])

/-! ## `EmailService.BatchAddEmails` -/

/-- The three values `BatchAddEmails` returns. -/
structure BatchResult where
  successEmails : List Email := []
  errors : List String := []
  err : Option String := none
deriving DecidableEq, Repr

/-- The loop that writes one `email_added` record per saved credential. -/
def logAdded (env : Env) (userID : Int) (ipAddress userAgent : String) :
    List Email → DB → DB
  | [], db => db
  | email :: rest, db =>
    logAdded env userID ipAddress userAgent rest
      (LogEmail env db userID "email_added" email.ID
        ("添加邮箱: " ++ email.EmailAddress) ipAddress userAgent).2

/-- Service call `EmailService.BatchAddEmails`. Besides the returned values,
the result carries the database after the call and the trace of the pool. -/
def BatchAddEmails (env : Env) (cfg : Config) (sched : List Nat) (db : DB) (userID : Int)
    (req : BatchAddEmailRequest) (ipAddress userAgent : String) :
    BatchResult × DB × List Event :=
  if req.Emails.length = 0 then ({ successEmails := [], errors := [], err := none }, db, [])
  else if req.Emails.length > 30 then
    ({ successEmails := [], errors := [], err := some "批量添加邮箱数量不能超过30个" }, db, [])
  else
    let pool := runPool env cfg db userID sched (initPool cfg req.Emails)
    let split := partitionResults pool.results
    let validEmails := split.1
    let errors := split.2
    if validEmails.length > 0 then
      match BatchCreateEmails env db validEmails with
      | (Except.error err, db1) =>
        ({ successEmails := [], errors := [], err := some ("批量保存邮箱失败: " ++ err) },
          db1, pool.trace)
      | (Except.ok savedEmails, db1) =>
        let db2 := logAdded env userID ipAddress userAgent savedEmails db1
        let db3 := (LogEmail env db2 userID "batch_add_emails" 0
          ("批量添加邮箱，成功: " ++ toString savedEmails.length ++ ", 失败: " ++
            toString errors.length) ipAddress userAgent).2
        ({ successEmails := savedEmails, errors := errors, err := none }, db3, pool.trace)
    else
      let db3 := (LogEmail env db userID "batch_add_emails" 0
        ("批量添加邮箱，成功: " ++ toString (0 : Nat) ++ ", 失败: " ++
          toString errors.length) ipAddress userAgent).2
      ({ successEmails := [], errors := errors, err := none }, db3, pool.trace)

/-! ## `EmailService.AddEmail`, `EmailService.GetEmailByID` -/

/-- The end of `AddEmail`, from `s.emailRepo.CreateEmail(email)` on. The
error of `LogEmail` is dropped, as the code drops it. -/
def saveEmail (env : Env) (db : DB) (userID : Int) (req : AddEmailRequest) (email : Email)
    (ipAddress userAgent : String) : Except String Email × DB :=
  match CreateEmail env db email with
  | (Except.error err, db1) => (Except.error err, db1)
  | (Except.ok savedEmail, db1) =>
    (Except.ok savedEmail,
      (LogEmail env db1 userID "email_added" savedEmail.ID
        ("添加邮箱: " ++ req.EmailAddress) ipAddress userAgent).2)

/-- Service call `EmailService.AddEmail`: the returned credential or the
returned error, and the database after the call. -/
def AddEmail (env : Env) (cfg : Config) (db : DB) (userID : Int) (req : AddEmailRequest)
    (ipAddress userAgent : String) : Except String Email × DB :=
  match EmailExists env db userID req.EmailAddress with
  | (_, some err) => (Except.error err, db)
  | (true, none) => (Except.error "邮箱已存在", db)
  | (false, none) =>
    let email : Email :=
      { UserID := userID
        EmailAddress := req.EmailAddress
        Password := req.Password
        ClientID := req.ClientID
        RefreshToken := req.RefreshToken
        Remark := req.Remark }
    if !cfg.SkipEmailValidation then
      match ValidateEmailCredentials env (NewOutlookService cfg.OutlookAPI) email with
      | some err =>
        (Except.error err,
          (LogEmail env db userID "email_validation_failed" 0
            ("邮箱 " ++ req.EmailAddress ++ " 凭据验证失败: " ++ err) ipAddress userAgent).2)
      | none => saveEmail env db userID req email ipAddress userAgent
    else
      saveEmail env
        (LogEmail env db userID "email_validation_skipped" 0
          ("邮箱 " ++ req.EmailAddress ++ " 跳过凭据验证（调试模式）") ipAddress userAgent).2
        userID req email ipAddress userAgent

/-- Service call `EmailService.GetEmailByID`. -/
def EmailService.GetEmailByID (env : Env) (db : DB) (userID emailID : Int) :
    Except String Email :=
  match EmailRepository.GetEmailByID env db emailID with
  | Except.error err => Except.error err
  | Except.ok email =>
    if email.UserID ≠ userID then Except.error "无权访问此邮箱"
    else Except.ok email

/-! ## `EmailService.UpdateEmail`, `DeleteEmail`, `BatchDeleteEmails` -/

/-- Service call `EmailService.UpdateEmail`. -/
def UpdateEmail (env : Env) (cfg : Config) (db : DB) (userID emailID : Int)
    (req : AddEmailRequest) (ipAddress userAgent : String) : Except String Email × DB :=
  match EmailService.GetEmailByID env db userID emailID with
  | Except.error err => (Except.error err, db)
  | Except.ok found =>
    let email : Email :=
      { found with
        EmailAddress := req.EmailAddress
        Password := req.Password
        ClientID := req.ClientID
        RefreshToken := req.RefreshToken
        Remark := req.Remark }
    match ValidateEmailCredentials env (NewOutlookService cfg.OutlookAPI) email with
    | some err => (Except.error ("邮箱凭据验证失败: " ++ err), db)
    | none =>
      match EmailRepository.UpdateEmail env db email with
      | (some err, db1) => (Except.error err, db1)
      | (none, db1) =>
        (Except.ok email,
          (LogEmail env db1 userID "email_updated" emailID
            ("更新邮箱: " ++ req.EmailAddress) ipAddress userAgent).2)

/-- Service call `EmailService.DeleteEmail`. -/
def DeleteEmail (env : Env) (db : DB) (userID emailID : Int) (ipAddress userAgent : String) :
    Option String × DB :=
  match EmailService.GetEmailByID env db userID emailID with
  | Except.error err => (some err, db)
  | Except.ok email =>
    match EmailRepository.DeleteEmail env db emailID with
    | (some err, db1) => (some err, db1)
    | (none, db1) =>
      (none,
        (LogEmail env db1 userID "email_deleted" emailID
          ("删除邮箱: " ++ email.EmailAddress) ipAddress userAgent).2)

/-- Service call `EmailService.BatchDeleteEmails`: the loop that checks every
identifier stops at the first one `GetEmailByID` fails on. -/
def BatchDeleteEmails (env : Env) (db : DB) (userID : Int) (emailIDs : List Int)
    (ipAddress userAgent : String) : Option String × DB :=
  if emailIDs.length = 0 then (none, db)
  else
    match emailIDs.find?
        (fun emailID => !(EmailService.GetEmailByID env db userID emailID).toBool) with
    | some emailID =>
      (some ("邮箱ID " ++ toString emailID ++ " 不存在或不属于当前用户"), db)
    | none =>
      match EmailRepository.BatchDeleteEmails env db emailIDs with
      | (some err, db1) => (some err, db1)
      | (none, db1) =>
        (none,
          (LogEmail env db1 userID "batch_delete_emails" 0
            ("批量删除邮箱，数量: " ++ toString emailIDs.length) ipAddress userAgent).2)

/-! ## `EmailService.GetLatestMail`, `GetAllMails`, `ClearInbox`, `BatchClearInbox` -/

/-- Service call `EmailService.GetLatestMail`. The errors of
`UpdateLastOperation` and of `LogEmail` are dropped, as the code drops
them. -/
def EmailService.GetLatestMail (env : Env) (cfg : Config) (db : DB) (userID emailID : Int)
    (mailbox ipAddress userAgent : String) : Except String OutlookMail × DB :=
  match EmailService.GetEmailByID env db userID emailID with
  | Except.error err => (Except.error err, db)
  | Except.ok email =>
    match OutlookHelper.GetLatestMail env (NewOutlookService cfg.OutlookAPI) email mailbox "json" with
    | Except.error err =>
      (Except.error err,
        (LogEmail env db userID "get_latest_mail_failed" emailID
          ("获取最新邮件失败: " ++ err) ipAddress userAgent).2)
    | Except.ok mail =>
      let db1 := (EmailRepository.UpdateLastOperation env db emailID).2
      (Except.ok mail,
        (LogEmail env db1 userID "get_latest_mail" emailID
          ("获取最新邮件成功，邮箱: " ++ email.EmailAddress) ipAddress userAgent).2)

/-- Service call `EmailService.GetAllMails`. -/
def EmailService.GetAllMails (env : Env) (cfg : Config) (db : DB) (userID emailID : Int)
    (mailbox ipAddress userAgent : String) : Except String (List OutlookMail) × DB :=
  match EmailService.GetEmailByID env db userID emailID with
  | Except.error err => (Except.error err, db)
  | Except.ok email =>
    match OutlookHelper.GetAllMails env (NewOutlookService cfg.OutlookAPI) email mailbox with
    | Except.error err =>
      (Except.error err,
        (LogEmail env db userID "get_all_mails_failed" emailID
          ("获取全部邮件失败: " ++ err) ipAddress userAgent).2)
    | Except.ok mails =>
      let db1 := (EmailRepository.UpdateLastOperation env db emailID).2
      (Except.ok mails,
        (LogEmail env db1 userID "get_all_mails" emailID
          ("获取全部邮件成功，邮箱: " ++ email.EmailAddress ++ "，邮件数量: " ++
            toString mails.length) ipAddress userAgent).2)

/-- Service call `EmailService.ClearInbox`. -/
def EmailService.ClearInbox (env : Env) (cfg : Config) (db : DB) (userID emailID : Int)
    (ipAddress userAgent : String) : Option String × DB :=
  match EmailService.GetEmailByID env db userID emailID with
  | Except.error err => (some err, db)
  | Except.ok email =>
    match OutlookHelper.ClearInbox env (NewOutlookService cfg.OutlookAPI) email with
    | some err =>
      (some err,
        (LogEmail env db userID "clear_inbox_failed" emailID
          ("清空收件箱失败: " ++ err) ipAddress userAgent).2)
    | none =>
      let db1 := (EmailRepository.UpdateLastOperation env db emailID).2
      (none,
        (LogEmail env db1 userID "clear_inbox" emailID
          ("清空收件箱成功，邮箱: " ++ email.EmailAddress) ipAddress userAgent).2)

/-- The loop `for _, emailID := range emailIDs` of `BatchClearInbox`, from
the database, `successCount` and `errors` so far. -/
def clearInboxLoop (env : Env) (cfg : Config) (userID : Int) (ipAddress userAgent : String) :
    List Int → DB → Int → List String → DB × Int × List String
  | [], db, successCount, errors => (db, successCount, errors)
  | emailID :: rest, db, successCount, errors =>
    match EmailService.GetEmailByID env db userID emailID with
    | Except.error err =>
      clearInboxLoop env cfg userID ipAddress userAgent rest db successCount
        (errors ++ ["邮箱ID " ++ toString emailID ++ ": " ++ err])
    | Except.ok email =>
      match ClearInbox env (NewOutlookService cfg.OutlookAPI) email with
      | some err =>
        let db1 := (LogEmail env db userID "clear_inbox_failed" emailID
          ("批量清空收件箱失败: " ++ err) ipAddress userAgent).2
        clearInboxLoop env cfg userID ipAddress userAgent rest db1 successCount
          (errors ++ ["邮箱 " ++ email.EmailAddress ++ ": " ++ err])
      | none =>
        let db1 := (EmailRepository.UpdateLastOperation env db emailID).2
        let db2 := (LogEmail env db1 userID "clear_inbox" emailID
          ("批量清空收件箱成功，邮箱: " ++ email.EmailAddress) ipAddress userAgent).2
        clearInboxLoop env cfg userID ipAddress userAgent rest db2 (successCount + 1) errors

/-- Service call `EmailService.BatchClearInbox`: the number of cleared
inboxes, the error messages and the returned error, which is always nil. -/
def BatchClearInbox (env : Env) (cfg : Config) (db : DB) (userID : Int) (emailIDs : List Int)
    (ipAddress userAgent : String) : (Int × List String × Option String) × DB :=
  if emailIDs.length = 0 then ((0, [], none), db)
  else
    match clearInboxLoop env cfg userID ipAddress userAgent emailIDs db 0 [] with
    | (db1, successCount, errors) =>
      ((successCount, errors, none),
        (LogEmail env db1 userID "batch_clear_inbox" 0
          ("批量清空收件箱，成功: " ++ toString successCount ++ ", 失败: " ++
            toString errors.length) ipAddress userAgent).2)

/-! ## Operation kinds (`internal/constants/operation_types.go`) -/

/-- The map `OperationTypeNames`, entry by entry in the order of the source;
its keys are the constants `OpLoginSuccess` ... `OpBatchUntagEmails`. -/
def OperationTypeNames : List (String × String) :=
  [("login_success", "登录成功"),
   ("login_failed", "登录失败"),
   ("logout", "退出登录"),
   ("clear_all_logs", "清空操作日志"),
   ("email_added", "添加邮箱"),
   ("email_deleted", "删除邮箱"),
   ("email_updated", "更新邮箱"),
   ("email_validation_failed", "邮箱验证失败"),
   ("batch_add_emails", "批量添加邮箱"),
   ("batch_delete_emails", "批量删除邮箱"),
   ("get_latest_mail", "获取最新邮件"),
   ("get_latest_mail_failed", "获取邮件失败"),
   ("get_all_mails", "获取全部邮件"),
   ("get_all_mails_failed", "获取邮件失败"),
   ("clear_inbox", "清空收件箱"),
   ("clear_inbox_failed", "清空收件箱失败"),
   ("clear_junk", "清空垃圾箱"),
   ("clear_junk_failed", "清空垃圾箱失败"),
   ("tag_created", "创建标签"),
   ("tag_updated", "更新标签"),
   ("tag_deleted", "删除标签"),
   ("email_tagged", "添加标签"),
   ("email_untagged", "移除标签"),
   ("batch_tag_emails", "批量添加标签"),
   ("batch_untag_emails", "批量移除标签")]

/-- Function `constants.GetOperationTypeName`. -/
def GetOperationTypeName (operationType : String) : String :=
  match OperationTypeNames.lookup operationType with
  | some name => name
  | none => operationType

/-! ## Statistics of the audit log (`internal/database/log_repository.go`) -/

/-- The `query` of `LogRepository.GetOperationStats`, its white space
normalised. -/
def queryGetOperationStats : String :=
  "SELECT operation_type, COUNT(*) as count FROM operation_logs WHERE user_id = ? " ++
    "GROUP BY operation_type ORDER BY count DESC"

/-- The rows of the query of `GetOperationStats`: one row per operation kind
of the account with the number of its entries, the larger counts first. SQL
leaves the order of rows with equal counts open; here they come in the order
in which the kinds first occur in the table. -/
def statRows (db : DB) (userID : Int) : List (String × Int) :=
  let mine := db.operation_logs.filter (fun l => decide (l.UserID = userID))
  let kinds := (mine.map OperationLog.OperationType).eraseDups
  (kinds.map (fun k =>
      (k, ((mine.countP (fun l => decide (l.OperationType = k)) : Nat) : Int)))).insertionSort
    (fun a b => b.2 ≤ a.2)

/-- The assignment `m[key] = value` on a Go `map[string]int` kept as the
list of its entries. -/
def mapSet (m : List (String × Int)) (key : String) (value : Int) : List (String × Int) :=
  if m.any (fun e => decide (e.1 = key)) then
    m.map (fun e => if e.1 = key then (key, value) else e)
  else m ++ [(key, value)]

/-- Repository call `LogRepository.GetOperationStats`: the map built by
`stats[operationName] = count`, row after row. -/
def GetOperationStats (env : Env) (db : DB) (userID : Int) :
    Except String (List (String × Int)) :=
  match env.stmtErr queryGetOperationStats with
  | some err => Except.error err
  | none =>
    Except.ok ((statRows db userID).foldl
      (fun stats row => mapSet stats (GetOperationTypeName row.1) row.2) [])

/-! ## The auth service (`internal/auth/service.go`) -/

/-- The record `LogRepository.LogAuth` hands to `CreateLog`. -/
def authLog (userID : Int) (operation description ipAddress userAgent : String) :
    OperationLog :=
  { UserID := userID
    OperationType := operation
    TargetType := "auth"
    TargetID := none
    Description := description
    IPAddress := ipAddress
    UserAgent := userAgent }

/-- Repository call `LogRepository.LogAuth`. -/
def LogAuth (env : Env) (db : DB) (userID : Int)
    (operation description ipAddress userAgent : String) : Option String × DB :=
  CreateLog env db (authLog userID operation description ipAddress userAgent)

/-- Service call `auth.Service.Login`. The errors of `LogAuth` are dropped,
as the code drops them. -/
def Login (env : Env) (cfg : Config) (db : DB) (authToken ipAddress userAgent : String) :
    Except String LoginResponse × DB :=
  if authToken ≠ cfg.AuthToken then
    (Except.error "授权码错误",
      (LogAuth env db 0 "login_failed" "授权码错误" ipAddress userAgent).2)
  else
    let user : User := { ID := 1, Username := "admin" }
    match env.generateToken user.ID user.Username with
    | Except.error _ => (Except.error "生成令牌失败", db)
    | Except.ok (token, expiresAt) =>
      (Except.ok
        { Token := token
          ExpiresAt := expiresAt
          User := { ID := user.ID, Username := user.Username } },
        (LogAuth env db user.ID "login_success" "用户登录成功" ipAddress userAgent).2)

/-- Service call `auth.Service.Logout`: what `LogAuth` returns. -/
def Logout (env : Env) (db : DB) (userID : Int) (ipAddress userAgent : String) :
    Option String × DB :=
  LogAuth env db userID "logout" "用户登出" ipAddress userAgent

/-- The message of the run-time panic of a nil pointer dereference. -/
def nilPointerPanic : String :=
  "runtime error: invalid memory address or nil pointer dereference"

/-- Method `JWTManager.ValidateToken` (`internal/auth/jwt.go`): the parse,
the check of `token.Valid`, then the comparison of `exp` with the clock. For
a token without `exp` the field `claims.ExpiresAt` is nil and the method
panics; the panic is given here as the returned error. -/
def JWTManager.ValidateToken (env : Env) (tokenString : String) : Except String JWTClaims :=
  match env.parseWithClaims tokenString with
  | Except.error err => Except.error err
  | Except.ok (claims, valid) =>
    if !valid then Except.error "invalid token"
    else
      match claims.ExpiresAt with
      | none => Except.error nilPointerPanic
      | some expiresAt =>
        if expiresAt < env.now then Except.error "token expired"
        else Except.ok claims

/-- Method `JWTManager.RefreshToken`: a token is refreshed only within the
30 minutes (1800 seconds) before it expires. -/
def JWTManager.RefreshToken (env : Env) (tokenString : String) :
    Except String (String × Int) :=
  match JWTManager.ValidateToken env tokenString with
  | Except.error err => Except.error err
  | Except.ok claims =>
    match claims.ExpiresAt with
    | none => Except.error nilPointerPanic
    | some expiresAt =>
      if (expiresAt : Int) - (env.now : Int) > 1800 then
        Except.error "token not eligible for refresh"
      else env.generateToken claims.UserID claims.Username

/-- Service call `auth.Service.RefreshToken`. -/
def Service.RefreshToken (env : Env) (db : DB) (tokenString ipAddress userAgent : String) :
    Except String LoginResponse × DB :=
  match JWTManager.ValidateToken env tokenString with
  | Except.error err => (Except.error err, db)
  | Except.ok claims =>
    match UserRepository.GetUserByID env db claims.UserID with
    | Except.error _ => (Except.error "用户不存在", db)
    | Except.ok user =>
      match JWTManager.RefreshToken env tokenString with
      | Except.error err => (Except.error err, db)
      | Except.ok (newToken, expiresAt) =>
        (Except.ok
          { Token := newToken
            ExpiresAt := expiresAt
            User :=
              { ID := user.ID
                Username := user.Username
                LastLoginAt := user.LastLoginAt
                CreatedAt := user.CreatedAt
                UpdatedAt := user.UpdatedAt } },
          (LogAuth env db user.ID "token_refresh" "令牌刷新" ipAddress userAgent).2)

/-- Service call `auth.Service.ChangePassword`: the new hash is made by
creating a user named after the old one, and is then only assigned to the
local `user`. -/
def Service.ChangePassword (env : Env) (db : DB) (userID : Int)
    (oldPassword newPassword ipAddress userAgent : String) : Option String × DB :=
  match UserRepository.GetUserByID env db userID with
  | Except.error _ => (some "用户不存在", db)
  | Except.ok user =>
    if !UserRepository.ValidatePassword env user oldPassword then
      (some "旧密码错误",
        (LogAuth env db userID "password_change_failed" "旧密码错误" ipAddress userAgent).2)
    else
      match UserRepository.CreateUser env db (user.Username ++ "_temp") newPassword with
      | (Except.error _, db1) => (some "密码加密失败", db1)
      | (Except.ok _, db1) =>
        (none,
          (LogAuth env db1 userID "password_changed" "密码修改成功" ipAddress userAgent).2)

/-- Service call `auth.Service.CreateUser`. -/
def Service.CreateUser (env : Env) (db : DB) (username password ipAddress userAgent : String)
    (operatorID : Int) : Except String User × DB :=
  match UserRepository.UserExists env db username with
  | (_, some err) => (Except.error err, db)
  | (true, none) => (Except.error "用户名已存在", db)
  | (false, none) =>
    match UserRepository.CreateUser env db username password with
    | (Except.error err, db1) => (Except.error err, db1)
    | (Except.ok user, db1) =>
      (Except.ok { user with PasswordHash := "" },
        (LogAuth env db1 operatorID "user_created" ("创建用户: " ++ username)
          ipAddress userAgent).2)

/-! ## Export and import of credentials

The library calls of package `strings` work on a `String` through its list
of characters; a file content is taken to be valid UTF-8. -/

/-- Function `unicode.IsSpace`: the characters `strings.TrimSpace` removes. -/
def unicode.IsSpace (c : Char) : Bool :=
  (9 ≤ c.toNat && c.toNat ≤ 13) || c.toNat == 32 || c.toNat == 0x85 || c.toNat == 0xA0 ||
    c.toNat == 0x1680 || (0x2000 ≤ c.toNat && c.toNat ≤ 0x200A) || c.toNat == 0x2028 ||
    c.toNat == 0x2029 || c.toNat == 0x202F || c.toNat == 0x205F || c.toNat == 0x3000

/-- Function `strings.TrimSpace`. -/
def strings.TrimSpace (s : String) : String :=
  String.mk ((s.data.dropWhile unicode.IsSpace).reverse.dropWhile unicode.IsSpace).reverse

/-- Whether `substr` occurs in a list of characters. -/
def containsChars (substr : List Char) : List Char → Bool
  | [] => substr.isPrefixOf []
  | c :: rest => substr.isPrefixOf (c :: rest) || containsChars substr rest

/-- Function `strings.Contains`. -/
def strings.Contains (s substr : String) : Bool := containsChars substr.data s.data

/-- The pieces `strings.Split` cuts a list of characters into, for a
separator that is not empty: the text is read from the left, `cur` is the
piece read so far, and after an occurrence of the separator its remaining
`skip` characters are passed over. -/
def splitChars (sep : List Char) : Nat → List Char → List Char → List (List Char)
  | _, [], cur => [cur]
  | skip + 1, _ :: rest, cur => splitChars sep skip rest cur
  | 0, c :: rest, cur =>
    if sep.isPrefixOf (c :: rest) then cur :: splitChars sep (sep.length - 1) rest []
    else splitChars sep 0 rest (cur ++ [c])

/-- Function `strings.Split`, for the separators the program uses (none is
empty). -/
def strings.Split (s sep : String) : List String :=
  (splitChars sep.data 0 s.data []).map String.mk

/-- Function `strings.ReplaceAll`, for an `old` that is not empty. -/
def strings.ReplaceAll (s old new : String) : String :=
  new.intercalate (strings.Split s old)

/-- Method `EmailService.escapeCSV`. -/
def escapeCSV (field : String) : String :=
  if strings.Contains field "\"" then strings.ReplaceAll field "\"" "\"\"" else field

/-- Method `EmailService.generateExportContent`. -/
def generateExportContent (env : Env) (emails : List Email) (format : String) : String :=
  if emails.length = 0 then ""
  else if format = "csv" then
    "邮箱地址,密码,RefreshToken,ClientID,备注,添加时间\n" ++
      String.join (emails.map (fun email =>
        "\"" ++ escapeCSV email.EmailAddress ++ "\",\"" ++ escapeCSV email.Password ++
          "\",\"" ++ escapeCSV email.RefreshToken ++ "\",\"" ++ escapeCSV email.ClientID ++
          "\",\"" ++ escapeCSV email.Remark ++ "\",\"" ++ env.formatTime email.CreatedAt ++
          "\"" ++ "\n"))
  else
    String.join (emails.map (fun email =>
      email.EmailAddress ++ "----" ++ email.Password ++ "----" ++ email.RefreshToken ++
        "----" ++ email.ClientID ++ "\n"))

/-- The function `less` that `sortEmails` hands to `sort.Slice`. -/
def sortLess (sortField sortDirection : String) (a b : Email) : Bool :=
  let less : Bool :=
    if sortField = "email_address" then decide (a.EmailAddress < b.EmailAddress)
    else if sortField = "password" then decide (a.Password < b.Password)
    else if sortField = "refresh_token" then decide (a.RefreshToken < b.RefreshToken)
    else if sortField = "client_id" then decide (a.ClientID < b.ClientID)
    else if sortField = "created_at" then decide (a.CreatedAt < b.CreatedAt)
    else decide (a.EmailAddress < b.EmailAddress)
  if sortDirection = "desc" then !less else less

/-- Helper `EmailService.sortEmails`. -/
def sortEmails (env : Env) (emails : List Email) (sortField sortDirection : String) :
    List Email :=
  env.sortSlice emails (sortLess sortField sortDirection)

/-- Service call `EmailService.ExportEmails`. -/
def ExportEmails (env : Env) (db : DB) (userID : Int) (req : ExportEmailRequest)
    (ipAddress userAgent : String) : Except String ExportEmailResponse × DB :=
  let selected : Except String (List Email) :=
    if req.Range = "selected" then
      if req.EmailIDs.length = 0 then Except.error "选择导出时必须提供邮箱ID列表"
      else
        match env.getEmailsByIDs db userID req.EmailIDs with
        | Except.error err => Except.error err
        | Except.ok emails =>
          if emails.length ≠ req.EmailIDs.length then Except.error "部分邮箱不存在或无权访问"
          else Except.ok emails
    else env.getEmailsForExport db userID req.SortField req.SortDirection
  match selected with
  | Except.error err => (Except.error err, db)
  | Except.ok found =>
    let emails :=
      if req.Range = "selected" ∧ found.length > 1 then
        sortEmails env found req.SortField req.SortDirection
      else found
    let content := generateExportContent env emails req.Format
    (Except.ok { Content := content, Count := emails.length, Format := req.Format },
      (LogEmail env db userID "export_emails" 0
        ("导出邮箱数据，范围: " ++ req.Range ++ "，格式: " ++ req.Format ++ "，数量: " ++
          toString emails.length) ipAddress userAgent).2)

/-- The body of the loop of `parseEmailFile` for line `i` (counted from 0)
once it is trimmed and not empty: the record appended to `emails`, or the
message appended to `errors`. -/
def parseEmailLine (i : Nat) (line : String) : Except String AddEmailRequest :=
  let parts : Option (List String) :=
    if strings.Contains line "----" then some (strings.Split line "----")
    else if strings.Contains line "," then some (strings.Split line ",")
    else none
  match parts with
  | none => Except.error ("第" ++ toString (i + 1) ++ "行格式错误: " ++ line)
  | some parts =>
    if parts.length < 4 then
      Except.error ("第" ++ toString (i + 1) ++ "行数据不完整: " ++ line)
    else
      let email : AddEmailRequest :=
        { EmailAddress := strings.TrimSpace (parts.getD 0 "")
          Password := strings.TrimSpace (parts.getD 1 "")
          ClientID := strings.TrimSpace (parts.getD 2 "")
          RefreshToken := strings.TrimSpace (parts.getD 3 "")
          Remark := if parts.length > 4 then strings.TrimSpace (parts.getD 4 "") else "" }
      if email.EmailAddress = "" ∨ email.Password = "" ∨ email.ClientID = "" ∨
          email.RefreshToken = "" then
        Except.error ("第" ++ toString (i + 1) ++ "行必填字段为空: " ++ line)
      else Except.ok email

/-- The loop `for i, line := range lines` of `parseEmailFile`, from line `i`
and the slices `emails` and `errors` built so far. -/
def parseEmailLoop :
    Nat → List String → List AddEmailRequest → List String →
      List AddEmailRequest × List String
  | _, [], emails, errors => (emails, errors)
  | i, line :: rest, emails, errors =>
    if strings.TrimSpace line = "" then parseEmailLoop (i + 1) rest emails errors
    else
      match parseEmailLine i (strings.TrimSpace line) with
      | Except.error msg => parseEmailLoop (i + 1) rest emails (errors ++ [msg])
      | Except.ok email => parseEmailLoop (i + 1) rest (emails ++ [email]) errors

/-- Method `Server.parseEmailFile`. -/
def parseEmailFile (content : String) : List AddEmailRequest × List String :=
  parseEmailLoop 0 (strings.Split content "\n") [] []

/-! ## Handlers (`internal/api/server.go`) -/

/-- What a handler reads from its `*gin.Context`: the account the
authentication middleware stored (`auth.GetCurrentUserID`), the path
parameter `id`, `c.ClientIP()`, the header `User-Agent` and the body of the
request, which `c.ShouldBindJSON` decodes. -/
structure Context where
  currentUserID : Option Int := none
  paramID : String := ""
  clientIP : String := ""
  userAgent : String := ""
  body : String := ""
deriving DecidableEq, Repr

/-- Handler `Server.handleDeleteTag`: the status and body given to `c.JSON`,
and the database after the call. -/
def handleDeleteTag (env : Env) (db : DB) (c : Context) : (Nat × APIResponse) × DB :=
  match c.currentUserID with
  | none =>
    ((401, { Success := false, Message := "未认证", Error := "user not authenticated" }), db)
  | some userID =>
    match env.atoi c.paramID with
    | none =>
      ((400, { Success := false, Message := "无效的标记ID", Error := "invalid tag id" }), db)
    | some tagID =>
      match GetTagByID env db tagID with
      | Except.error err =>
        ((404, { Success := false, Message := "标记不存在", Error := err }), db)
      | Except.ok tag =>
        match GetTagEmailCount env db tagID with
        | (_, some err) =>
          ((500, { Success := false, Message := "检查标记使用情况失败", Error := err }), db)
        | (emailCount, none) =>
          if emailCount > 0 then
            ((400, { Success := false
                     Message := "标记正在被 " ++ toString emailCount ++ " 个邮箱使用，请先解除关联"
                     Error := "tag is in use" }), db)
          else
            match DeleteTag env db tagID with
            | (some err, db1) =>
              ((500, { Success := false, Message := "删除标记失败", Error := err }), db1)
            | (none, db1) =>
              let db2 := (LogTag env db1 userID "tag_deleted" tagID
                ("删除标记: " ++ tag.Name) c.clientIP c.userAgent).2
              ((200, { Success := true, Message := "删除标记成功" }), db2)

/-- Handler `Server.handleLogout`. -/
def handleLogout (env : Env) (db : DB) (c : Context) : (Nat × APIResponse) × DB :=
  match c.currentUserID with
  | none =>
    ((401, { Success := false, Message := "未认证", Error := "user not authenticated" }), db)
  | some userID =>
    match Logout env db userID c.clientIP c.userAgent with
    | (some err, db1) =>
      ((500, { Success := false, Message := "登出失败", Error := err }), db1)
    | (none, db1) => ((200, { Success := true, Message := "登出成功" }), db1)

/-- The value `encoding/json` writes for a `models.Tag`, field by field in
the order of the struct; `email_count` has `omitempty`. -/
def tagJSON (env : Env) (tag : Tag) : JSON :=
  JSON.obj
    ([("id", JSON.num (toString tag.ID)),
      ("name", JSON.str tag.Name),
      ("description", JSON.str tag.Description),
      ("color", JSON.str tag.Color),
      ("created_at", JSON.str (env.marshalTime tag.CreatedAt)),
      ("updated_at", JSON.str (env.marshalTime tag.UpdatedAt))] ++
     (if tag.EmailCount = 0 then [] else [("email_count", JSON.num (toString tag.EmailCount))]))

/-- Handler `Server.handleTagEmail`. -/
def handleTagEmail (env : Env) (db : DB) (c : Context) : (Nat × APIResponse) × DB :=
  match c.currentUserID with
  | none =>
    ((401, { Success := false, Message := "未认证", Error := "user not authenticated" }), db)
  | some userID =>
    match env.atoi c.paramID with
    | none =>
      ((400, { Success := false, Message := "无效的邮箱ID", Error := "invalid email id" }), db)
    | some emailID =>
      match env.bindTagEmailRequest c.body with
      | Except.error err =>
        ((400, { Success := false, Message := "请求参数错误", Error := err }), db)
      | Except.ok req =>
        match EmailService.GetEmailByID env db userID emailID with
        | Except.error err =>
          ((400, { Success := false, Message := "邮箱不存在或无权访问", Error := err }), db)
        | Except.ok _ =>
          match AddEmailTag env db emailID req.TagID with
          | (some err, db1) =>
            ((500, { Success := false, Message := "添加标记失败", Error := err }), db1)
          | (none, db1) =>
            let db2 := (LogEmail env db1 userID "email_tagged" emailID
              ("为邮箱添加标记，标记ID: " ++ toString req.TagID) c.clientIP c.userAgent).2
            ((200, { Success := true, Message := "添加标记成功" }), db2)

/-- Handler `Server.handleCreateTag`. -/
def handleCreateTag (env : Env) (db : DB) (c : Context) : (Nat × APIResponse) × DB :=
  match c.currentUserID with
  | none =>
    ((401, { Success := false, Message := "未认证", Error := "user not authenticated" }), db)
  | some userID =>
    match env.bindCreateTagRequest c.body with
    | Except.error err =>
      ((400, { Success := false, Message := "请求参数错误", Error := err }), db)
    | Except.ok req =>
      match TagExists env db req.Name with
      | (_, some err) =>
        ((500, { Success := false, Message := "检查标记名称失败", Error := err }), db)
      | (true, none) =>
        ((400, { Success := false, Message := "标记名称已存在",
                 Error := "tag name already exists" }), db)
      | (false, none) =>
        let tag : Tag :=
          { Name := req.Name, Description := req.Description, Color := req.Color }
        match CreateTag env db tag with
        | (Except.error err, db1) =>
          ((500, { Success := false, Message := "创建标记失败", Error := err }), db1)
        | (Except.ok createdTag, db1) =>
          let db2 := (LogTag env db1 userID "tag_created" createdTag.ID
            ("创建标记: " ++ req.Name) c.clientIP c.userAgent).2
          ((200, { Success := true, Message := "创建标记成功",
                   Data := some (tagJSON env createdTag) }), db2)

/-- The end of `Server.handleUpdateTag`, from the tag with its new fields. -/
def saveTag (env : Env) (db : DB) (c : Context) (userID tagID : Int) (tag : Tag) :
    (Nat × APIResponse) × DB :=
  match UpdateTag env db tag with
  | (some err, db1) =>
    ((500, { Success := false, Message := "更新标记失败", Error := err }), db1)
  | (none, db1) =>
    let db2 := (LogTag env db1 userID "tag_updated" tagID
      ("更新标记: " ++ tag.Name) c.clientIP c.userAgent).2
    ((200, { Success := true, Message := "更新标记成功", Data := some (tagJSON env tag) }),
      db2)

/-- Handler `Server.handleUpdateTag`. -/
def handleUpdateTag (env : Env) (db : DB) (c : Context) : (Nat × APIResponse) × DB :=
  match c.currentUserID with
  | none =>
    ((401, { Success := false, Message := "未认证", Error := "user not authenticated" }), db)
  | some userID =>
    match env.atoi c.paramID with
    | none =>
      ((400, { Success := false, Message := "无效的标记ID", Error := "invalid tag id" }), db)
    | some tagID =>
      match env.bindUpdateTagRequest c.body with
      | Except.error err =>
        ((400, { Success := false, Message := "请求参数错误", Error := err }), db)
      | Except.ok req =>
        match GetTagByID env db tagID with
        | Except.error err =>
          ((404, { Success := false, Message := "标记不存在", Error := err }), db)
        | Except.ok tag =>
          let rest (tag1 : Tag) : (Nat × APIResponse) × DB :=
            let tag2 : Tag :=
              if req.Description ≠ "" then { tag1 with Description := req.Description }
              else tag1
            let tag3 : Tag := if req.Color ≠ "" then { tag2 with Color := req.Color } else tag2
            saveTag env db c userID tagID tag3
          if req.Name ≠ "" ∧ req.Name ≠ tag.Name then
            match TagExists env db req.Name with
            | (_, some err) =>
              ((500, { Success := false, Message := "检查标记名称失败", Error := err }), db)
            | (true, none) =>
              ((400, { Success := false, Message := "标记名称已存在",
                       Error := "tag name already exists" }), db)
            | (false, none) => rest { tag with Name := req.Name }
          else rest tag

/-- The loop of `handleBatchTagEmails` and of `handleBatchUntagEmails` that
checks that every credential is one of the account: the first identifier
`GetEmailByID` fails on, with the error. -/
def firstForeign (env : Env) (db : DB) (userID : Int) : List Int → Option (Int × String)
  | [] => none
  | emailID :: rest =>
    match EmailService.GetEmailByID env db userID emailID with
    | Except.error err => some (emailID, err)
    | Except.ok _ => firstForeign env db userID rest

/-- Handler `Server.handleBatchTagEmails`. -/
def handleBatchTagEmails (env : Env) (db : DB) (c : Context) : (Nat × APIResponse) × DB :=
  match c.currentUserID with
  | none =>
    ((401, { Success := false, Message := "未认证", Error := "user not authenticated" }), db)
  | some userID =>
    match env.bindTagEmailRequest c.body with
    | Except.error err =>
      ((400, { Success := false, Message := "请求参数错误", Error := err }), db)
    | Except.ok req =>
      match firstForeign env db userID req.EmailIDs with
      | some (emailID, err) =>
        ((400, { Success := false
                 Message := "邮箱ID " ++ toString emailID ++ " 不存在或无权访问"
                 Error := err }), db)
      | none =>
        match GetTagByID env db req.TagID with
        | Except.error err =>
          ((400, { Success := false, Message := "标记不存在", Error := err }), db)
        | Except.ok _ =>
          match BatchAddEmailTags env db req.EmailIDs req.TagID with
          | (some err, db1) =>
            ((500, { Success := false, Message := "批量标记失败", Error := err }), db1)
          | (none, db1) =>
            let db2 := (LogTag env db1 userID "batch_tag_emails" req.TagID
              ("批量标记邮箱，邮箱数量: " ++ toString req.EmailIDs.length)
              c.clientIP c.userAgent).2
            ((200, { Success := true
                     Message := "批量标记成功"
                     Data := some (JSON.obj
                       [("tag_id", JSON.num (toString req.TagID)),
                        ("tagged_count", JSON.num (toString req.EmailIDs.length))]) }), db2)

/-- Handler `Server.handleBatchUntagEmails`. -/
def handleBatchUntagEmails (env : Env) (db : DB) (c : Context) : (Nat × APIResponse) × DB :=
  match c.currentUserID with
  | none =>
    ((401, { Success := false, Message := "未认证", Error := "user not authenticated" }), db)
  | some userID =>
    match env.bindTagEmailRequest c.body with
    | Except.error err =>
      ((400, { Success := false, Message := "请求参数错误", Error := err }), db)
    | Except.ok req =>
      match firstForeign env db userID req.EmailIDs with
      | some (emailID, err) =>
        ((400, { Success := false
                 Message := "邮箱ID " ++ toString emailID ++ " 不存在或无权访问"
                 Error := err }), db)
      | none =>
        match GetTagByID env db req.TagID with
        | Except.error err =>
          ((400, { Success := false, Message := "标记不存在", Error := err }), db)
        | Except.ok _ =>
          match BatchRemoveEmailTags env db req.EmailIDs req.TagID with
          | (some err, db1) =>
            ((500, { Success := false, Message := "批量取消标记失败", Error := err }), db1)
          | (none, db1) =>
            let db2 := (LogTag env db1 userID "batch_untag_emails" req.TagID
              ("批量取消标记邮箱，邮箱数量: " ++ toString req.EmailIDs.length)
              c.clientIP c.userAgent).2
            ((200, { Success := true
                     Message := "批量取消标记成功"
                     Data := some (JSON.obj
                       [("tag_id", JSON.num (toString req.TagID)),
                        ("untagged_count", JSON.num (toString req.EmailIDs.length))]) }),
              db2)

/-- Handler `Server.handleClearLogs`. -/
def handleClearLogs (env : Env) (db : DB) (c : Context) : (Nat × APIResponse) × DB :=
  match c.currentUserID with
  | none =>
    ((401, { Success := false, Message := "未认证", Error := "user not authenticated" }), db)
  | some userID =>
    match ClearAllLogs env db userID with
    | (some err, db1) =>
      ((500, { Success := false, Message := "清空操作日志失败", Error := err }), db1)
    | (none, db1) =>
      let db2 := (LogAuth env db1 userID "clear_all_logs" "清空所有操作日志"
        c.clientIP c.userAgent).2
      ((200, { Success := true, Message := "操作日志已清空" }), db2)

/-! ## Reference points for the proofs -/

/-- The result a worker sends for `task`: the body of `for task := range
taskChan` run from the receive to the `resultChan <- result` it ends in. -/
def processTask (env : Env) (cfg : Config) (db : DB) (userID : Int) (task : emailTask) :
    emailResult :=
  let result : emailResult := { index := task.index }
  match EmailExists env db userID task.req.EmailAddress with
  | (_, some err) =>
    { result with error := "邮箱 " ++ task.req.EmailAddress ++ ": 检查邮箱存在性失败: " ++ err }
  | (true, none) =>
    { result with error := "邮箱 " ++ task.req.EmailAddress ++ ": 邮箱已存在" }
  | (false, none) =>
    let email := newEmail userID task.req
    if !cfg.SkipEmailValidation then
      match ValidateEmailCredentials env (NewOutlookService cfg.OutlookAPI) email with
      | some err => { result with error := "邮箱 " ++ task.req.EmailAddress ++ ": " ++ err }
      | none => { result with email := some email }
    else { result with email := some email }

/-- The indices of the tasks a worker holds (none or one). -/
def held : Worker → Multiset Nat
  | Worker.checking task => {task.index}
  | Worker.validating task _ => {task.index}
  | _ => 0

/-- The indices of the tasks held by the workers of a pool. -/
def heldAll (ws : List Worker) : Multiset Nat := (ws.map held).sum

/-- Whether a worker is inside `ValidateEmailCredentials`. -/
def Worker.inGateway : Worker → Bool
  | Worker.validating _ _ => true
  | _ => false

/-- Whether a worker holds a task. -/
def Worker.holdsTask : Worker → Bool
  | Worker.checking _ => true
  | Worker.validating _ _ => true
  | _ => false

/-- The number of workers inside `ValidateEmailCredentials`, that is the
number of gateway calls in flight. -/
def inFlight (p : Pool) : Nat := p.workers.countP Worker.inGateway

/-- The number of workers that hold a task. -/
def busy (p : Pool) : Nat := p.workers.countP Worker.holdsTask

/-- What a worker has left to do, in steps. -/
def workerWeight : Worker → Nat
  | Worker.waiting => 1
  | Worker.checking _ => 4
  | Worker.validating _ _ => 3
  | Worker.exited => 0

/-- A bound on the number of steps a pool can still take. -/
def stepsLeft (p : Pool) : Nat :=
  5 * p.toSend.length + (if p.closed then 0 else 1) + 4 * p.taskChan.length +
    (p.workers.map workerWeight).sum + p.resultChan.length

/-- A worker holds a task of the batch, and is inside the gateway call only
for a task whose address the store does not know, with validation on. -/
def WorkerOk (env : Env) (cfg : Config) (db : DB) (userID : Int) (tasks : List emailTask) :
    Worker → Prop
  | Worker.checking task => task ∈ tasks
  | Worker.validating task email =>
    task ∈ tasks ∧ EmailExists env db userID task.req.EmailAddress = (false, none) ∧
      email = newEmail userID task.req ∧ cfg.SkipEmailValidation = false
  | _ => True

/-- An event belongs to a task of the batch, and a gateway call to a task
whose address the store does not know, with validation on. -/
def EventOk (env : Env) (cfg : Config) (db : DB) (userID : Int) (tasks : List emailTask) :
    Event → Prop
  | Event.existsQuery index uid emailAddress =>
    ∃ task ∈ tasks, task.index = index ∧ uid = userID ∧ emailAddress = task.req.EmailAddress
  | Event.gatewayCall index email =>
    ∃ task ∈ tasks, task.index = index ∧ email = newEmail userID task.req ∧
      EmailExists env db userID task.req.EmailAddress = (false, none) ∧
      cfg.SkipEmailValidation = false

/-- The invariant of a run over the batch `tasks` with `w` workers: every
task is at exactly one place (to be sent, queued, held, answered or stored),
every answer is the one `processTask` gives, and `received` counts the
stored ones. -/
structure Inv (env : Env) (cfg : Config) (db : DB) (userID : Int) (tasks : List emailTask)
    (w : Nat) (p : Pool) : Prop where
  send : ∀ task ∈ p.toSend, task ∈ tasks
  chan : ∀ task ∈ p.taskChan, task ∈ tasks
  wok : ∀ wk ∈ p.workers, WorkerOk env cfg db userID tasks wk
  res : ∀ r ∈ p.resultChan, ∃ task ∈ tasks, r = processTask env cfg db userID task
  len : p.results.length = tasks.length
  wlen : p.workers.length = w
  place : ∃ stored : List Nat, stored.length = p.received ∧
    ((p.toSend.map emailTask.index : Multiset Nat) + (p.taskChan.map emailTask.index : Multiset Nat)
      + heldAll p.workers + (p.resultChan.map emailResult.index : Multiset Nat)
      + (stored : Multiset Nat) = (tasks.map emailTask.index : Multiset Nat)) ∧
    ∀ task ∈ tasks, task.index ∈ stored →
      p.results[task.index]? = some (processTask env cfg db userID task)
  closedSend : p.closed = true → p.toSend = []
  exitedOk : Worker.exited ∈ p.workers → p.closed = true ∧ p.taskChan = []
  events : ∀ ev ∈ p.trace, EventOk env cfg db userID tasks ev

/-- The credential a result contributes to `validEmails`, if any. -/
def validOf (r : emailResult) : Option Email :=
  if r.error ≠ "" then none else r.email

/-- The message a result contributes to `errors`, if any. -/
def errorOf (r : emailResult) : Option String :=
  if r.error ≠ "" then some r.error else none

/-- The results of a batch in input order, one per candidate. -/
def batchResults (env : Env) (cfg : Config) (db : DB) (userID : Int)
    (emails : List AddEmailRequest) : List emailResult :=
  (tasksFrom 0 emails).map (processTask env cfg db userID)

/-- The failure message of a candidate whose address the account already has. -/
def duplicateError (emailAddress : String) : String :=
  "邮箱 " ++ emailAddress ++ ": 邮箱已存在"

/-- An audit row without what the database assigns (identifier, timestamp). -/
def stripLog (l : OperationLog) : OperationLog :=
  { l with ID := 0, CreatedAt := 0 }

/-- The audit records a finished batch hands to the log writer: one
`email_added` per saved credential, then the `batch_add_emails` summary. -/
def batchLogs (userID : Int) (ipAddress userAgent : String) (successEmails : List Email)
    (errors : List String) : List OperationLog :=
  successEmails.map (fun email =>
      emailLog userID "email_added" email.ID ("添加邮箱: " ++ email.EmailAddress)
        ipAddress userAgent) ++
    [emailLog userID "batch_add_emails" 0
      ("批量添加邮箱，成功: " ++ toString successEmails.length ++ ", 失败: " ++
        toString errors.length) ipAddress userAgent]

/-- Put a success list and an error list back together by original index:
`failed` says, item by item, whether the item is in the error list. -/
def mergeByIndex : List Bool → List Email → List String → List (Email ⊕ String)
  | true :: failed, successEmails, message :: errors =>
    Sum.inr message :: mergeByIndex failed successEmails errors
  | false :: failed, email :: successEmails, errors =>
    Sum.inl email :: mergeByIndex failed successEmails errors
  | _, _, _ => []

/-- Hand audit records to `CreateLog` one after the other; its errors are
dropped, as every caller of `LogEmail` in `BatchAddEmails` drops them. -/
def writeLogs (env : Env) : List OperationLog → DB → DB
  | [], db => db
  | l :: ls, db => writeLogs env ls (CreateLog env db l).2

/-- The values `BatchCreateEmails` returns for the credentials it inserts when
the AUTOINCREMENT counter stands at `seq`: identifier, owner, address, remark
and the timestamps of the argument; the secrets are not copied. -/
def savedFrom (seq : Int) : List Email → List Email
  | [] => []
  | email :: rest =>
    { ID := seq + 1
      UserID := email.UserID
      EmailAddress := email.EmailAddress
      Remark := email.Remark
      CreatedAt := email.CreatedAt
      UpdatedAt := email.UpdatedAt } :: savedFrom (seq + 1) rest

/-- The rows `BatchCreateEmails` inserts when the counter stands at `seq`. -/
def rowsFrom (env : Env) (seq : Int) : List Email → List Email
  | [] => []
  | email :: rest =>
    { ID := seq + 1
      UserID := email.UserID
      EmailAddress := email.EmailAddress
      Password := email.Password
      ClientID := email.ClientID
      RefreshToken := email.RefreshToken
      Remark := email.Remark
      CreatedAt := env.now
      UpdatedAt := env.now } :: rowsFrom env (seq + 1) rest

/-- The gateway answers the POST to `requestURL` with the status code
`status` and a body that reads as `body`. -/
def Answers (env : Env) (requestURL : String) (status : Nat) (body : String) : Prop :=
  env.newRequestErr requestURL = none ∧
    ∀ req : HTTPRequest, req.url = requestURL →
      ∃ resp, env.httpDo req = Except.ok resp ∧ resp.StatusCode = status ∧
        resp.body = Except.ok body

/-- The error the three gateway calls return for a response whose status
code is not 200. -/
def statusError (status : Nat) (body : String) : String :=
  "API请求失败，状态码: " ++ toString status ++ ", 响应: " ++ body

/-- Whether a JSON value is one that `encoding/json` stores into a
`map[string]interface{}`: an object, or `null`. -/
def JSON.isObjectOrNull : JSON → Bool
  | JSON.null => true
  | JSON.obj _ => true
  | _ => false

/-- Neither `date` nor `receivedDateTime` of the message object is a string
that parses as an RFC 3339 timestamp. -/
def NoTimestamp (env : Env) (mailData : JSONMap) : Prop :=
  (∀ str, mapLookup mailData "date" = some (JSON.str str) → env.parseRFC3339 str = none) ∧
    (∀ str, mapLookup mailData "receivedDateTime" = some (JSON.str str) →
      env.parseRFC3339 str = none)

/-- The store states that `AddEmail`, `BatchAddEmails`, `UpdateEmail`,
`DeleteEmail` and `BatchDeleteEmails` lead to from the empty store, whatever
the arguments, the configuration, the schedule and the environment of each
call. -/
inductive Reachable : DB → Prop
  | empty : Reachable {}
  | addEmail (env : Env) (cfg : Config) (db : DB) (userID : Int) (req : AddEmailRequest)
      (ipAddress userAgent : String) :
      Reachable db → Reachable (AddEmail env cfg db userID req ipAddress userAgent).2
  | batchAddEmails (env : Env) (cfg : Config) (sched : List Nat) (db : DB) (userID : Int)
      (req : BatchAddEmailRequest) (ipAddress userAgent : String) :
      Reachable db →
        Reachable (BatchAddEmails env cfg sched db userID req ipAddress userAgent).2.1
  | updateEmail (env : Env) (cfg : Config) (db : DB) (userID emailID : Int)
      (req : AddEmailRequest) (ipAddress userAgent : String) :
      Reachable db → Reachable (UpdateEmail env cfg db userID emailID req ipAddress userAgent).2
  | deleteEmail (env : Env) (db : DB) (userID emailID : Int) (ipAddress userAgent : String) :
      Reachable db → Reachable (DeleteEmail env db userID emailID ipAddress userAgent).2
  | batchDeleteEmails (env : Env) (db : DB) (userID : Int) (emailIDs : List Int)
      (ipAddress userAgent : String) :
      Reachable db → Reachable (BatchDeleteEmails env db userID emailIDs ipAddress userAgent).2

/-- No two credentials of the store share the pair (account, mailbox
address). -/
def UniquePairs (db : DB) : Prop :=
  db.emails.Pairwise (fun a b => ¬ (a.UserID = b.UserID ∧ a.EmailAddress = b.EmailAddress))

/-- What the table `emails` keeps true: no identifier exceeds the
AUTOINCREMENT counter, no two rows share an identifier, and no two rows share
the pair (account, mailbox address). -/
def StoreOk (db : DB) : Prop :=
  (∀ e ∈ db.emails, e.ID ≤ db.emailSeq) ∧ (db.emails.map Email.ID).Nodup ∧ UniquePairs db

/-- The identifier names a credential of the account. -/
def Owns (db : DB) (userID emailID : Int) : Prop :=
  ∃ row, db.emails.find? (fun e => decide (e.ID = emailID)) = some row ∧ row.UserID = userID

/-- No step of the transaction of `EmailRepository.BatchDeleteEmails` fails,
and neither does the SELECT of `GetEmailByID`. -/
def NoDeleteFault (env : Env) : Prop :=
  env.stmtErr queryGetEmailByID = none ∧ env.beginErr = none ∧
    env.prepareStmtErr queryDeleteEmailTags = none ∧
    env.prepareStmtErr queryDeleteEmail = none ∧
    (∀ id, env.execIDErr queryDeleteEmailTags id = none) ∧
    (∀ id, env.execIDErr queryDeleteEmail id = none) ∧ env.commitErr = none

/-- Every audit record of `db1` was already in `db` or has one of the kinds
`kinds`: what an operation that takes `db` to `db1` may write. -/
def WritesOnly (kinds : List String) (db db1 : DB) : Prop :=
  ∀ l ∈ db1.operation_logs, l ∈ db.operation_logs ∨ l.OperationType ∈ kinds

/-- The operation kinds that are written and have no entry in
`OperationTypeNames`. -/
def unlabelledKinds : List String :=
  ["email_validation_skipped", "batch_clear_inbox", "export_emails", "token_refresh",
   "password_change_failed", "password_changed", "user_created"]

/-- The kinds of the audit records of a database, in order. -/
def kindsOf (db : DB) : List String := db.operation_logs.map OperationLog.OperationType

/-! ## Theorems -/

/-! ### Multisets of indices -/

theorem sum_map_set {M : Type} [AddCommMonoid M] (f : Worker → M) :
    ∀ (ws : List Worker) (k : Nat) (w0 w : Worker), ws[k]? = some w0 →
      ((ws.set k w).map f).sum + f w0 = (ws.map f).sum + f w := by
  intro ws
  induction ws with
  | nil => intro k w0 w h; simp at h
  | cons a ws ih =>
    intro k w0 w h
    cases k with
    | zero =>
      simp at h
      subst h
      simp [List.set]
      abel
    | succ k =>
      simp at h
      have := ih k w0 w h
      simp only [List.set, List.map_cons, List.sum_cons]
      rw [add_assoc, this]
      abel

theorem coe_cons_add (a : Nat) (l : List Nat) :
    ((a :: l : List Nat) : Multiset Nat) = {a} + (l : Multiset Nat) := by
  rw [← Multiset.cons_coe, Multiset.singleton_add]

theorem coe_append_add (l₁ l₂ : List Nat) :
    ((l₁ ++ l₂ : List Nat) : Multiset Nat) = (l₁ : Multiset Nat) + (l₂ : Multiset Nat) := by
  rw [Multiset.coe_add]

theorem heldAll_set (ws : List Worker) (k : Nat) (w0 w : Worker) (h : ws[k]? = some w0) :
    heldAll (ws.set k w) + held w0 = heldAll ws + held w :=
  sum_map_set held ws k w0 w h

theorem tasksFrom_index (emails : List AddEmailRequest) :
    ∀ i, (tasksFrom i emails).map emailTask.index = List.range' i emails.length := by
  induction emails with
  | nil => intro i; rfl
  | cons a l ih => intro i; simp [tasksFrom, ih, List.range']

theorem tasksFrom_length (emails : List AddEmailRequest) :
    ∀ i, (tasksFrom i emails).length = emails.length := by
  induction emails with
  | nil => intro i; rfl
  | cons a l ih => intro i; simp [tasksFrom, ih]

theorem tasksFrom_nodup (emails : List AddEmailRequest) (i : Nat) :
    ((tasksFrom i emails).map emailTask.index).Nodup := by
  rw [tasksFrom_index]
  exact List.nodup_range' i emails.length

theorem tasksFrom_index_lt (emails : List AddEmailRequest) (task : emailTask)
    (h : task ∈ tasksFrom 0 emails) : task.index < (tasksFrom 0 emails).length := by
  have h1 : task.index ∈ (tasksFrom 0 emails).map emailTask.index := List.mem_map_of_mem _ h
  rw [tasksFrom_index, List.mem_range'_1] at h1
  rw [tasksFrom_length]
  omega

/-! ### The invariant is kept by every step -/

section steps
variable {env : Env} {cfg : Config} {db : DB} {userID : Int} {tasks : List emailTask} {w : Nat}
  {p : Pool}

theorem inv_send {task : emailTask} {rest : List emailTask}
    (h : Inv env cfg db userID tasks w p) (hs : p.toSend = task :: rest) :
    Inv env cfg db userID tasks w { p with toSend := rest, taskChan := p.taskChan ++ [task] } := by
  obtain ⟨stored, hlen, hpl, hres⟩ := h.place
  refine { send := ?_, chan := ?_, wok := h.wok, res := h.res, len := h.len, wlen := h.wlen,
           place := ⟨stored, hlen, ?_, hres⟩, closedSend := ?_, exitedOk := ?_,
           events := h.events }
  · intro t ht
    exact h.send t (by rw [hs]; exact List.mem_cons_of_mem _ ht)
  · intro t ht
    rcases List.mem_append.1 ht with ht | ht
    · exact h.chan t ht
    · rw [List.mem_singleton] at ht
      subst ht
      exact h.send _ (by rw [hs]; exact List.mem_cons_self _ _)
  · rw [← hpl, hs]
    simp only [List.map_cons, List.map_append, List.map_nil, coe_cons_add, coe_append_add,
      Multiset.coe_nil]
    abel
  · intro hc
    have h1 := h.closedSend hc
    rw [hs] at h1
    cases h1
  · intro he
    have h1 := h.closedSend (h.exitedOk he).1
    rw [hs] at h1
    cases h1

theorem inv_close (h : Inv env cfg db userID tasks w p) (hs : p.toSend = []) :
    Inv env cfg db userID tasks w { p with closed := true } := by
  refine { send := h.send, chan := h.chan, wok := h.wok, res := h.res, len := h.len,
           wlen := h.wlen, place := h.place, closedSend := fun _ => hs, exitedOk := ?_,
           events := h.events }
  intro he
  exact ⟨rfl, (h.exitedOk he).2⟩

theorem inv_collect {result : emailResult} {rest : List emailResult}
    (hnd : (tasks.map emailTask.index).Nodup) (hlt : ∀ task ∈ tasks, task.index < tasks.length)
    (h : Inv env cfg db userID tasks w p) (hr : p.resultChan = result :: rest) :
    Inv env cfg db userID tasks w
      { p with resultChan := rest
               results := p.results.set result.index result
               received := p.received + 1 } := by
  obtain ⟨stored, hlen, hpl, hres⟩ := h.place
  obtain ⟨t0, ht0, hrt⟩ := h.res result (by rw [hr]; exact List.mem_cons_self _ _)
  have hidx : result.index = t0.index := by rw [hrt]; simp only [processTask]; split <;> (try split) <;> (try split) <;> rfl
  refine { send := h.send, chan := h.chan, wok := h.wok, res := ?_, len := ?_, wlen := h.wlen,
           place := ⟨result.index :: stored, ?_, ?_, ?_⟩, closedSend := h.closedSend,
           exitedOk := h.exitedOk, events := h.events }
  · intro r hrm
    exact h.res r (by rw [hr]; exact List.mem_cons_of_mem _ hrm)
  · simp only [List.length_set]
    exact h.len
  · simp only [List.length_cons, hlen]
  · rw [← hpl, hr]
    simp only [List.map_cons, coe_cons_add]
    abel
  · intro task htask hmem
    by_cases hEq : task.index = result.index
    · have : task = t0 := List.inj_on_of_nodup_map hnd htask ht0 (hEq.trans hidx)
      subst this
      dsimp only
      rw [hEq, List.getElem?_set_self (by rw [h.len, ← hEq]; exact hlt _ htask), hrt]
    · have hmem2 : task.index ∈ stored := by
        rcases List.mem_cons.1 hmem with h1 | h1
        · exact absurd h1 hEq
        · exact h1
      dsimp only
      rw [List.getElem?_set_ne (Ne.symm hEq)]
      exact hres task htask hmem2

end steps

section steps
variable {env : Env} {cfg : Config} {db : DB} {userID : Int} {tasks : List emailTask} {w : Nat}
  {p : Pool}

theorem processTask_index (env : Env) (cfg : Config) (db : DB) (userID : Int)
    (task : emailTask) : (processTask env cfg db userID task).index = task.index := by
  simp only [processTask]
  split <;> (try split) <;> (try split) <;> rfl

theorem inv_worker (k : Nat) {w0 : Worker} (w1 : Worker)
    (h : Inv env cfg db userID tasks w p) (hk : p.workers[k]? = some w0)
    (hheld : held w1 = held w0) (hok : WorkerOk env cfg db userID tasks w1)
    (hex : w1 = Worker.exited → p.closed = true ∧ p.taskChan = []) :
    Inv env cfg db userID tasks w { p with workers := p.workers.set k w1 } := by
  obtain ⟨stored, hlen, hpl, hres⟩ := h.place
  refine { send := h.send, chan := h.chan, wok := ?_, res := h.res, len := h.len, wlen := ?_,
           place := ⟨stored, hlen, ?_, hres⟩, closedSend := h.closedSend, exitedOk := ?_,
           events := h.events }
  · intro wk hwk
    rcases List.mem_or_eq_of_mem_set hwk with h1 | h1
    · exact h.wok wk h1
    · rw [h1]; exact hok
  · simp only [List.length_set]
    exact h.wlen
  · have h1 := heldAll_set p.workers k w0 w1 hk
    rw [hheld] at h1
    have h2 : heldAll (p.workers.set k w1) = heldAll p.workers := add_right_cancel h1
    dsimp only
    rw [h2]
    exact hpl
  · intro he
    rcases List.mem_or_eq_of_mem_set he with h1 | h1
    · exact h.exitedOk h1
    · exact hex h1.symm

theorem inv_recv {k : Nat} {task : emailTask} {rest : List emailTask}
    (h : Inv env cfg db userID tasks w p) (hk : p.workers[k]? = some Worker.waiting)
    (hc : p.taskChan = task :: rest) :
    Inv env cfg db userID tasks w
      { p with taskChan := rest, workers := p.workers.set k (Worker.checking task) } := by
  obtain ⟨stored, hlen, hpl, hres⟩ := h.place
  have htask : task ∈ tasks := h.chan task (by rw [hc]; exact List.mem_cons_self _ _)
  refine { send := h.send, chan := ?_, wok := ?_, res := h.res, len := h.len, wlen := ?_,
           place := ⟨stored, hlen, ?_, hres⟩, closedSend := h.closedSend, exitedOk := ?_,
           events := h.events }
  · intro t ht
    exact h.chan t (by rw [hc]; exact List.mem_cons_of_mem _ ht)
  · intro wk hwk
    rcases List.mem_or_eq_of_mem_set hwk with h1 | h1
    · exact h.wok wk h1
    · rw [h1]; exact htask
  · simp only [List.length_set]
    exact h.wlen
  · have h1 := heldAll_set p.workers k Worker.waiting (Worker.checking task) hk
    simp only [held, add_zero] at h1
    dsimp only
    rw [h1, ← hpl, hc]
    simp only [List.map_cons, coe_cons_add]
    abel
  · intro he
    rcases List.mem_or_eq_of_mem_set he with h1 | h1
    · have h2 := (h.exitedOk h1).2
      rw [hc] at h2
      cases h2
    · cases h1

theorem inv_event (ev : Event) (h : Inv env cfg db userID tasks w p)
    (hev : EventOk env cfg db userID tasks ev) :
    Inv env cfg db userID tasks w { p with trace := p.trace ++ [ev] } := by
  refine { send := h.send, chan := h.chan, wok := h.wok, res := h.res, len := h.len,
           wlen := h.wlen, place := h.place, closedSend := h.closedSend,
           exitedOk := h.exitedOk, events := ?_ }
  intro e he
  rcases List.mem_append.1 he with h1 | h1
  · exact h.events e h1
  · rw [List.mem_singleton] at h1
    rw [h1]; exact hev

theorem inv_deliver (k : Nat) {w0 : Worker} (task : emailTask)
    (h : Inv env cfg db userID tasks w p) (hk : p.workers[k]? = some w0)
    (hheld : held w0 = {task.index}) (htask : task ∈ tasks) :
    Inv env cfg db userID tasks w (deliver k (processTask env cfg db userID task) p) := by
  obtain ⟨stored, hlen, hpl, hres⟩ := h.place
  refine { send := h.send, chan := h.chan, wok := ?_, res := ?_, len := h.len, wlen := ?_,
           place := ⟨stored, hlen, ?_, hres⟩, closedSend := h.closedSend, exitedOk := ?_,
           events := h.events }
  · intro wk hwk
    rcases List.mem_or_eq_of_mem_set hwk with h1 | h1
    · exact h.wok wk h1
    · rw [h1]; trivial
  · intro r hr
    rcases List.mem_append.1 hr with h1 | h1
    · exact h.res r h1
    · rw [List.mem_singleton] at h1
      exact ⟨task, htask, h1⟩
  · simp only [deliver, List.length_set]
    exact h.wlen
  · have h1 := heldAll_set p.workers k w0 Worker.waiting hk
    rw [hheld] at h1
    simp only [held, add_zero] at h1
    simp only [deliver, List.map_append, List.map_cons, List.map_nil, coe_append_add,
      coe_cons_add, Multiset.coe_nil, processTask_index]
    rw [← hpl, ← h1]
    abel
  · intro he
    rcases List.mem_or_eq_of_mem_set he with h1 | h1
    · exact h.exitedOk h1
    · cases h1

end steps

section steps
variable {env : Env} {cfg : Config} {db : DB} {userID : Int} {tasks : List emailTask} {w : Nat}
  {p q : Pool}

theorem inv_workerStep {k : Nat} (h : Inv env cfg db userID tasks w p)
    (hs : workerStep env cfg db userID k p = some q) : Inv env cfg db userID tasks w q := by
  unfold workerStep at hs
  split at hs
  · cases hs
  · cases hs
  · next hk =>
    split at hs
    · next task rest hc =>
      cases hs
      exact inv_recv h hk hc
    · next hc =>
      split at hs
      · next hcl =>
        cases hs
        exact inv_worker k Worker.exited h hk rfl trivial (fun _ => ⟨hcl, hc⟩)
      · cases hs
  · next task hk =>
    have htask : task ∈ tasks := h.wok _ (List.getElem?_mem hk)
    have h1 := inv_event (Event.existsQuery task.index userID task.req.EmailAddress) h
      ⟨task, htask, rfl, rfl, rfl⟩
    dsimp only at hs
    split at hs
    · next err hex =>
      cases hs
      have := inv_deliver k task h1 hk rfl htask
      simpa [processTask, hex] using this
    · next hex =>
      cases hs
      have := inv_deliver k task h1 hk rfl htask
      simpa [processTask, hex] using this
    · next hex =>
      split at hs
      · next hskip =>
        cases hs
        have hskip2 : cfg.SkipEmailValidation = false := by simpa using hskip
        have h2 := inv_worker k (Worker.validating task (newEmail userID task.req))
          h1 hk rfl ⟨htask, hex, rfl, hskip2⟩ (fun hh => by cases hh)
        exact inv_event _ h2 ⟨task, htask, rfl, rfl, hex, hskip2⟩
      · next hskip =>
        cases hs
        have hskip2 : cfg.SkipEmailValidation = true := by simpa using hskip
        have := inv_deliver k task h1 hk rfl htask
        simpa [processTask, hex, hskip2] using this
  · next task email hk =>
    have hwk : WorkerOk env cfg db userID tasks (Worker.validating task email) :=
      h.wok _ (List.getElem?_mem hk)
    obtain ⟨htask, hex, hem, hskip⟩ := hwk
    dsimp only at hs
    split at hs
    · next err hv =>
      cases hs
      have := inv_deliver k task h hk rfl htask
      subst hem
      simpa [processTask, hex, hskip, hv] using this
    · next hv =>
      cases hs
      have := inv_deliver k task h hk rfl htask
      subst hem
      simpa [processTask, hex, hskip, hv] using this

theorem inv_mainStep (hnd : (tasks.map emailTask.index).Nodup)
    (hlt : ∀ task ∈ tasks, task.index < tasks.length)
    (h : Inv env cfg db userID tasks w p) (hs : mainStep p = some q) :
    Inv env cfg db userID tasks w q := by
  unfold mainStep at hs
  split at hs
  · next task rest hsend =>
    cases hs
    exact inv_send h hsend
  · next hsend =>
    split at hs
    · cases hs
      exact inv_close h hsend
    · split at hs
      · split at hs
        · next result rest hr =>
          cases hs
          exact inv_collect hnd hlt h hr
        · cases hs
      · cases hs

theorem inv_stepG (hnd : (tasks.map emailTask.index).Nodup)
    (hlt : ∀ task ∈ tasks, task.index < tasks.length) {g : Nat}
    (h : Inv env cfg db userID tasks w p) (hs : stepG env cfg db userID g p = some q) :
    Inv env cfg db userID tasks w q := by
  cases g with
  | zero => exact inv_mainStep hnd hlt h hs
  | succ k => exact inv_workerStep h hs

end steps

section progress
variable {env : Env} {cfg : Config} {db : DB} {userID : Int} {tasks : List emailTask} {w : Nat}
  {p q : Pool}

theorem weight_set (ws : List Worker) (k : Nat) (w0 w1 : Worker) (hk : ws[k]? = some w0) :
    ((ws.set k w1).map workerWeight).sum + workerWeight w0 =
      (ws.map workerWeight).sum + workerWeight w1 :=
  sum_map_set workerWeight ws k w0 w1 hk

theorem stepsLeft_workerStep {k : Nat} (hs : workerStep env cfg db userID k p = some q) :
    stepsLeft q < stepsLeft p := by
  unfold workerStep at hs
  split at hs
  · cases hs
  · cases hs
  · next hk =>
    split at hs
    · next task rest hc =>
      cases hs
      have h1 := weight_set p.workers k _ (Worker.checking task) hk
      simp only [workerWeight] at h1
      simp only [stepsLeft, hc, List.length_cons]
      omega
    · next hc =>
      split at hs
      · cases hs
        have h1 := weight_set p.workers k _ Worker.exited hk
        simp only [workerWeight] at h1
        simp only [stepsLeft]
        omega
      · cases hs
  · next task hk =>
    have h1 := weight_set p.workers k _ Worker.waiting hk
    have h2 := weight_set p.workers k _ (Worker.validating task (newEmail userID task.req)) hk
    simp only [workerWeight] at h1 h2
    dsimp only at hs
    split at hs
    · cases hs
      simp only [stepsLeft, deliver, List.length_append, List.length_singleton, List.length_cons, List.length_nil]
      omega
    · cases hs
      simp only [stepsLeft, deliver, List.length_append, List.length_singleton, List.length_cons, List.length_nil]
      omega
    · split at hs
      · cases hs
        simp only [stepsLeft]
        omega
      · cases hs
        simp only [stepsLeft, deliver, List.length_append, List.length_singleton, List.length_cons, List.length_nil]
        omega
  · next task email hk =>
    have h1 := weight_set p.workers k _ Worker.waiting hk
    simp only [workerWeight] at h1
    dsimp only at hs
    split at hs
    · cases hs
      simp only [stepsLeft, deliver, List.length_append, List.length_singleton, List.length_cons, List.length_nil]
      omega
    · cases hs
      simp only [stepsLeft, deliver, List.length_append, List.length_singleton, List.length_cons, List.length_nil]
      omega

theorem stepsLeft_mainStep (hs : mainStep p = some q) : stepsLeft q < stepsLeft p := by
  unfold mainStep at hs
  split at hs
  · next task rest hsend =>
    cases hs
    simp only [stepsLeft, hsend, List.length_cons, List.length_append, List.length_singleton, List.length_nil]
    omega
  · next hsend =>
    split at hs
    · next hcl =>
      cases hs
      have hcl2 : p.closed = false := by simpa using hcl
      simp [stepsLeft, hcl2]
    · split at hs
      · split at hs
        · next result rest hr =>
          cases hs
          simp only [stepsLeft, hr, List.length_cons]
          omega
        · cases hs
      · cases hs

theorem stepsLeft_stepG {g : Nat} (hs : stepG env cfg db userID g p = some q) :
    stepsLeft q < stepsLeft p := by
  cases g with
  | zero => exact stepsLeft_mainStep hs
  | succ k => exact stepsLeft_workerStep hs

theorem firstEnabled_step (hs : firstEnabled env cfg db userID p = some q) :
    ∃ g, stepG env cfg db userID g p = some q := by
  obtain ⟨g, _, hg⟩ := List.exists_of_findSome?_eq_some hs
  exact ⟨g, hg⟩

theorem firstEnabled_none (hs : firstEnabled env cfg db userID p = none) (g : Nat)
    (hg : g ≤ p.workers.length) : stepG env cfg db userID g p = none := by
  unfold firstEnabled at hs
  rw [List.findSome?_eq_none_iff] at hs
  exact hs g (List.mem_range.2 (by omega))

/-- With enough fuel, `drain` stops only where no goroutine can move. -/
theorem drain_stuck : ∀ (fuel : Nat) (p : Pool), stepsLeft p ≤ fuel →
    firstEnabled env cfg db userID (drain env cfg db userID fuel p) = none := by
  intro fuel
  induction fuel with
  | zero =>
    intro p hp
    simp only [drain]
    cases hf : firstEnabled env cfg db userID p with
    | none => rfl
    | some q =>
      obtain ⟨g, hg⟩ := firstEnabled_step hf
      have := stepsLeft_stepG hg
      omega
  | succ fuel ih =>
    intro p hp
    simp only [drain]
    cases hf : firstEnabled env cfg db userID p with
    | none => simpa using hf
    | some q =>
      obtain ⟨g, hg⟩ := firstEnabled_step hf
      have := stepsLeft_stepG hg
      exact ih q (by omega)

theorem inv_exec (hnd : (tasks.map emailTask.index).Nodup)
    (hlt : ∀ task ∈ tasks, task.index < tasks.length) :
    ∀ (sched : List Nat) (p : Pool), Inv env cfg db userID tasks w p →
      Inv env cfg db userID tasks w (exec env cfg db userID sched p) := by
  intro sched
  induction sched with
  | nil => intro p h; exact h
  | cons g rest ih =>
    intro p h
    simp only [exec, List.foldl_cons]
    apply ih
    cases hg : stepG env cfg db userID g p with
    | none => exact h
    | some q => exact inv_stepG hnd hlt h hg

theorem stepsLeft_exec : ∀ (sched : List Nat) (p : Pool),
    stepsLeft (exec env cfg db userID sched p) ≤ stepsLeft p := by
  intro sched
  induction sched with
  | nil => intro p; exact le_refl _
  | cons g rest ih =>
    intro p
    simp only [exec, List.foldl_cons]
    refine le_trans (ih _) ?_
    cases hg : stepG env cfg db userID g p with
    | none => exact le_refl _
    | some q => exact le_of_lt (stepsLeft_stepG hg)

theorem inv_drain (hnd : (tasks.map emailTask.index).Nodup)
    (hlt : ∀ task ∈ tasks, task.index < tasks.length) :
    ∀ (fuel : Nat) (p : Pool), Inv env cfg db userID tasks w p →
      Inv env cfg db userID tasks w (drain env cfg db userID fuel p) := by
  intro fuel
  induction fuel with
  | zero => intro p h; exact h
  | succ fuel ih =>
    intro p h
    simp only [drain]
    cases hf : firstEnabled env cfg db userID p with
    | none => exact h
    | some q =>
      obtain ⟨g, hg⟩ := firstEnabled_step hf
      exact ih q (inv_stepG hnd hlt h hg)

end progress

section final
variable {env : Env} {cfg : Config} {db : DB} {userID : Int} {tasks : List emailTask} {w : Nat}
  {p q : Pool}

theorem heldAll_exited (ws : List Worker) (h : ∀ wk ∈ ws, wk = Worker.exited) :
    heldAll ws = 0 := by
  induction ws with
  | nil => rfl
  | cons a l ih =>
    have ha : a = Worker.exited := h a (List.mem_cons_self _ _)
    have hl := ih (fun wk hwk => h wk (List.mem_cons_of_mem _ hwk))
    simp only [heldAll, List.map_cons, List.sum_cons] at hl ⊢
    rw [hl, ha]
    rfl

theorem heldAll_waiting (n : Nat) : heldAll (List.replicate n Worker.waiting) = 0 := by
  induction n with
  | zero => rfl
  | succ n ih =>
    simp only [heldAll, List.replicate_succ, List.map_cons, List.sum_cons] at ih ⊢
    rw [ih]
    rfl

theorem worker_stuck {k : Nat} {wk : Worker} (hk : p.workers[k]? = some wk)
    (hs : workerStep env cfg db userID k p = none) :
    wk = Worker.exited ∨ (wk = Worker.waiting ∧ p.taskChan = [] ∧ p.closed = false) := by
  unfold workerStep at hs
  rw [hk] at hs
  cases wk with
  | exited => exact Or.inl rfl
  | waiting =>
    right
    dsimp only at hs
    split at hs
    · cases hs
    · next hc =>
      split at hs
      · cases hs
      · next hcl => exact ⟨rfl, hc, by simpa using hcl⟩
  | checking task =>
    exfalso
    dsimp only at hs
    split at hs
    · cases hs
    · cases hs
    · split at hs <;> cases hs
  | validating task email =>
    exfalso
    dsimp only at hs
    split at hs <;> cases hs

theorem main_stuck (hs : mainStep p = none) :
    p.toSend = [] ∧ p.closed = true ∧ (p.results.length ≤ p.received ∨ p.resultChan = []) := by
  unfold mainStep at hs
  split at hs
  · cases hs
  · next hsend =>
    split at hs
    · cases hs
    · next hcl =>
      refine ⟨hsend, by simpa using hcl, ?_⟩
      split at hs
      · split at hs
        · cases hs
        · next hr => exact Or.inr hr
      · next hlt => exact Or.inl (by omega)

/-- Where no goroutine can move, every task has been answered and stored. -/
theorem stuck_done (h : Inv env cfg db userID tasks w p) (hw : 0 < w)
    (hst : firstEnabled env cfg db userID p = none) :
    p.received = tasks.length ∧
      ∀ task ∈ tasks, p.results[task.index]? = some (processTask env cfg db userID task) := by
  obtain ⟨stored, hlen, hpl, hres⟩ := h.place
  obtain ⟨hsend, hcl, hmain⟩ := main_stuck (firstEnabled_none hst 0 (Nat.zero_le _))
  have hcard := congrArg Multiset.card hpl
  simp only [Multiset.card_add, Multiset.coe_card, List.length_map] at hcard
  have hrest : p.taskChan = [] ∧ heldAll p.workers = 0 ∧ p.resultChan = [] := by
    rcases hmain with hge | hr
    · have h1 : p.taskChan.length = 0 := by have := h.len; omega
      have h2 : Multiset.card (heldAll p.workers) = 0 := by have := h.len; omega
      have h3 : p.resultChan.length = 0 := by have := h.len; omega
      exact ⟨List.length_eq_zero.1 h1, Multiset.card_eq_zero.1 h2, List.length_eq_zero.1 h3⟩
    · have hall : ∀ wk ∈ p.workers, wk = Worker.exited := by
        intro wk hwk
        obtain ⟨k, hk⟩ := List.getElem?_of_mem hwk
        have hklt : k < p.workers.length := by
          by_contra hcon
          rw [List.getElem?_eq_none (by omega)] at hk
          cases hk
        rcases worker_stuck hk (firstEnabled_none hst (k + 1) (by omega)) with h1 | h1
        · exact h1
        · rw [hcl] at h1
          cases h1.2.2
      have hne : Worker.exited ∈ p.workers := by
        have hpos : 0 < p.workers.length := by rw [h.wlen]; exact hw
        cases hws : p.workers with
        | nil => rw [hws] at hpos; cases hpos
        | cons a l =>
          have := hall a (by rw [hws]; exact List.mem_cons_self _ _)
          rw [this]
          exact List.mem_cons_self _ _
      exact ⟨(h.exitedOk hne).2, heldAll_exited _ hall, hr⟩
  obtain ⟨h1, h2, h3⟩ := hrest
  rw [hsend, h1, h2, h3] at hpl
  simp only [List.map_nil, Multiset.coe_nil, add_zero, zero_add] at hpl
  refine ⟨?_, ?_⟩
  · have := congrArg Multiset.card hpl
    simp only [Multiset.coe_card, List.length_map] at this
    omega
  · intro task htask
    apply hres task htask
    have : task.index ∈ (List.map emailTask.index tasks : Multiset Nat) :=
      Multiset.mem_coe.2 (List.mem_map_of_mem _ htask)
    rw [← hpl] at this
    exact Multiset.mem_coe.1 this

theorem maxWorkers_pos (cfg : Config) : 0 < (maxWorkers cfg).toNat := by
  unfold maxWorkers
  split
  · decide
  · omega

theorem inv_initPool (env : Env) (cfg : Config) (db : DB) (userID : Int)
    (emails : List AddEmailRequest) :
    Inv env cfg db userID (tasksFrom 0 emails) (maxWorkers cfg).toNat (initPool cfg emails) := by
  refine { send := fun t ht => ht, chan := ?_, wok := ?_, res := ?_, len := ?_, wlen := ?_,
           place := ⟨[], rfl, ?_, ?_⟩, closedSend := ?_, exitedOk := ?_, events := ?_ }
  · intro t ht; cases ht
  · intro wk hwk
    rw [List.eq_of_mem_replicate hwk]
    trivial
  · intro r hr; cases hr
  · simp only [initPool, List.length_replicate, tasksFrom_length]
  · simp only [initPool, List.length_replicate]
  · simp only [initPool, heldAll_waiting, List.map_nil, Multiset.coe_nil, add_zero]
  · intro task _ hmem; cases hmem
  · intro hc; cases hc
  · intro he
    have := List.eq_of_mem_replicate he
    cases this
  · intro ev hev; cases hev

theorem tasksFrom_getElem? (emails : List AddEmailRequest) :
    ∀ (i j : Nat), ((tasksFrom i emails)[j]?).map emailTask.index =
      if j < emails.length then some (i + j) else none := by
  induction emails with
  | nil => intro i j; simp [tasksFrom]
  | cons a l ih =>
    intro i j
    cases j with
    | zero => simp [tasksFrom]
    | succ j =>
      simp only [tasksFrom, List.getElem?_cons_succ, List.length_cons, ih]
      by_cases hj : j < l.length
      · simp [hj]; omega
      · simp [hj]

/-- The pool a run ends in satisfies the invariant and is at rest. -/
theorem runPool_inv (env : Env) (cfg : Config) (db : DB) (userID : Int)
    (sched : List Nat) (emails : List AddEmailRequest) :
    Inv env cfg db userID (tasksFrom 0 emails) (maxWorkers cfg).toNat
        (runPool env cfg db userID sched (initPool cfg emails)) ∧
      firstEnabled env cfg db userID (runPool env cfg db userID sched (initPool cfg emails))
        = none := by
  have hnd := tasksFrom_nodup emails 0
  have hlt := tasksFrom_index_lt emails
  have h0 := inv_initPool env cfg db userID emails
  have h1 := inv_exec hnd hlt sched _ h0
  have hfuel : stepsLeft (exec env cfg db userID sched (initPool cfg emails)) ≤
      5 * (initPool cfg emails).results.length + (initPool cfg emails).workers.length + 1 := by
    refine le_trans (stepsLeft_exec sched _) ?_
    simp [stepsLeft, initPool, tasksFrom_length, workerWeight]
    omega
  unfold runPool
  exact ⟨inv_drain hnd hlt _ _ h1, drain_stuck _ _ hfuel⟩

/-- Whatever the schedule, the run ends with every result stored at the index
of its task: the slice `results` lists the answers in input order. -/
theorem runPool_results (env : Env) (cfg : Config) (db : DB) (userID : Int)
    (sched : List Nat) (emails : List AddEmailRequest) :
    (runPool env cfg db userID sched (initPool cfg emails)).results =
      (tasksFrom 0 emails).map (processTask env cfg db userID) := by
  obtain ⟨h2, h3⟩ := runPool_inv env cfg db userID sched emails
  obtain ⟨_, hall⟩ := stuck_done h2 (maxWorkers_pos cfg) h3
  have hlen := h2.len
  apply List.ext_getElem?
  intro i
  by_cases hi : i < emails.length
  · have hti := tasksFrom_getElem? emails 0 i
    simp only [hi, if_true, zero_add] at hti
    cases ht : (tasksFrom 0 emails)[i]? with
    | none => rw [ht] at hti; cases hti
    | some task =>
      rw [ht] at hti
      simp only [Option.map_some', Option.some.injEq] at hti
      have := hall task (List.getElem?_mem ht)
      rw [hti] at this
      rw [this, List.getElem?_map, ht]
      rfl
  · rw [List.getElem?_eq_none (by rw [hlen, tasksFrom_length]; omega),
      List.getElem?_eq_none (by rw [List.length_map, tasksFrom_length]; omega)]

end final

/-! ### The partition of the results -/

theorem partition_foldl (rs : List emailResult) :
    ∀ acc : List Email × List String,
      rs.foldl
        (fun (acc : List Email × List String) result =>
          if result.error ≠ "" then (acc.1, acc.2 ++ [result.error])
          else
            match result.email with
            | some email => (acc.1 ++ [email], acc.2)
            | none => acc) acc
        = (acc.1 ++ rs.filterMap validOf, acc.2 ++ rs.filterMap errorOf) := by
  induction rs with
  | nil => intro acc; simp
  | cons r rs ih =>
    intro acc
    rw [List.foldl_cons, ih]
    by_cases he : r.error = ""
    · cases hm : r.email with
      | none => simp [validOf, errorOf, he, hm]
      | some e => simp [validOf, errorOf, he, hm]
    · simp [validOf, errorOf, he]

theorem partitionResults_eq (rs : List emailResult) :
    partitionResults rs = (rs.filterMap validOf, rs.filterMap errorOf) := by
  have h := partition_foldl rs ([], [])
  simpa [partitionResults] using h

theorem prefix_ne_empty (a b : String) : "邮箱 " ++ a ++ b ≠ "" := by
  intro h
  have h1 := congrArg String.length h
  simp only [String.length_append] at h1
  have h2 : "邮箱 ".length = 3 := by decide
  have h3 : "".length = 0 := by decide
  omega

/-- A worker either reports a failure or hands over the credential built from
its task, never both and never neither. -/
theorem processTask_cases (env : Env) (cfg : Config) (db : DB) (userID : Int)
    (task : emailTask) :
    (∃ msg, msg ≠ "" ∧ processTask env cfg db userID task =
        { email := none, error := msg, index := task.index }) ∨
      processTask env cfg db userID task =
        { email := some (newEmail userID task.req), error := "", index := task.index } := by
  simp only [processTask]
  split
  · exact Or.inl ⟨_, prefix_ne_empty _ _, rfl⟩
  · exact Or.inl ⟨_, prefix_ne_empty _ _, rfl⟩
  · split
    · split
      · exact Or.inl ⟨_, prefix_ne_empty _ _, rfl⟩
      · exact Or.inr rfl
    · exact Or.inr rfl

theorem processTask_split (env : Env) (cfg : Config) (db : DB) (userID : Int)
    (task : emailTask) :
    (validOf (processTask env cfg db userID task) = none ∧
        ∃ msg, errorOf (processTask env cfg db userID task) = some msg) ∨
      (validOf (processTask env cfg db userID task) = some (newEmail userID task.req) ∧
        errorOf (processTask env cfg db userID task) = none) := by
  rcases processTask_cases env cfg db userID task with ⟨msg, hne, h⟩ | h
  · left
    rw [h]
    simp [validOf, errorOf, hne]
  · right
    rw [h]
    simp [validOf, errorOf]

theorem filterMap_lengths (env : Env) (cfg : Config) (db : DB) (userID : Int) :
    ∀ tasks : List emailTask,
      ((tasks.map (processTask env cfg db userID)).filterMap validOf).length +
        ((tasks.map (processTask env cfg db userID)).filterMap errorOf).length = tasks.length := by
  intro tasks
  induction tasks with
  | nil => rfl
  | cons t ts ih =>
    simp only [List.map_cons, List.filterMap_cons, List.length_cons]
    rcases processTask_split env cfg db userID t with ⟨h1, msg, h2⟩ | ⟨h1, h2⟩
    · rw [h1, h2]
      simp only [List.length_cons]
      omega
    · rw [h1, h2]
      simp only [List.length_cons]
      omega

theorem batchResults_lengths (env : Env) (cfg : Config) (db : DB) (userID : Int)
    (emails : List AddEmailRequest) :
    ((batchResults env cfg db userID emails).filterMap validOf).length +
      ((batchResults env cfg db userID emails).filterMap errorOf).length = emails.length := by
  unfold batchResults
  rw [filterMap_lengths, tasksFrom_length]

/-! ### The atomic save -/

theorem createLoop_length (env : Env) :
    ∀ (emails : List Email) (cur : DB) (acc created : List Email) (cur1 : DB),
      createLoop env emails cur acc = Except.ok (created, cur1) →
        created.length = acc.length + emails.length := by
  intro emails
  induction emails with
  | nil =>
    intro cur acc created cur1 h
    simp only [createLoop, Except.ok.injEq, Prod.mk.injEq] at h
    rw [← h.1]; rfl
  | cons e es ih =>
    intro cur acc created cur1 h
    simp only [createLoop] at h
    split at h
    · cases h
    · split at h
      · cases h
      · have := ih _ _ _ _ h
        simp only [List.length_append, List.length_cons, List.length_nil] at this ⊢
        omega

theorem BatchCreateEmails_error (env : Env) (db : DB) (emails : List Email) (err : String)
    (h : (BatchCreateEmails env db emails).1 = Except.error err) :
    BatchCreateEmails env db emails = (Except.error err, db) := by
  by_cases h0 : emails.length = 0
  · simp [BatchCreateEmails, h0] at h
  · cases hb : env.beginErr <;> cases hp : env.prepareErr <;>
      cases hl : createLoop env emails db [] <;> cases hc : env.commitErr <;>
      simp [BatchCreateEmails, h0, hb, hp, hl, hc, Tx.Commit, Tx.Rollback] at h ⊢ <;>
      exact h

theorem BatchCreateEmails_ok (env : Env) (db : DB) (emails : List Email)
    (saved : List Email) (h : (BatchCreateEmails env db emails).1 = Except.ok saved)
    (hne : emails ≠ []) :
    ∃ cur, createLoop env emails db [] = Except.ok (saved, cur) ∧
      BatchCreateEmails env db emails = (Except.ok saved, cur) := by
  have h0 : ¬ emails.length = 0 := fun hh => hne (List.length_eq_zero.1 hh)
  cases hb : env.beginErr <;> cases hp : env.prepareErr <;>
    cases hl : createLoop env emails db [] <;> cases hc : env.commitErr <;>
    simp [BatchCreateEmails, h0, hb, hp, hl, hc, Tx.Commit, Tx.Rollback] at h ⊢
  rename_i v
  obtain ⟨created, cur⟩ := v
  simp only at h ⊢
  subst h
  exact ⟨rfl, rfl⟩

theorem createLoop_spec (env : Env) :
    ∀ (emails : List Email) (cur : DB) (acc created : List Email) (cur1 : DB),
      createLoop env emails cur acc = Except.ok (created, cur1) →
        created = acc ++ savedFrom cur.emailSeq emails ∧
        cur1.emails = cur.emails ++ rowsFrom env cur.emailSeq emails ∧
        cur1.emailSeq = cur.emailSeq + emails.length ∧
        cur1.operation_logs = cur.operation_logs ∧ cur1.logSeq = cur.logSeq := by
  intro emails
  induction emails with
  | nil =>
    intro cur acc created cur1 h
    simp only [createLoop, Except.ok.injEq, Prod.mk.injEq] at h
    obtain ⟨h1, h2⟩ := h
    subst h1 h2
    simp [savedFrom, rowsFrom]
  | cons e es ih =>
    intro cur acc created cur1 h
    simp only [createLoop] at h
    split at h
    · cases h
    · next cur2 hins =>
      split at h
      · cases h
      · obtain ⟨h1, h2, h3, h4, h5⟩ := ih _ _ _ _ h
        unfold execInsert at hins
        split at hins
        · cases hins
        · split at hins
          · cases hins
          · simp only [Except.ok.injEq] at hins
            subst hins
            simp only at h1 h2 h3 h4 h5
            refine ⟨?_, ?_, ?_, h4, h5⟩
            · rw [h1]; simp [savedFrom]
            · rw [h2]; simp [rowsFrom]
            · rw [h3]; simp only [List.length_cons]; push_cast; ring

theorem savedFrom_address : ∀ (emails : List Email) (seq : Int),
    (savedFrom seq emails).map Email.EmailAddress = emails.map Email.EmailAddress := by
  intro emails
  induction emails with
  | nil => intro seq; rfl
  | cons e es ih => intro seq; simp [savedFrom, ih]

theorem savedFrom_length : ∀ (emails : List Email) (seq : Int),
    (savedFrom seq emails).length = emails.length := by
  intro emails
  induction emails with
  | nil => intro seq; rfl
  | cons e es ih => intro seq; simp [savedFrom, ih]

theorem rowsFrom_id : ∀ (env : Env) (emails : List Email) (seq : Int),
    (rowsFrom env seq emails).map (fun e => (e.ID, e.UserID, e.EmailAddress)) =
      (savedFrom seq emails).map (fun e => (e.ID, e.UserID, e.EmailAddress)) := by
  intro env emails
  induction emails with
  | nil => intro seq; rfl
  | cons e es ih => intro seq; simp [savedFrom, rowsFrom, ih]

/-! ### The audit log -/

theorem writeLogs_spec (env : Env) :
    ∀ (ls : List OperationLog) (db : DB),
      (writeLogs env ls db).emails = db.emails ∧
      (writeLogs env ls db).emailSeq = db.emailSeq ∧
      ∃ added : List OperationLog,
        (writeLogs env ls db).operation_logs = db.operation_logs ++ added ∧
        added.map stripLog = (ls.filter (fun l => (env.logErr l).isNone)).map stripLog := by
  intro ls
  induction ls with
  | nil => intro db; exact ⟨rfl, rfl, [], by simp [writeLogs], rfl⟩
  | cons l ls ih =>
    intro db
    simp only [writeLogs]
    obtain ⟨h1, h2, added, h3, h4⟩ := ih (CreateLog env db l).2
    cases hl : env.logErr l with
    | some e =>
      simp only [CreateLog, hl] at h1 h2 h3 ⊢
      refine ⟨h1, h2, added, h3, ?_⟩
      rw [h4]
      simp [List.filter, hl]
    | none =>
      simp only [CreateLog, hl] at h1 h2 h3 ⊢
      refine ⟨h1, h2, { l with ID := db.logSeq + 1, CreatedAt := env.now } :: added, ?_, ?_⟩
      · rw [h3]; simp
      · rw [List.map_cons, h4]
        simp [List.filter, hl, stripLog]

theorem logAdded_eq (env : Env) (userID : Int) (ipAddress userAgent : String) :
    ∀ (saved : List Email) (db : DB),
      logAdded env userID ipAddress userAgent saved db =
        writeLogs env (saved.map (fun email =>
          emailLog userID "email_added" email.ID ("添加邮箱: " ++ email.EmailAddress)
            ipAddress userAgent)) db := by
  intro saved
  induction saved with
  | nil => intro db; rfl
  | cons e es ih =>
    intro db
    simp only [logAdded, List.map_cons, writeLogs, LogEmail]
    exact ih _

theorem writeLogs_append (env : Env) :
    ∀ (l₁ l₂ : List OperationLog) (db : DB),
      writeLogs env (l₁ ++ l₂) db = writeLogs env l₂ (writeLogs env l₁ db) := by
  intro l₁
  induction l₁ with
  | nil => intro l₂ db; rfl
  | cons l ls ih => intro l₂ db; simp only [List.cons_append, writeLogs]; exact ih _ _

/-- For a batch of 1 to 30 candidates, `BatchAddEmails` is the atomic save of
the accepted candidates followed by the audit records, whatever the schedule. -/
theorem BatchAddEmails_eq (env : Env) (cfg : Config) (sched : List Nat) (db : DB)
    (userID : Int) (req : BatchAddEmailRequest) (ipAddress userAgent : String)
    (h0 : req.Emails.length ≠ 0) (h30 : req.Emails.length ≤ 30) :
    BatchAddEmails env cfg sched db userID req ipAddress userAgent =
      match BatchCreateEmails env db
          ((batchResults env cfg db userID req.Emails).filterMap validOf) with
      | (Except.error err, db1) =>
        ({ successEmails := [], errors := [], err := some ("批量保存邮箱失败: " ++ err) }, db1,
          (runPool env cfg db userID sched (initPool cfg req.Emails)).trace)
      | (Except.ok saved, db1) =>
        ({ successEmails := saved
           errors := (batchResults env cfg db userID req.Emails).filterMap errorOf
           err := none },
          writeLogs env (batchLogs userID ipAddress userAgent saved
            ((batchResults env cfg db userID req.Emails).filterMap errorOf)) db1,
          (runPool env cfg db userID sched (initPool cfg req.Emails)).trace) := by
  have h30' : ¬ req.Emails.length > 30 := by omega
  have hres : (runPool env cfg db userID sched (initPool cfg req.Emails)).results =
      batchResults env cfg db userID req.Emails := runPool_results env cfg db userID sched _
  unfold BatchAddEmails
  rw [if_neg h0, if_neg h30']
  simp only [hres, partitionResults_eq]
  change (if ((batchResults env cfg db userID req.Emails).filterMap validOf).length > 0 then _
    else _) = _
  split
  · cases hsave : BatchCreateEmails env db
      ((batchResults env cfg db userID req.Emails).filterMap validOf) with
    | mk res db1 =>
      cases res with
      | error err => rfl
      | ok saved =>
        simp only [batchLogs, writeLogs_append, logAdded_eq, writeLogs, LogEmail]
  · next hlen =>
    have hnil : (batchResults env cfg db userID req.Emails).filterMap validOf = [] :=
      List.length_eq_zero.1 (by omega)
    rw [hnil]
    simp only [BatchCreateEmails, List.length_nil, if_true, batchLogs, List.map_nil,
      List.nil_append, writeLogs, LogEmail]

theorem BatchCreateEmails_saved (env : Env) (db : DB) (emails saved : List Email)
    (h : (BatchCreateEmails env db emails).1 = Except.ok saved) :
    saved = savedFrom db.emailSeq emails ∧
      (BatchCreateEmails env db emails).2.emails = db.emails ++ rowsFrom env db.emailSeq emails ∧
      (BatchCreateEmails env db emails).2.operation_logs = db.operation_logs := by
  by_cases hne : emails = []
  · subst hne
    simp only [BatchCreateEmails, List.length_nil, if_true, Except.ok.injEq] at h ⊢
    subst h
    simp [savedFrom, rowsFrom]
  · obtain ⟨cur, hloop, hall⟩ := BatchCreateEmails_ok env db emails saved h hne
    obtain ⟨h1, h2, _, h4, _⟩ := createLoop_spec env emails db [] saved cur hloop
    rw [hall]
    exact ⟨by simpa using h1, h2, h4⟩

theorem tasksFrom_getElem?_eq (emails : List AddEmailRequest) :
    ∀ (k i : Nat), (tasksFrom k emails)[i]? =
      (emails[i]?).map (fun r => ({ index := k + i, req := r } : emailTask)) := by
  induction emails with
  | nil => intro k i; simp [tasksFrom]
  | cons a l ih =>
    intro k i
    cases i with
    | zero => simp [tasksFrom]
    | succ i =>
      simp only [tasksFrom, List.getElem?_cons_succ, ih]
      congr 1
      funext r
      congr 1
      omega

theorem mem_tasksFrom (emails : List AddEmailRequest) (task : emailTask)
    (h : task ∈ tasksFrom 0 emails) : emails[task.index]? = some task.req := by
  obtain ⟨i, hi⟩ := List.getElem?_of_mem h
  rw [tasksFrom_getElem?_eq] at hi
  cases hr : emails[i]? with
  | none => rw [hr] at hi; cases hi
  | some r =>
    rw [hr] at hi
    simp only [Option.map_some', Option.some.injEq, zero_add] at hi
    subst hi
    exact hr

theorem batchResults_getElem? (env : Env) (cfg : Config) (db : DB) (userID : Int)
    (emails : List AddEmailRequest) (i : Nat) :
    (batchResults env cfg db userID emails)[i]? =
      (emails[i]?).map (fun r => processTask env cfg db userID { index := i, req := r }) := by
  unfold batchResults
  rw [List.getElem?_map, tasksFrom_getElem?_eq]
  cases emails[i]? with
  | none => rfl
  | some r => simp

/-- The trace of a call only holds events of tasks of the batch, and gateway
calls only for tasks whose address the existence check did not find. -/
theorem BatchAddEmails_events (env : Env) (cfg : Config) (sched : List Nat) (db : DB)
    (userID : Int) (req : BatchAddEmailRequest) (ipAddress userAgent : String) :
    ∀ ev ∈ (BatchAddEmails env cfg sched db userID req ipAddress userAgent).2.2,
      EventOk env cfg db userID (tasksFrom 0 req.Emails) ev := by
  intro ev hev
  by_cases h0 : req.Emails.length = 0
  · simp [BatchAddEmails, h0] at hev
  · by_cases h30 : req.Emails.length > 30
    · simp [BatchAddEmails, h0, h30] at hev
    · rw [BatchAddEmails_eq env cfg sched db userID req ipAddress userAgent h0 (by omega)] at hev
      have hinv := (runPool_inv env cfg db userID sched req.Emails).1
      apply hinv.events
      revert hev
      cases BatchCreateEmails env db
          ((batchResults env cfg db userID req.Emails).filterMap validOf) with
      | mk res db1 =>
        cases res with
        | error err => exact fun h => h
        | ok saved => exact fun h => h

/-- No gateway call is made for a candidate whose address the existence check
finds. -/
theorem no_gateway_call (env : Env) (cfg : Config) (sched : List Nat) (db : DB)
    (userID : Int) (req : BatchAddEmailRequest) (ipAddress userAgent : String)
    (i : Nat) (r : AddEmailRequest) (email : Email)
    (hi : req.Emails[i]? = some r)
    (hex : EmailExists env db userID r.EmailAddress = (true, none)) :
    Event.gatewayCall i email ∉
      (BatchAddEmails env cfg sched db userID req ipAddress userAgent).2.2 := by
  intro hmem
  have hev := BatchAddEmails_events env cfg sched db userID req ipAddress userAgent _ hmem
  obtain ⟨task, htask, hidx, _, hne, _⟩ := hev
  have hreq := mem_tasksFrom req.Emails task htask
  rw [hidx, hi] at hreq
  simp only [Option.some.injEq] at hreq
  rw [← hreq, hex] at hne
  cases hne

/-- What a call that ends without a top-level error returns and leaves. -/
theorem BatchAddEmails_ok (env : Env) (cfg : Config) (sched : List Nat) (db : DB)
    (userID : Int) (req : BatchAddEmailRequest) (ipAddress userAgent : String)
    (h0 : req.Emails.length ≠ 0)
    (hok : (BatchAddEmails env cfg sched db userID req ipAddress userAgent).1.err = none) :
    ∃ db1 : DB,
      db1.emails = db.emails ++ rowsFrom env db.emailSeq
        ((batchResults env cfg db userID req.Emails).filterMap validOf) ∧
      db1.operation_logs = db.operation_logs ∧
      (BatchAddEmails env cfg sched db userID req ipAddress userAgent).1 =
        { successEmails := savedFrom db.emailSeq
            ((batchResults env cfg db userID req.Emails).filterMap validOf)
          errors := (batchResults env cfg db userID req.Emails).filterMap errorOf
          err := none } ∧
      (BatchAddEmails env cfg sched db userID req ipAddress userAgent).2.1 =
        writeLogs env (batchLogs userID ipAddress userAgent
          (savedFrom db.emailSeq ((batchResults env cfg db userID req.Emails).filterMap validOf))
          ((batchResults env cfg db userID req.Emails).filterMap errorOf)) db1 := by
  by_cases h30 : req.Emails.length > 30
  · simp [BatchAddEmails, h0, h30] at hok
  · have heq := BatchAddEmails_eq env cfg sched db userID req ipAddress userAgent h0 (by omega)
    rw [heq] at hok ⊢
    cases hsave : BatchCreateEmails env db
        ((batchResults env cfg db userID req.Emails).filterMap validOf) with
    | mk res db1 =>
      cases res with
      | error err => rw [hsave] at hok; simp at hok
      | ok saved =>
        obtain ⟨hs, hrows, hlogs⟩ := BatchCreateEmails_saved env db _ saved (by rw [hsave])
        rw [hsave] at hrows hlogs
        subst hs
        exact ⟨db1, hrows, hlogs, rfl, rfl⟩

/-! ### Merging the two lists back -/

theorem merge_results (env : Env) (cfg : Config) (db : DB) (userID : Int) :
    ∀ (tasks : List emailTask) (seq : Int),
      (mergeByIndex
          ((tasks.map (processTask env cfg db userID)).map (fun r => decide (r.error ≠ "")))
          (savedFrom seq ((tasks.map (processTask env cfg db userID)).filterMap validOf))
          ((tasks.map (processTask env cfg db userID)).filterMap errorOf)).map
        (Sum.map Email.EmailAddress id) =
      tasks.map (fun task =>
        if (processTask env cfg db userID task).error ≠ "" then
          Sum.inr (processTask env cfg db userID task).error
        else Sum.inl task.req.EmailAddress) := by
  intro tasks
  induction tasks with
  | nil => intro seq; rfl
  | cons t ts ih =>
    intro seq
    rcases processTask_cases env cfg db userID t with ⟨msg, hne, h⟩ | h
    · simp only [List.map_cons, List.filterMap_cons, h, validOf, errorOf, hne, ne_eq,
        not_false_eq_true, if_true, decide_True, mergeByIndex, Sum.map_inr, id]
      rw [← ih seq]
    · simp only [List.map_cons, List.filterMap_cons, h, validOf, errorOf, ne_eq,
        not_true_eq_false, if_false, decide_False, savedFrom, mergeByIndex, Sum.map_inl]
      rw [← ih (seq + 1)]
      simp only [validOf, errorOf, ne_eq, List.map_map, newEmail]

/-! ### The duplicate message is not any other message -/

theorem third_char_ne (X Y rest : List Char) (c d : Char) (h : X ++ rest = Y)
    (hx : X[2]? = some c) (hy : Y[2]? = some d) (hcd : c ≠ d) : False := by
  have hlen : 2 < X.length := by
    by_contra hcon
    rw [List.getElem?_eq_none (by omega)] at hx
    cases hx
  have h1 : (X ++ rest)[2]? = X[2]? := List.getElem?_append_left hlen
  rw [h, hy, hx] at h1
  exact hcd (Option.some.inj h1).symm

theorem duplicate_ne_check (a err : String) :
    "邮箱 " ++ a ++ ": 检查邮箱存在性失败: " ++ err ≠ duplicateError a := by
  intro h
  have h1 := congrArg String.data h
  simp only [duplicateError, String.data_append, List.append_assoc] at h1
  have h2 := List.append_cancel_left (List.append_cancel_left h1)
  exact third_char_ne _ _ _ '检' '邮' h2 (by decide) (by decide) (by decide)

theorem duplicate_ne_gateway (a b err : String) :
    "邮箱 " ++ a ++ ": " ++ ("验证邮箱 " ++ b ++ " 凭据失败: " ++ err) ≠ duplicateError a := by
  intro h
  have h1 := congrArg String.data h
  simp only [duplicateError, String.data_append, List.append_assoc] at h1
  have h2 := List.append_cancel_left (List.append_cancel_left h1)
  rw [← List.append_assoc] at h2
  exact third_char_ne _ _ _ '验' '邮' h2 (by decide) (by decide) (by decide)

theorem duplicate_ne_empty (a : String) : "" ≠ duplicateError a :=
  fun h => prefix_ne_empty a ": 邮箱已存在" h.symm

/-- A candidate whose address the existence check finds gets the duplicate
failure and no credential. -/
theorem processTask_duplicate (env : Env) (cfg : Config) (db : DB) (userID : Int)
    (task : emailTask)
    (hex : EmailExists env db userID task.req.EmailAddress = (true, none)) :
    processTask env cfg db userID task =
      { email := none, error := duplicateError task.req.EmailAddress, index := task.index } := by
  simp only [processTask, hex, duplicateError]

/-- Only a candidate whose address the existence check finds gets the
duplicate failure. -/
theorem duplicate_only_if_found (env : Env) (cfg : Config) (db : DB) (userID : Int)
    (task : emailTask)
    (h : (processTask env cfg db userID task).error = duplicateError task.req.EmailAddress) :
    EmailExists env db userID task.req.EmailAddress = (true, none) := by
  simp only [processTask] at h
  split at h
  · exact absurd h (duplicate_ne_check _ _)
  · next hex => exact hex
  · split at h
    · split at h
      · next err hv =>
        simp only [ValidateEmailCredentials] at hv
        split at hv
        · simp only [Option.some.injEq] at hv
          subst hv
          exact absurd h (duplicate_ne_gateway _ _ _)
        · cases hv
      · exact absurd h (duplicate_ne_empty _)
    · exact absurd h (duplicate_ne_empty _)

/-! ### Submitting a batch again -/

theorem EmailExists_of_mem (env : Env) (db : DB) (userID : Int) (emailAddress : String)
    (row : Email) (hrow : row ∈ db.emails) (hu : row.UserID = userID)
    (ha : row.EmailAddress = emailAddress) (hq : env.queryErr userID emailAddress = none) :
    EmailExists env db userID emailAddress = (true, none) := by
  have hpos : 0 < db.emails.countP
      (fun e => decide (e.UserID = userID) && decide (e.EmailAddress = emailAddress)) :=
    List.countP_pos_iff.2 ⟨row, hrow, by simp [hu, ha]⟩
  simp only [EmailExists, hq]
  simp [hpos]

theorem tasksFrom_req (emails : List AddEmailRequest) :
    ∀ k, (tasksFrom k emails).map emailTask.req = emails := by
  induction emails with
  | nil => intro k; rfl
  | cons a l ih => intro k; simp [tasksFrom, ih]

theorem rowsFrom_mem (env : Env) :
    ∀ (emails : List Email) (seq : Int) (e : Email), e ∈ emails →
      ∃ row ∈ rowsFrom env seq emails,
        row.UserID = e.UserID ∧ row.EmailAddress = e.EmailAddress := by
  intro emails
  induction emails with
  | nil => intro seq e he; cases he
  | cons a l ih =>
    intro seq e he
    rcases List.mem_cons.1 he with h | h
    · subst h
      exact ⟨_, List.mem_cons_self _ _, rfl, rfl⟩
    · obtain ⟨row, hrow, h1, h2⟩ := ih (seq + 1) e h
      exact ⟨row, List.mem_cons_of_mem _ hrow, h1, h2⟩

/-- When every candidate is accepted, the accepted list is the list of the
credentials built from the candidates, in input order. -/
theorem all_valid (env : Env) (cfg : Config) (db : DB) (userID : Int) :
    ∀ tasks : List emailTask,
      ((tasks.map (processTask env cfg db userID)).filterMap validOf).length = tasks.length →
      (tasks.map (processTask env cfg db userID)).filterMap validOf =
        tasks.map (fun task => newEmail userID task.req) := by
  intro tasks
  induction tasks with
  | nil => intro _; rfl
  | cons t ts ih =>
    intro hlen
    have hle := List.length_filterMap_le validOf (ts.map (processTask env cfg db userID))
    rw [List.length_map] at hle
    simp only [List.map_cons, List.filterMap_cons, List.length_cons] at hlen ⊢
    rcases processTask_split env cfg db userID t with ⟨h1, _⟩ | ⟨h1, _⟩
    · rw [h1] at hlen
      simp only at hlen
      omega
    · rw [h1] at hlen ⊢
      simp only [List.length_cons, add_left_inj] at hlen
      simp only
      rw [ih hlen]

/-- When the store has a credential of the account for the address of every
candidate and the existence checks go through, every result is the duplicate
failure. -/
theorem all_duplicates (env : Env) (cfg : Config) (db : DB) (userID : Int)
    (hq : ∀ a, env.queryErr userID a = none) :
    ∀ tasks : List emailTask,
      (∀ task ∈ tasks, ∃ row ∈ db.emails,
        row.UserID = userID ∧ row.EmailAddress = task.req.EmailAddress) →
      (tasks.map (processTask env cfg db userID)).filterMap validOf = [] ∧
      (tasks.map (processTask env cfg db userID)).filterMap errorOf =
        tasks.map (fun task => duplicateError task.req.EmailAddress) := by
  intro tasks
  induction tasks with
  | nil => intro _; exact ⟨rfl, rfl⟩
  | cons t ts ih =>
    intro hall
    obtain ⟨row, hrow, hu, ha⟩ := hall t (List.mem_cons_self _ _)
    have hex := EmailExists_of_mem env db userID _ row hrow hu ha (hq _)
    have hp := processTask_duplicate env cfg db userID t hex
    have hne : duplicateError t.req.EmailAddress ≠ "" := fun h => duplicate_ne_empty _ h.symm
    obtain ⟨h1, h2⟩ := ih (fun task htask => hall task (List.mem_cons_of_mem _ htask))
    simp only [List.map_cons, List.filterMap_cons, hp, validOf, errorOf, hne, ne_eq,
      not_false_eq_true, if_true]
    exact ⟨h1, by rw [h2]⟩

/-! ### The audit records of a batch -/

theorem stripLog_batchLogs (userID : Int) (ipAddress userAgent : String)
    (successEmails : List Email) (errors : List String) :
    ∀ l ∈ batchLogs userID ipAddress userAgent successEmails errors, stripLog l = l := by
  intro l hl
  rcases List.mem_append.1 hl with h | h
  · obtain ⟨e, _, he⟩ := List.mem_map.1 h
    rw [← he]
    rfl
  · rw [List.mem_singleton] at h
    rw [h]
    rfl

theorem map_stripLog_filter (userID : Int) (ipAddress userAgent : String)
    (successEmails : List Email) (errors : List String) (p : OperationLog → Bool) :
    ((batchLogs userID ipAddress userAgent successEmails errors).filter p).map stripLog =
      (batchLogs userID ipAddress userAgent successEmails errors).filter p := by
  have h : ∀ l ∈ (batchLogs userID ipAddress userAgent successEmails errors).filter p,
      stripLog l = id l := fun l hl =>
    stripLog_batchLogs userID ipAddress userAgent successEmails errors l
      (List.mem_filter.1 hl).1
  rw [List.map_congr_left h, List.map_id]

/-! ### How many workers hold a task -/

theorem countP_holdsTask (ws : List Worker) :
    ws.countP Worker.holdsTask = Multiset.card (heldAll ws) := by
  induction ws with
  | nil => rfl
  | cons a l ih =>
    simp only [heldAll, List.map_cons, List.sum_cons, Multiset.card_add] at ih ⊢
    rw [List.countP_cons, ih]
    cases a <;> simp [held, Worker.holdsTask] <;> omega

theorem inFlight_le_busy (p : Pool) : inFlight p ≤ busy p := by
  unfold inFlight busy
  apply List.countP_mono_left
  intro w _ hw
  cases w <;> simp_all [Worker.inGateway, Worker.holdsTask]

theorem busy_le (env : Env) (cfg : Config) (db : DB) (userID : Int) (tasks : List emailTask)
    (w : Nat) (p : Pool) (h : Inv env cfg db userID tasks w p) :
    busy p ≤ min tasks.length w := by
  apply le_min
  · obtain ⟨stored, _, hpl, _⟩ := h.place
    have hcard := congrArg Multiset.card hpl
    simp only [Multiset.card_add, Multiset.coe_card, List.length_map] at hcard
    unfold busy
    rw [countP_holdsTask]
    omega
  · rw [← h.wlen]
    exact List.countP_le_length _

theorem exec_append (env : Env) (cfg : Config) (db : DB) (userID : Int)
    (s₁ s₂ : List Nat) (p : Pool) :
    exec env cfg db userID (s₁ ++ s₂) p =
      exec env cfg db userID s₂ (exec env cfg db userID s₁ p) := by
  simp only [exec, List.foldl_append]

theorem firstEnabled_exec (env : Env) (cfg : Config) (db : DB) (userID : Int) (p q : Pool)
    (h : firstEnabled env cfg db userID p = some q) :
    ∃ g, q = exec env cfg db userID [g] p := by
  obtain ⟨g, hg⟩ := firstEnabled_step h
  exact ⟨g, by simp [exec, hg]⟩

/-- Draining is running a schedule. -/
theorem drain_exec (env : Env) (cfg : Config) (db : DB) (userID : Int) :
    ∀ (fuel : Nat) (p : Pool), ∃ rest : List Nat,
      drain env cfg db userID fuel p = exec env cfg db userID rest p := by
  intro fuel
  induction fuel with
  | zero => intro p; exact ⟨[], rfl⟩
  | succ fuel ih =>
    intro p
    simp only [drain]
    cases hf : firstEnabled env cfg db userID p with
    | none => exact ⟨[], rfl⟩
    | some q =>
      obtain ⟨g, hg⟩ := firstEnabled_exec env cfg db userID p q hf
      obtain ⟨rest, hrest⟩ := ih q
      refine ⟨g :: rest, ?_⟩
      simp only
      rw [hrest, hg]
      rfl

theorem runPool_exec (env : Env) (cfg : Config) (db : DB) (userID : Int) (sched : List Nat)
    (p : Pool) :
    ∃ rest : List Nat,
      runPool env cfg db userID sched p = exec env cfg db userID (sched ++ rest) p := by
  obtain ⟨rest, hrest⟩ := drain_exec env cfg db userID
    (5 * p.results.length + p.workers.length + 1) (exec env cfg db userID sched p)
  exact ⟨rest, by rw [exec_append]; exact hrest⟩

/-- Every state a schedule leads to from the start of a batch satisfies the
invariant. -/
theorem inv_reachable (env : Env) (cfg : Config) (db : DB) (userID : Int)
    (emails : List AddEmailRequest) (sched : List Nat) :
    Inv env cfg db userID (tasksFrom 0 emails) (maxWorkers cfg).toNat
      (exec env cfg db userID sched (initPool cfg emails)) :=
  inv_exec (tasksFrom_nodup emails 0) (tasksFrom_index_lt emails) sched _
    (inv_initPool env cfg db userID emails)

/-! ### The gateway calls -/

/-- What the shared request block returns when the gateway answers. -/
theorem post_of_answers (env : Env) (requestURL : String) (requestData : List (String × String))
    (status : Nat) (body : String) (h : Answers env requestURL status body) :
    post env requestURL requestData =
      if status ≠ 200 then Except.error (statusError status body) else Except.ok body := by
  obtain ⟨hreq, hdo⟩ := h
  obtain ⟨resp, hresp, hst, hbody⟩ := hdo
    { method := "POST"
      url := requestURL
      headers := [("Content-Type", "application/json"), ("Accept", "*/*"),
        ("Connection", "keep-alive")]
      data := requestData } rfl
  simp only [post, hreq, hresp, hbody, hst, statusError]

theorem post_ok (env : Env) (requestURL : String) (requestData : List (String × String))
    (body : String) (h : Answers env requestURL 200 body) :
    post env requestURL requestData = Except.ok body := by
  rw [post_of_answers env requestURL requestData 200 body h]
  simp

theorem post_status (env : Env) (requestURL : String) (requestData : List (String × String))
    (status : Nat) (body : String) (h : Answers env requestURL status body)
    (hs : status ≠ 200) :
    post env requestURL requestData = Except.error (statusError status body) := by
  rw [post_of_answers env requestURL requestData status body h]
  simp [hs]

/-! ### Reading a decoded object -/

theorem foldl_lookup_some (key : String) (m : JSONMap) :
    ∀ v : JSON, ∃ w,
      m.foldl (fun found member => if member.1 = key then some member.2 else found) (some v) =
        some w := by
  induction m with
  | nil => intro v; exact ⟨v, rfl⟩
  | cons a l ih =>
    intro v
    simp only [List.foldl_cons]
    by_cases h : a.1 = key
    · simp only [h, if_true]; exact ih a.2
    · simp only [h, if_false]; exact ih v

/-- A key has no value in the map exactly when no member carries it. -/
theorem mapLookup_eq_none (m : JSONMap) (key : String) :
    mapLookup m key = none ↔ ∀ v, (key, v) ∉ m := by
  induction m with
  | nil => simp [mapLookup]
  | cons a l ih =>
    obtain ⟨k, v⟩ := a
    unfold mapLookup at ih ⊢
    simp only [List.foldl_cons]
    by_cases h : k = key
    · subst h
      simp only [if_true]
      obtain ⟨w, hw⟩ := foldl_lookup_some k l v
      rw [hw]
      simp only [false_iff, not_forall, not_not, reduceCtorEq]
      exact ⟨v, List.mem_cons_self _ _⟩
    · simp only [h, if_false]
      rw [ih]
      constructor
      · intro hall w hmem
        rcases List.mem_cons.1 hmem with heq | hmem
        · exact h (by cases heq; rfl)
        · exact hall w hmem
      · intro hall w hmem
        exact hall w (List.mem_cons_of_mem _ hmem)

theorem getStringFromMap_str (m : JSONMap) (key str : String)
    (h : mapLookup m key = some (JSON.str str)) : getStringFromMap m key = str := by
  simp only [getStringFromMap, h]

theorem getStringFromMap_default (m : JSONMap) (key : String)
    (h : ∀ str, mapLookup m key ≠ some (JSON.str str)) : getStringFromMap m key = "" := by
  unfold getStringFromMap
  split
  · next str hstr => exact absurd hstr (h str)
  · rfl

theorem getBoolFromMap_bool (m : JSONMap) (key : String) (b : Bool)
    (h : mapLookup m key = some (JSON.bool b)) : getBoolFromMap m key = b := by
  simp only [getBoolFromMap, h]

theorem getBoolFromMap_default (m : JSONMap) (key : String)
    (h : ∀ b, mapLookup m key ≠ some (JSON.bool b)) : getBoolFromMap m key = false := by
  unfold getBoolFromMap
  split
  · next b hb => exact absurd hb (h b)
  · rfl

/-- The string a field contributes is empty or the string the map holds. -/
theorem getStringFromMap_cases (m : JSONMap) (key : String) :
    getStringFromMap m key = "" ∨
      mapLookup m key = some (JSON.str (getStringFromMap m key)) := by
  unfold getStringFromMap
  split
  · next str hstr => exact Or.inr hstr
  · exact Or.inl rfl

/-! ### Timestamps -/

/-- The timestamp a field contributes when it is not a string that parses. -/
theorem parse_field_none (env : Env) (m : JSONMap) (key : String)
    (h : ∀ str, mapLookup m key = some (JSON.str str) → env.parseRFC3339 str = none) :
    getStringFromMap m key = "" ∨ env.parseRFC3339 (getStringFromMap m key) = none := by
  rcases getStringFromMap_cases m key with h0 | h1
  · exact Or.inl h0
  · exact Or.inr (h _ h1)

theorem listedMail_zero (env : Env) (m : JSONMap) (h : NoTimestamp env m) :
    (listedMail env m).ReceivedAt = 0 := by
  rcases parse_field_none env m "date" h.1 with h0 | h1
  · simp [listedMail, h0]
  · simp [listedMail, h1]

theorem latestMail_zero (env : Env) (m : JSONMap) (h : NoTimestamp env m) :
    (latestMail env m).ReceivedAt = 0 := by
  rcases parse_field_none env m "date" h.1 with h0 | h1 <;>
    rcases parse_field_none env m "receivedDateTime" h.2 with h2 | h3
  · simp [latestMail, h0, h2]
  · simp [latestMail, h0, h3]
  · simp [latestMail, h1, h2]
  · simp [latestMail, h1, h3]

/-! ### The body of a message -/

theorem latestMail_body_html (env : Env) (m : JSONMap)
    (h : getStringFromMap m "html" ≠ "") :
    (latestMail env m).Body = getStringFromMap m "html" := by
  unfold latestMail
  simp only [h, if_false]
  split <;> [split; skip] <;> rfl

theorem latestMail_body_text (env : Env) (m : JSONMap)
    (h : getStringFromMap m "html" = "") :
    (latestMail env m).Body = getStringFromMap m "text" := by
  unfold latestMail
  simp only [h, if_true]
  split <;> [split; skip] <;> rfl

/-! ### Decoding a response body -/

theorem unmarshalMap_obj (env : Env) (body : String) (fields : List (String × JSON))
    (h : env.jsonParse body = Except.ok (JSON.obj fields))
    (hnum : floatErrFields env.parseFloatErr fields = none) :
    unmarshalMap env body = Except.ok fields := by
  simp only [unmarshalMap, h, hnum]

/-- An object with a number that does not fit a float64 is not decoded. -/
theorem unmarshalMap_obj_error (env : Env) (body : String) (fields : List (String × JSON))
    (err : String) (h : env.jsonParse body = Except.ok (JSON.obj fields))
    (hnum : floatErrFields env.parseFloatErr fields = some err) :
    unmarshalMap env body = Except.error err := by
  simp only [unmarshalMap, h, hnum]

theorem unmarshalMap_null (env : Env) (body : String)
    (h : env.jsonParse body = Except.ok JSON.null) :
    unmarshalMap env body = Except.ok [] := by
  simp only [unmarshalMap, h]

/-- The decode into a map goes through only for `null` and for an object all
of whose numbers fit a float64. -/
theorem unmarshalMap_ok (env : Env) (body : String) (m : JSONMap)
    (h : unmarshalMap env body = Except.ok m) :
    (env.jsonParse body = Except.ok JSON.null ∧ m = []) ∨
      (env.jsonParse body = Except.ok (JSON.obj m) ∧
        floatErrFields env.parseFloatErr m = none) := by
  unfold unmarshalMap at h
  cases hp : env.jsonParse body with
  | error err => rw [hp] at h; cases h
  | ok v =>
    rw [hp] at h
    cases v with
    | null => cases h; exact Or.inl ⟨rfl, rfl⟩
    | obj fields =>
      simp only at h
      cases hf : floatErrFields env.parseFloatErr fields with
      | some err => rw [hf] at h; cases h
      | none => rw [hf] at h; cases h; exact Or.inr ⟨rfl, hf⟩
    | bool b => cases h
    | num text => cases h
    | str str => cases h
    | arr items => cases h

/-- The decode into a map fails for every text that is neither an object nor
`null`. -/
theorem unmarshalMap_error (env : Env) (body : String)
    (h : ∀ v, env.jsonParse body = Except.ok v → v.isObjectOrNull = false) :
    ∃ err, unmarshalMap env body = Except.error err := by
  unfold unmarshalMap
  cases hp : env.jsonParse body with
  | error err => exact ⟨err, rfl⟩
  | ok v =>
    cases v with
    | null => exact absurd (h _ hp) (by simp [JSON.isObjectOrNull])
    | obj fields => exact absurd (h _ hp) (by simp [JSON.isObjectOrNull])
    | bool b => exact ⟨_, rfl⟩
    | num text => exact ⟨_, rfl⟩
    | str str => exact ⟨_, rfl⟩
    | arr items => exact ⟨_, rfl⟩

theorem unmarshalElems_error (outOfRange : String → Bool) (items : List JSON)
    (h : ∃ v ∈ items, v.isObjectOrNull = false) :
    ∃ err, unmarshalElems outOfRange items = Except.error err := by
  induction items with
  | nil => obtain ⟨v, hv, _⟩ := h; cases hv
  | cons a l ih =>
    have hl : a.isObjectOrNull = true →
        ∃ err, unmarshalElems outOfRange l = Except.error err := by
      intro ha
      obtain ⟨v, hv, hbad⟩ := h
      rcases List.mem_cons.1 hv with heq | hmem
      · subst heq
        rw [ha] at hbad
        cases hbad
      · exact ih ⟨v, hmem, hbad⟩
    cases a with
    | null =>
      obtain ⟨err, herr⟩ := hl rfl
      exact ⟨err, by simp only [unmarshalElems, herr]⟩
    | obj fields =>
      obtain ⟨err, herr⟩ := hl rfl
      cases hf : floatErrFields outOfRange fields with
      | some e => exact ⟨e, by simp only [unmarshalElems, hf]⟩
      | none => exact ⟨err, by simp only [unmarshalElems, hf, herr]⟩
    | bool b => exact ⟨_, rfl⟩
    | num text => exact ⟨_, rfl⟩
    | str s => exact ⟨_, rfl⟩
    | arr items => exact ⟨_, rfl⟩

/-- The decode into a slice of maps fails for every text that is not `null`
and not an array of objects and `null`s. -/
theorem unmarshalMaps_error (env : Env) (body : String)
    (h1 : ∀ v, env.jsonParse body = Except.ok v → v.isObjectOrNull = false)
    (h2 : ∀ items, env.jsonParse body = Except.ok (JSON.arr items) →
      ∃ v ∈ items, v.isObjectOrNull = false) :
    ∃ err, unmarshalMaps env body = Except.error err := by
  unfold unmarshalMaps
  cases hp : env.jsonParse body with
  | error err => exact ⟨err, rfl⟩
  | ok v =>
    cases v with
    | null => exact absurd (h1 _ hp) (by simp [JSON.isObjectOrNull])
    | arr items => exact unmarshalElems_error env.parseFloatErr items (h2 items hp)
    | obj fields => exact ⟨_, rfl⟩
    | bool b => exact ⟨_, rfl⟩
    | num text => exact ⟨_, rfl⟩
    | str str => exact ⟨_, rfl⟩

theorem unmarshalMap_arr (env : Env) (body : String) (items : List JSON)
    (h : env.jsonParse body = Except.ok (JSON.arr items)) :
    unmarshalMap env body = Except.error
      "json: cannot unmarshal array into Go value of type map[string]interface {}" := by
  simp only [unmarshalMap, h]
  rfl

theorem unmarshalMaps_arr (env : Env) (body : String) (items : List JSON)
    (h : env.jsonParse body = Except.ok (JSON.arr items)) :
    unmarshalMaps env body = unmarshalElems env.parseFloatErr items := by
  simp only [unmarshalMaps, h]

/-- An object is not decoded into a slice of maps. -/
theorem unmarshalMaps_obj (env : Env) (body : String) (fields : List (String × JSON))
    (h : env.jsonParse body = Except.ok (JSON.obj fields)) :
    unmarshalMaps env body = Except.error
      "json: cannot unmarshal object into Go value of type []map[string]interface {}" := by
  simp only [unmarshalMaps, h]
  rfl

/-! ### The three calls on a 200 response -/

theorem GetLatestMail_map (env : Env) (s : OutlookService) (email : Email)
    (mailbox responseType body : String) (mailData : JSONMap)
    (h : Answers env (s.baseURL ++ "/api/mail-new") 200 body)
    (hm : unmarshalMap env body = Except.ok mailData) :
    GetLatestMail env s email mailbox responseType = Except.ok (latestMail env mailData) := by
  simp only [GetLatestMail, post_ok env _ _ body h, hm]

theorem GetLatestMail_rejected (env : Env) (s : OutlookService) (email : Email)
    (mailbox responseType body err arrayErr : String)
    (h : Answers env (s.baseURL ++ "/api/mail-new") 200 body)
    (hm : unmarshalMap env body = Except.error err)
    (ha : unmarshalMaps env body = Except.error arrayErr) :
    GetLatestMail env s email mailbox responseType =
      Except.error ("解析响应失败: " ++ err ++ ", 响应内容: " ++ body) := by
  simp only [GetLatestMail, post_ok env _ _ body h, hm, ha]

theorem GetLatestMail_nil (env : Env) (s : OutlookService) (email : Email)
    (mailbox responseType body err : String)
    (h : Answers env (s.baseURL ++ "/api/mail-new") 200 body)
    (hm : unmarshalMap env body = Except.error err)
    (ha : unmarshalMaps env body = Except.ok []) :
    GetLatestMail env s email mailbox responseType = Except.error "API返回空邮件数组" := by
  simp only [GetLatestMail, post_ok env _ _ body h, hm, ha]

theorem GetLatestMail_first (env : Env) (s : OutlookService) (email : Email)
    (mailbox responseType body err : String) (mailData : JSONMap) (rest : List JSONMap)
    (h : Answers env (s.baseURL ++ "/api/mail-new") 200 body)
    (hm : unmarshalMap env body = Except.error err)
    (ha : unmarshalMaps env body = Except.ok (mailData :: rest)) :
    GetLatestMail env s email mailbox responseType = Except.ok (latestMail env mailData) := by
  simp only [GetLatestMail, post_ok env _ _ body h, hm, ha]

theorem GetAllMails_decoded (env : Env) (s : OutlookService) (email : Email)
    (mailbox body : String) (mailsData : List JSONMap)
    (h : Answers env (s.baseURL ++ "/api/mail-all") 200 body)
    (ha : unmarshalMaps env body = Except.ok mailsData) :
    GetAllMails env s email mailbox = Except.ok (mailsData.map (listedMail env)) := by
  simp only [GetAllMails, post_ok env _ _ body h, ha]

theorem ClearInbox_rejected (env : Env) (s : OutlookService) (email : Email)
    (body err : String)
    (h : Answers env (s.baseURL ++ "/api/process-inbox") 200 body)
    (hm : unmarshalMap env body = Except.error err) :
    ClearInbox env s email = some ("解析响应失败: " ++ err ++ ", 响应内容: " ++ body) := by
  simp only [ClearInbox, post_ok env _ _ body h, hm]

theorem ClearInbox_decoded (env : Env) (s : OutlookService) (email : Email)
    (body : String) (response : JSONMap)
    (h : Answers env (s.baseURL ++ "/api/process-inbox") 200 body)
    (hm : unmarshalMap env body = Except.ok response) :
    ClearInbox env s email =
      if getStringFromMap response "error" ≠ "" then
        some ("API返回错误: " ++ getStringFromMap response "error")
      else none := by
  simp only [ClearInbox, post_ok env _ _ body h, hm]

/-- Every request is answered the same way by an environment whose `httpDo`
is constant. -/
theorem answers_const (status : Nat) (body : String) (parse : String → Except String JSON)
    (time : String → Option Nat) (requestURL : String) :
    Answers
      { httpDo := fun _ => Except.ok { StatusCode := status, body := Except.ok body }
        jsonParse := parse
        parseRFC3339 := time } requestURL status body :=
  ⟨rfl, fun _ _ => ⟨_, rfl, rfl, rfl⟩⟩

/-! ### Arrays of message objects -/

theorem unmarshalElems_objs (outOfRange : String → Bool) (objs : List JSONMap)
    (hnum : ∀ m ∈ objs, floatErrFields outOfRange m = none) :
    unmarshalElems outOfRange (objs.map JSON.obj) = Except.ok objs := by
  induction objs with
  | nil => rfl
  | cons a l ih =>
    simp only [List.map_cons, unmarshalElems, hnum a (List.mem_cons_self _ _),
      ih (fun m hm => hnum m (List.mem_cons_of_mem _ hm))]

theorem unmarshalMaps_objs (env : Env) (body : String) (objs : List JSONMap)
    (h : env.jsonParse body = Except.ok (JSON.arr (objs.map JSON.obj)))
    (hnum : ∀ m ∈ objs, floatErrFields env.parseFloatErr m = none) :
    unmarshalMaps env body = Except.ok objs := by
  rw [unmarshalMaps_arr env body _ h, unmarshalElems_objs env.parseFloatErr objs hnum]

/-- The decode into a map fails only for a text that is neither an object
nor `null`, and for an object with a number that does not fit a float64. -/
theorem unmarshalMap_error_only (env : Env) (body err : String)
    (h : unmarshalMap env body = Except.error err) :
    (∀ v, env.jsonParse body = Except.ok v → v.isObjectOrNull = false) ∨
      ∃ fields, env.jsonParse body = Except.ok (JSON.obj fields) ∧
        floatErrFields env.parseFloatErr fields = some err := by
  cases hp : env.jsonParse body with
  | error e =>
    left
    intro v hv
    cases hv
  | ok v =>
    cases v with
    | null => rw [unmarshalMap_null env body hp] at h; cases h
    | obj fields =>
      cases hf : floatErrFields env.parseFloatErr fields with
      | none => rw [unmarshalMap_obj env body fields hp hf] at h; cases h
      | some e =>
        rw [unmarshalMap_obj_error env body fields e hp hf] at h
        cases h
        exact Or.inr ⟨fields, rfl, hf⟩
    | bool b => left; intro v hv; cases hv; rfl
    | num text => left; intro v hv; cases hv; rfl
    | str s => left; intro v hv; cases hv; rfl
    | arr items => left; intro v hv; cases hv; rfl

theorem getStringFromMap_nil (key : String) : getStringFromMap [] key = "" := rfl

/-! ### `ClearInbox` on a 200 response -/

/-- When the acknowledgement is an object that decodes and whose `error` is
a non-empty string, `ClearInbox` returns that string behind its prefix. -/
theorem ClearInbox_error_field (env : Env) (s : OutlookService) (email : Email)
    (body : String) (fields : List (String × JSON)) (str : String)
    (h : Answers env (s.baseURL ++ "/api/process-inbox") 200 body)
    (hobj : env.jsonParse body = Except.ok (JSON.obj fields))
    (hnum : floatErrFields env.parseFloatErr fields = none)
    (herr : mapLookup fields "error" = some (JSON.str str)) (hne : str ≠ "") :
    ClearInbox env s email = some ("API返回错误: " ++ str) := by
  rw [ClearInbox_decoded env s email body fields h (unmarshalMap_obj env body fields hobj hnum),
    getStringFromMap_str fields "error" str herr]
  simp [hne]

/-- When `ClearInbox` fails on a 200 response, the body could not be decoded
or the acknowledgement carries a non-empty string as `error`. -/
theorem ClearInbox_fails_only (env : Env) (s : OutlookService) (email : Email)
    (body : String)
    (h : Answers env (s.baseURL ++ "/api/process-inbox") 200 body)
    (hfail : ClearInbox env s email ≠ none) :
    (∀ v, env.jsonParse body = Except.ok v → v.isObjectOrNull = false) ∨
      (∃ fields, env.jsonParse body = Except.ok (JSON.obj fields) ∧
        floatErrFields env.parseFloatErr fields ≠ none) ∨
      ∃ fields str, env.jsonParse body = Except.ok (JSON.obj fields) ∧
        mapLookup fields "error" = some (JSON.str str) ∧ str ≠ "" := by
  cases hm : unmarshalMap env body with
  | error err =>
    rcases unmarshalMap_error_only env body err hm with hbad | ⟨fields, hobj, hf⟩
    · exact Or.inl hbad
    · exact Or.inr (Or.inl ⟨fields, hobj, by rw [hf]; exact Option.some_ne_none _⟩)
  | ok response =>
    rw [ClearInbox_decoded env s email body response h hm] at hfail
    by_cases hne : getStringFromMap response "error" = ""
    · simp [hne] at hfail
    · rcases unmarshalMap_ok env body response hm with ⟨_, hnil⟩ | ⟨hobj, _⟩
      · subst hnil
        exact absurd (getStringFromMap_nil "error") hne
      · rcases getStringFromMap_cases response "error" with h0 | h1
        · exact absurd h0 hne
        · exact Or.inr (Or.inr ⟨response, _, hobj, h1, hne⟩)

/-! ### The timestamp parser does not decide whether a call fails -/

theorem GetLatestMail_isOk_time (env : Env) (parse : String → Option Nat)
    (s : OutlookService) (email : Email) (mailbox responseType : String) :
    (GetLatestMail { env with parseRFC3339 := parse } s email mailbox responseType).isOk =
      (GetLatestMail env s email mailbox responseType).isOk := by
  have hpost : ∀ url data, post { env with parseRFC3339 := parse } url data =
      post env url data := fun _ _ => rfl
  have hmap : ∀ body, unmarshalMap { env with parseRFC3339 := parse } body =
      unmarshalMap env body := fun _ => rfl
  have hmaps : ∀ body, unmarshalMaps { env with parseRFC3339 := parse } body =
      unmarshalMaps env body := fun _ => rfl
  simp only [GetLatestMail, hpost]
  cases post env (s.baseURL ++ "/api/mail-new") _ with
  | error err => rfl
  | ok body =>
    simp only [hmap, hmaps]
    cases unmarshalMap env body with
    | ok mailData => rfl
    | error err =>
      cases unmarshalMaps env body with
      | error arrayErr => rfl
      | ok ms =>
        cases ms with
        | nil => rfl
        | cons m rest => rfl

theorem GetAllMails_isOk_time (env : Env) (parse : String → Option Nat)
    (s : OutlookService) (email : Email) (mailbox : String) :
    (GetAllMails { env with parseRFC3339 := parse } s email mailbox).isOk =
      (GetAllMails env s email mailbox).isOk := by
  have hpost : ∀ url data, post { env with parseRFC3339 := parse } url data =
      post env url data := fun _ _ => rfl
  have hmaps : ∀ body, unmarshalMaps { env with parseRFC3339 := parse } body =
      unmarshalMaps env body := fun _ => rfl
  simp only [GetAllMails, hpost]
  cases post env (s.baseURL ++ "/api/mail-all") _ with
  | error err => rfl
  | ok body =>
    simp only [hmaps]
    cases unmarshalMaps env body with
    | error err => rfl
    | ok ms => rfl

/-! ### Reading a credential back -/

/-- An audit write changes the audit table only. -/
theorem CreateLog_tables (env : Env) (db : DB) (log : OperationLog) :
    (CreateLog env db log).2.emails = db.emails ∧
      (CreateLog env db log).2.emailSeq = db.emailSeq ∧
      (CreateLog env db log).2.tags = db.tags ∧
      (CreateLog env db log).2.email_tags = db.email_tags := by
  unfold CreateLog
  cases env.logErr log <;> exact ⟨rfl, rfl, rfl, rfl⟩

theorem LogEmail_tables (env : Env) (db : DB) (userID : Int) (operation : String)
    (emailID : Int) (description ipAddress userAgent : String) :
    (LogEmail env db userID operation emailID description ipAddress userAgent).2.emails =
        db.emails ∧
      (LogEmail env db userID operation emailID description ipAddress userAgent).2.emailSeq =
        db.emailSeq :=
  ⟨(CreateLog_tables env db _).1, (CreateLog_tables env db _).2.1⟩

/-- What the repository read returns when the SELECT goes through and finds
the row: the columns of the row, with the tags that could be loaded. -/
theorem repoGetEmailByID_found (env : Env) (db : DB) (id : Int) (row : Email)
    (hsel : env.stmtErr queryGetEmailByID = none)
    (hrow : db.emails.find? (fun e => decide (e.ID = id)) = some row) :
    ∃ tags, EmailRepository.GetEmailByID env db id = Except.ok { row with Tags := tags } := by
  simp only [EmailRepository.GetEmailByID, hsel, hrow]
  cases GetEmailTags env db row.ID with
  | error _ => exact ⟨[], rfl⟩
  | ok tags => exact ⟨tags, rfl⟩

theorem repoGetEmailByID_absent (env : Env) (db : DB) (id : Int)
    (hsel : env.stmtErr queryGetEmailByID = none)
    (hrow : db.emails.find? (fun e => decide (e.ID = id)) = none) :
    EmailRepository.GetEmailByID env db id = Except.error ErrNoRows := by
  simp only [EmailRepository.GetEmailByID, hsel, hrow]

/-- Whatever the repository read returns is a stored row, up to its tags. -/
theorem repoGetEmailByID_ok (env : Env) (db : DB) (id : Int) (email : Email)
    (h : EmailRepository.GetEmailByID env db id = Except.ok email) :
    ∃ row, db.emails.find? (fun e => decide (e.ID = id)) = some row ∧
      email = { row with Tags := email.Tags } := by
  unfold EmailRepository.GetEmailByID at h
  cases hsel : env.stmtErr queryGetEmailByID with
  | some err => rw [hsel] at h; cases h
  | none =>
    rw [hsel] at h
    cases hrow : db.emails.find? (fun e => decide (e.ID = id)) with
    | none => rw [hrow] at h; cases h
    | some row =>
      rw [hrow] at h
      refine ⟨row, rfl, ?_⟩
      simp only at h
      cases htags : GetEmailTags env db row.ID with
      | error _ => rw [htags] at h; cases h; rfl
      | ok tags => rw [htags] at h; cases h; rfl

/-- The row an INSERT adds. -/
theorem execInsert_ok (env : Env) (db db1 : DB) (email : Email)
    (h : execInsert env db email = Except.ok db1) :
    db1.emailSeq = db.emailSeq + 1 ∧
      db1.emails = db.emails ++ [{
        ID := db.emailSeq + 1
        UserID := email.UserID
        EmailAddress := email.EmailAddress
        Password := email.Password
        ClientID := email.ClientID
        RefreshToken := email.RefreshToken
        Remark := email.Remark
        CreatedAt := env.now
        UpdatedAt := env.now }] := by
  unfold execInsert at h
  split at h
  · cases h
  · cases hexec : env.execErr email with
    | some err => rw [hexec] at h; cases h
    | none => rw [hexec] at h; cases h; exact ⟨rfl, rfl⟩

/-- In a store whose identifiers do not exceed the AUTOINCREMENT counter,
the row with the next identifier is the one just appended. -/
theorem find_appended (rows : List Email) (seq : Int) (row : Email)
    (hwf : ∀ e ∈ rows, e.ID ≤ seq) (hid : row.ID = seq + 1) :
    (rows ++ [row]).find? (fun e => decide (e.ID = seq + 1)) = some row := by
  have hnone : rows.find? (fun e => decide (e.ID = seq + 1)) = none := by
    rw [List.find?_eq_none]
    intro e he
    have := hwf e he
    simp only [decide_eq_true_eq]
    omega
  rw [List.find?_append, hnone]
  simp [List.find?, hid]

/-- What `CreateEmail` returns when it returns a credential. -/
theorem CreateEmail_ok (env : Env) (db db1 : DB) (email saved : Email)
    (hwf : ∀ e ∈ db.emails, e.ID ≤ db.emailSeq)
    (h : CreateEmail env db email = (Except.ok saved, db1)) :
    saved.ID = db.emailSeq + 1 ∧
      db1.emails.find? (fun e => decide (e.ID = db.emailSeq + 1)) = some {
        ID := db.emailSeq + 1
        UserID := email.UserID
        EmailAddress := email.EmailAddress
        Password := email.Password
        ClientID := email.ClientID
        RefreshToken := email.RefreshToken
        Remark := email.Remark
        CreatedAt := env.now
        UpdatedAt := env.now } := by
  unfold CreateEmail at h
  cases hins : execInsert env db email with
  | error err => rw [hins] at h; cases h
  | ok db2 =>
    rw [hins] at h
    obtain ⟨hseq, hrows⟩ := execInsert_ok env db db2 email hins
    cases hlast : env.lastInsertIdErr email with
    | some err => rw [hlast] at h; cases h
    | none =>
      rw [hlast] at h
      simp only [Prod.mk.injEq] at h
      obtain ⟨hget, hdb⟩ := h
      subst hdb
      have hfind := find_appended db.emails db.emailSeq _ hwf
        (rfl : ({ ID := db.emailSeq + 1
                  UserID := email.UserID
                  EmailAddress := email.EmailAddress
                  Password := email.Password
                  ClientID := email.ClientID
                  RefreshToken := email.RefreshToken
                  Remark := email.Remark
                  CreatedAt := env.now
                  UpdatedAt := env.now } : Email).ID = db.emailSeq + 1)
      rw [← hrows] at hfind
      refine ⟨?_, hfind⟩
      obtain ⟨row, hrow, heq⟩ := repoGetEmailByID_ok env db2 db2.emailSeq saved hget
      rw [hseq, hfind] at hrow
      cases hrow
      rw [heq]

/-- What `saveEmail` returns when it returns a credential, and the rows of
the database it leaves. -/
theorem saveEmail_ok (env : Env) (db db1 : DB) (userID : Int) (req : AddEmailRequest)
    (email saved : Email) (ipAddress userAgent : String)
    (hwf : ∀ e ∈ db.emails, e.ID ≤ db.emailSeq)
    (h : saveEmail env db userID req email ipAddress userAgent = (Except.ok saved, db1)) :
    saved.ID = db.emailSeq + 1 ∧
      db1.emails.find? (fun e => decide (e.ID = db.emailSeq + 1)) = some {
        ID := db.emailSeq + 1
        UserID := email.UserID
        EmailAddress := email.EmailAddress
        Password := email.Password
        ClientID := email.ClientID
        RefreshToken := email.RefreshToken
        Remark := email.Remark
        CreatedAt := env.now
        UpdatedAt := env.now } := by
  unfold saveEmail at h
  cases hc : CreateEmail env db email with
  | mk res db2 =>
    rw [hc] at h
    cases res with
    | error err => cases h
    | ok saved2 =>
      simp only [Prod.mk.injEq, Except.ok.injEq] at h
      obtain ⟨hs, hdb⟩ := h
      subst hs
      obtain ⟨hid, hfind⟩ := CreateEmail_ok env db db2 email saved2 hwf hc
      refine ⟨hid, ?_⟩
      rw [← hdb, (LogEmail_tables env db2 userID _ _ _ _ _).1]
      exact hfind

/-! ### Deleting a tag -/

theorem GetTagEmailCount_pos (env : Env) (db : DB) (tagID count : Int)
    (href : ∃ et ∈ db.email_tags, et.tag_id = tagID)
    (h : GetTagEmailCount env db tagID = (count, none)) : count > 0 := by
  unfold GetTagEmailCount at h
  cases hq : env.stmtErr queryGetTagEmailCount with
  | some err => rw [hq] at h; cases h
  | none =>
    rw [hq] at h
    simp only [Prod.mk.injEq, and_true] at h
    obtain ⟨et, het, htag⟩ := href
    have hpos : 0 < db.email_tags.countP (fun et => decide (et.tag_id = tagID)) :=
      List.countP_pos_iff.2 ⟨et, het, by simp [htag]⟩
    omega

theorem GetTagEmailCount_zero (env : Env) (db : DB) (tagID : Int)
    (hq : env.stmtErr queryGetTagEmailCount = none)
    (href : ∀ et ∈ db.email_tags, et.tag_id ≠ tagID) :
    GetTagEmailCount env db tagID = (0, none) := by
  have hzero : db.email_tags.countP (fun et => decide (et.tag_id = tagID)) = 0 := by
    rw [List.countP_eq_zero]
    intro et het
    simp [href et het]
  simp only [GetTagEmailCount, hq, hzero]
  rfl

theorem filter_unreferenced (rows : List EmailTag) (tagID : Int)
    (href : ∀ et ∈ rows, et.tag_id ≠ tagID) :
    rows.filter (fun et => !decide (et.tag_id = tagID)) = rows := by
  rw [List.filter_eq_self]
  intro et het
  simp [href et het]

/-- Deleting an unreferenced tag when no statement fails. -/
theorem DeleteTag_unreferenced (env : Env) (db : DB) (tagID : Int)
    (hq : ∀ q, env.stmtErr q = none)
    (href : ∀ et ∈ db.email_tags, et.tag_id ≠ tagID) :
    DeleteTag env db tagID =
      (none, { db with tags := db.tags.filter (fun t => !decide (t.ID = tagID)) }) := by
  simp only [DeleteTag, RemoveAllEmailTags, hq, filter_unreferenced db.email_tags tagID href,
    ite_self]

/-- The handler on an unreferenced tag when no statement fails. -/
theorem handleDeleteTag_unreferenced (env : Env) (db : DB) (c : Context)
    (userID tagID : Int) (tag : Tag)
    (huser : c.currentUserID = some userID) (hid : env.atoi c.paramID = some tagID)
    (hq : ∀ q, env.stmtErr q = none)
    (htag : db.tags.find? (fun t => decide (t.ID = tagID)) = some tag)
    (href : ∀ et ∈ db.email_tags, et.tag_id ≠ tagID) :
    (handleDeleteTag env db c).1.1 = 200 ∧
      (handleDeleteTag env db c).1.2.Success = true ∧
      (handleDeleteTag env db c).2.tags = db.tags.filter (fun t => !decide (t.ID = tagID)) ∧
      (handleDeleteTag env db c).2.email_tags = db.email_tags := by
  have hcount := GetTagEmailCount_zero env db tagID (hq _) href
  have hget : ∃ t, GetTagByID env db tagID = Except.ok t := by
    simp only [GetTagByID, hq, htag]
    cases GetTagEmailCount env db tag.ID with
    | mk count err => cases err <;> exact ⟨_, rfl⟩
  obtain ⟨t, ht⟩ := hget
  simp only [handleDeleteTag, huser, hid, ht, hcount,
    DeleteTag_unreferenced env db tagID hq href, LogTag]
  refine ⟨by simp, by simp, ?_, ?_⟩
  · simp [(CreateLog_tables env _ _).2.2.1]
  · simp [(CreateLog_tables env _ _).2.2.2]

/-- Removing the association of the only credential that references a tag
leaves the tag unreferenced, and the tags as they are. -/
theorem RemoveEmailTag_last (env : Env) (db : DB) (emailID tagID : Int)
    (hq : env.stmtErr queryRemoveEmailTag = none)
    (honly : ∀ et ∈ db.email_tags, et.tag_id = tagID → et.email_id = emailID) :
    (∀ et ∈ (RemoveEmailTag env db emailID tagID).2.email_tags, et.tag_id ≠ tagID) ∧
      (RemoveEmailTag env db emailID tagID).2.tags = db.tags := by
  simp only [RemoveEmailTag, hq]
  refine ⟨?_, trivial⟩
  intro et het htag
  obtain ⟨hmem, hkeep⟩ := List.mem_filter.1 het
  have := honly et hmem htag
  simp [this, htag] at hkeep

/-! ### Display labels -/

theorem lookup_of_mem {β : Type} (k : String) (v : β) :
    ∀ l : List (String × β), (l.map Prod.fst).Nodup → (k, v) ∈ l → l.lookup k = some v := by
  intro l
  induction l with
  | nil => intro _ h; cases h
  | cons a l ih =>
    intro hnd hmem
    obtain ⟨k1, v1⟩ := a
    simp only [List.map_cons, List.nodup_cons] at hnd
    rcases List.mem_cons.1 hmem with heq | htail
    · cases heq
      simp [List.lookup]
    · have hne : k ≠ k1 := by
        intro hk
        subst hk
        exact hnd.1 (List.mem_map.2 ⟨(k, v), htail, rfl⟩)
      have hb : (k == k1) = false := by simpa using hne
      simp only [List.lookup, hb]
      exact ih hnd.2 htail

theorem lookup_of_not_mem {β : Type} (k : String) :
    ∀ l : List (String × β), (∀ v, (k, v) ∉ l) → l.lookup k = none := by
  intro l
  induction l with
  | nil => intro _; rfl
  | cons a l ih =>
    intro h
    obtain ⟨k1, v1⟩ := a
    have hne : k ≠ k1 := by
      intro hk
      subst hk
      exact h v1 (List.mem_cons_self _ _)
    have hb : (k == k1) = false := by simpa using hne
    simp only [List.lookup, hb]
    exact ih (fun v hv => h v (List.mem_cons_of_mem _ hv))

theorem OperationTypeNames_keys : (OperationTypeNames.map Prod.fst).Nodup := by decide

/-! ### The import loop -/

theorem parseEmailLoop_lengths :
    ∀ (lines : List String) (i : Nat) (emails : List AddEmailRequest) (errors : List String),
      (parseEmailLoop i lines emails errors).1.length +
          (parseEmailLoop i lines emails errors).2.length =
        emails.length + errors.length +
          (lines.filter (fun line => decide (strings.TrimSpace line ≠ ""))).length := by
  intro lines
  induction lines with
  | nil => intro i emails errors; simp [parseEmailLoop]
  | cons line rest ih =>
    intro i emails errors
    by_cases hblank : strings.TrimSpace line = ""
    · simp only [parseEmailLoop, hblank, if_true, ih, ne_eq, not_true_eq_false, decide_False,
        List.filter_cons_of_neg, Bool.false_eq_true, not_false_eq_true]
    · simp only [parseEmailLoop, hblank, if_false]
      have hkeep : (List.filter (fun line => decide (strings.TrimSpace line ≠ ""))
          (line :: rest)).length =
          (List.filter (fun line => decide (strings.TrimSpace line ≠ "")) rest).length + 1 := by
        simp [List.filter_cons, hblank]
      cases parseEmailLine i (strings.TrimSpace line) with
      | error msg =>
        simp only [ih, hkeep, List.length_append, List.length_cons, List.length_nil]
        omega
      | ok email =>
        simp only [ih, hkeep, List.length_append, List.length_cons, List.length_nil]
        omega

/-! ### A response that is an object -/

theorem GetLatestMail_object (env : Env) (s : OutlookService) (email : Email)
    (mailbox responseType body : String) (fields : List (String × JSON))
    (h : Answers env (s.baseURL ++ "/api/mail-new") 200 body)
    (hbody : env.jsonParse body = Except.ok (JSON.obj fields))
    (hnum : floatErrFields env.parseFloatErr fields = none) :
    GetLatestMail env s email mailbox responseType = Except.ok (latestMail env fields) :=
  GetLatestMail_map env s email mailbox responseType body fields h
    (unmarshalMap_obj env body fields hbody hnum)

/-- An object with a number that does not fit a float64 is rejected by both
decodes of `GetLatestMail`. -/
theorem GetLatestMail_object_error (env : Env) (s : OutlookService) (email : Email)
    (mailbox responseType body : String) (fields : List (String × JSON)) (err : String)
    (h : Answers env (s.baseURL ++ "/api/mail-new") 200 body)
    (hbody : env.jsonParse body = Except.ok (JSON.obj fields))
    (hnum : floatErrFields env.parseFloatErr fields = some err) :
    GetLatestMail env s email mailbox responseType =
      Except.error ("解析响应失败: " ++ err ++ ", 响应内容: " ++ body) :=
  GetLatestMail_rejected env s email mailbox responseType body err _ h
    (unmarshalMap_obj_error env body fields err hbody hnum)
    (unmarshalMaps_obj env body fields hbody)

theorem Validate_object (env : Env) (s : OutlookService) (email : Email)
    (body : String) (fields : List (String × JSON))
    (h : Answers env (s.baseURL ++ "/api/mail-new") 200 body)
    (hbody : env.jsonParse body = Except.ok (JSON.obj fields))
    (hnum : floatErrFields env.parseFloatErr fields = none) :
    ValidateEmailCredentials env s email = none := by
  simp only [ValidateEmailCredentials,
    GetLatestMail_object env s email "INBOX" "json" body fields h hbody hnum]

theorem Validate_object_error (env : Env) (s : OutlookService) (email : Email)
    (body : String) (fields : List (String × JSON)) (err : String)
    (h : Answers env (s.baseURL ++ "/api/mail-new") 200 body)
    (hbody : env.jsonParse body = Except.ok (JSON.obj fields))
    (hnum : floatErrFields env.parseFloatErr fields = some err) :
    ValidateEmailCredentials env s email =
      some ("验证邮箱 " ++ email.EmailAddress ++ " 凭据失败: " ++
        ("解析响应失败: " ++ err ++ ", 响应内容: " ++ body)) := by
  simp only [ValidateEmailCredentials,
    GetLatestMail_object_error env s email "INBOX" "json" body fields err h hbody hnum]

theorem processTask_validated (env : Env) (cfg : Config) (db : DB) (userID : Int)
    (task : emailTask)
    (hnew : EmailExists env db userID task.req.EmailAddress = (false, none))
    (hval : ValidateEmailCredentials env (NewOutlookService cfg.OutlookAPI)
      (newEmail userID task.req) = none) :
    processTask env cfg db userID task =
      { email := some (newEmail userID task.req), error := "", index := task.index } := by
  simp only [processTask, hnew, hval]
  split <;> rfl

theorem processTask_rejected (env : Env) (cfg : Config) (db : DB) (userID : Int)
    (task : emailTask) (err : String)
    (hnew : EmailExists env db userID task.req.EmailAddress = (false, none))
    (hskip : cfg.SkipEmailValidation = false)
    (hval : ValidateEmailCredentials env (NewOutlookService cfg.OutlookAPI)
      (newEmail userID task.req) = some err) :
    processTask env cfg db userID task =
      { email := none, error := "邮箱 " ++ task.req.EmailAddress ++ ": " ++ err,
        index := task.index } := by
  simp only [processTask, hnew, hval, hskip]
  rfl

/-! ### What the table of credentials keeps true -/

theorem StoreOk_of_eq (db db1 : DB) (hrows : db1.emails = db.emails)
    (hseq : db1.emailSeq = db.emailSeq) (h : StoreOk db) : StoreOk db1 := by
  unfold StoreOk UniquePairs at h ⊢
  rw [hrows, hseq]
  exact h

theorem StoreOk_empty : StoreOk {} := by
  refine ⟨?_, ?_, ?_⟩
  · intro e he; cases he
  · exact List.nodup_nil
  · exact List.Pairwise.nil

theorem StoreOk_log (env : Env) (db : DB) (log : OperationLog) (h : StoreOk db) :
    StoreOk (CreateLog env db log).2 :=
  StoreOk_of_eq db _ (CreateLog_tables env db log).1 (CreateLog_tables env db log).2.1 h

theorem StoreOk_writeLogs (env : Env) (ls : List OperationLog) (db : DB) (h : StoreOk db) :
    StoreOk (writeLogs env ls db) :=
  StoreOk_of_eq db _ (writeLogs_spec env ls db).1 (writeLogs_spec env ls db).2.1 h

/-- Removing rows keeps the table well formed. -/
theorem StoreOk_filter (db db1 : DB) (p : Email → Bool)
    (hrows : db1.emails = db.emails.filter p) (hseq : db1.emailSeq = db.emailSeq)
    (h : StoreOk db) : StoreOk db1 := by
  obtain ⟨h1, h2, h3⟩ := h
  refine ⟨?_, ?_, ?_⟩
  · intro e he
    rw [hrows] at he
    rw [hseq]
    exact h1 e (List.mem_filter.1 he).1
  · rw [hrows]
    exact h2.sublist ((List.filter_sublist db.emails).map Email.ID)
  · unfold UniquePairs at h3 ⊢
    rw [hrows]
    exact h3.sublist (List.filter_sublist db.emails)

/-- An INSERT that goes through keeps the table well formed. -/
theorem execInsert_storeOk (env : Env) (cur cur1 : DB) (email : Email) (h : StoreOk cur)
    (hins : execInsert env cur email = Except.ok cur1) : StoreOk cur1 := by
  obtain ⟨hseq, hrows⟩ := execInsert_ok env cur cur1 email hins
  obtain ⟨h1, h2, h3⟩ := h
  have hfree : ∀ r ∈ cur.emails,
      ¬ (r.UserID = email.UserID ∧ r.EmailAddress = email.EmailAddress) := by
    intro r hr hpair
    unfold execInsert at hins
    rw [if_pos (List.any_eq_true.2 ⟨r, hr, by simp [hpair.1, hpair.2]⟩)] at hins
    cases hins
  refine ⟨?_, ?_, ?_⟩
  · intro e he
    rw [hrows] at he
    rw [hseq]
    rcases List.mem_append.1 he with hold | hnew
    · have := h1 e hold
      omega
    · rw [List.mem_singleton] at hnew
      rw [hnew]
  · rw [hrows, List.map_append, List.nodup_append]
    refine ⟨h2, List.nodup_singleton _, ?_⟩
    intro a ha hb
    obtain ⟨e, he, rfl⟩ := List.mem_map.1 ha
    simp only [List.map_cons, List.map_nil, List.mem_singleton] at hb
    have := h1 e he
    omega
  · unfold UniquePairs at h3 ⊢
    rw [hrows, List.pairwise_append]
    refine ⟨h3, List.pairwise_singleton _ _, ?_⟩
    intro a ha b hb
    rw [List.mem_singleton] at hb
    rw [hb]
    exact hfree a ha

theorem createLoop_storeOk (env : Env) :
    ∀ (emails : List Email) (cur : DB) (acc created : List Email) (cur1 : DB),
      StoreOk cur → createLoop env emails cur acc = Except.ok (created, cur1) →
      StoreOk cur1 := by
  intro emails
  induction emails with
  | nil =>
    intro cur acc created cur1 h hloop
    simp only [createLoop, Except.ok.injEq, Prod.mk.injEq] at hloop
    rw [← hloop.2]
    exact h
  | cons email rest ih =>
    intro cur acc created cur1 h hloop
    unfold createLoop at hloop
    cases hins : execInsert env cur email with
    | error err => rw [hins] at hloop; cases hloop
    | ok cur2 =>
      rw [hins] at hloop
      cases hlast : env.lastInsertIdErr email with
      | some err => rw [hlast] at hloop; cases hloop
      | none =>
        rw [hlast] at hloop
        exact ih cur2 _ created cur1 (execInsert_storeOk env cur cur2 email h hins) hloop

theorem BatchCreateEmails_storeOk (env : Env) (db : DB) (emails : List Email)
    (h : StoreOk db) : StoreOk (BatchCreateEmails env db emails).2 := by
  cases hres : (BatchCreateEmails env db emails).1 with
  | error err =>
    rw [BatchCreateEmails_error env db emails err hres]
    exact h
  | ok saved =>
    by_cases hne : emails = []
    · subst hne
      simp only [BatchCreateEmails, List.length_nil, if_true]
      exact h
    · obtain ⟨cur, hloop, hall⟩ := BatchCreateEmails_ok env db emails saved hres hne
      rw [hall]
      exact createLoop_storeOk env emails db [] saved cur h hloop

theorem BatchAddEmails_storeOk (env : Env) (cfg : Config) (sched : List Nat) (db : DB)
    (userID : Int) (req : BatchAddEmailRequest) (ipAddress userAgent : String)
    (h : StoreOk db) :
    StoreOk (BatchAddEmails env cfg sched db userID req ipAddress userAgent).2.1 := by
  by_cases h0 : req.Emails.length = 0
  · simp only [BatchAddEmails, h0, if_true]
    exact h
  · by_cases h30 : req.Emails.length > 30
    · simp only [BatchAddEmails, h0, h30, if_true, if_false]
      exact h
    · rw [BatchAddEmails_eq env cfg sched db userID req ipAddress userAgent h0 (by omega)]
      have hsave := BatchCreateEmails_storeOk env db
        ((batchResults env cfg db userID req.Emails).filterMap validOf) h
      cases hc : BatchCreateEmails env db
          ((batchResults env cfg db userID req.Emails).filterMap validOf) with
      | mk res db1 =>
        rw [hc] at hsave
        cases res with
        | error err => exact hsave
        | ok saved => exact StoreOk_writeLogs env _ db1 hsave

theorem CreateEmail_storeOk (env : Env) (db : DB) (email : Email) (h : StoreOk db) :
    StoreOk (CreateEmail env db email).2 := by
  unfold CreateEmail
  cases hins : execInsert env db email with
  | error err => exact h
  | ok db1 =>
    have h1 := execInsert_storeOk env db db1 email h hins
    simp only
    cases env.lastInsertIdErr email <;> exact h1

theorem saveEmail_storeOk (env : Env) (db : DB) (userID : Int) (req : AddEmailRequest)
    (email : Email) (ipAddress userAgent : String) (h : StoreOk db) :
    StoreOk (saveEmail env db userID req email ipAddress userAgent).2 := by
  unfold saveEmail
  have hc := CreateEmail_storeOk env db email h
  cases hcreate : CreateEmail env db email with
  | mk res db1 =>
    rw [hcreate] at hc
    cases res with
    | error err => exact hc
    | ok saved => exact StoreOk_log env db1 _ hc

theorem AddEmail_storeOk (env : Env) (cfg : Config) (db : DB) (userID : Int)
    (req : AddEmailRequest) (ipAddress userAgent : String) (h : StoreOk db) :
    StoreOk (AddEmail env cfg db userID req ipAddress userAgent).2 := by
  unfold AddEmail
  split
  · exact h
  · exact h
  · split
    · dsimp only
      split
      · exact StoreOk_log env db _ h
      · exact saveEmail_storeOk env db userID req _ ipAddress userAgent h
    · exact saveEmail_storeOk env _ userID req _ ipAddress userAgent (StoreOk_log env db _ h)

/-! ### Updating a credential -/

/-- In a well-formed table a row is determined by its identifier. -/
theorem row_of_id (db : DB) (h : StoreOk db) (a b : Email) (ha : a ∈ db.emails)
    (hb : b ∈ db.emails) (hid : a.ID = b.ID) : a = b :=
  List.inj_on_of_nodup_map h.2.1 ha hb hid

theorem find_id (rows : List Email) (id : Int) (row : Email)
    (h : rows.find? (fun e => decide (e.ID = id)) = some row) : row ∈ rows ∧ row.ID = id := by
  refine ⟨List.mem_of_find?_eq_some h, ?_⟩
  have := List.find?_some h
  simpa using this

/-- The UPDATE keeps the table well formed. -/
theorem repoUpdateEmail_storeOk (env : Env) (db : DB) (email : Email) (h : StoreOk db) :
    StoreOk (EmailRepository.UpdateEmail env db email).2 := by
  unfold EmailRepository.UpdateEmail
  cases env.stmtErr queryUpdateEmail with
  | some err => exact h
  | none =>
    simp only
    cases hfind : db.emails.find? (fun r => decide (r.ID = email.ID)) with
    | none => exact h
    | some row =>
      simp only
      split
      · exact h
      · next hfree =>
        obtain ⟨hrow, hrowid⟩ := find_id db.emails email.ID row hfind
        have hfree' : ∀ r ∈ db.emails, r.ID ≠ email.ID → r.UserID = row.UserID →
            r.EmailAddress ≠ email.EmailAddress := by
          intro r hr hne hu ha
          apply hfree
          exact List.any_eq_true.2 ⟨r, hr, by simp [hne, hu, ha]⟩
        obtain ⟨h1, h2, h3⟩ := h
        have hid : (db.emails.map (fun r =>
            if r.ID = email.ID then
              { r with
                EmailAddress := email.EmailAddress
                Password := email.Password
                ClientID := email.ClientID
                RefreshToken := email.RefreshToken
                Remark := email.Remark
                UpdatedAt := env.now }
            else r)).map Email.ID = db.emails.map Email.ID := by
          rw [List.map_map]
          apply List.map_congr_left
          intro r _
          simp only [Function.comp]
          split <;> rfl
        refine ⟨?_, ?_, ?_⟩
        · intro e he
          obtain ⟨r, hr, rfl⟩ := List.mem_map.1 he
          have := h1 r hr
          split <;> exact this
        · simp only [hid]
          exact h2
        · unfold UniquePairs at h3 ⊢
          simp only
          rw [List.pairwise_map]
          have hids : db.emails.Pairwise (fun a b => a.ID ≠ b.ID) := by
            have := h2
            unfold List.Nodup at this
            rwa [List.pairwise_map] at this
          refine (h3.and hids).imp_of_mem ?_
          intro a b ha hb hab
          obtain ⟨hpair, hne⟩ := hab
          by_cases hai : a.ID = email.ID <;> by_cases hbi : b.ID = email.ID
          · exact absurd (hai.trans hbi.symm) hne
          · simp only [hai, hbi, if_true, if_false]
            intro hsame
            have harow : a = row := row_of_id db ⟨h1, h2, h3⟩ a row ha hrow (hai.trans hrowid.symm)
            exact hfree' b hb hbi (by rw [← harow]; exact hsame.1.symm) hsame.2.symm
          · simp only [hai, hbi, if_true, if_false]
            intro hsame
            have hbrow : b = row := row_of_id db ⟨h1, h2, h3⟩ b row hb hrow (hbi.trans hrowid.symm)
            exact hfree' a ha hai (by rw [← hbrow]; exact hsame.1) hsame.2
          · simp only [hai, hbi, if_false]
            exact hpair

theorem UpdateEmail_storeOk (env : Env) (cfg : Config) (db : DB) (userID emailID : Int)
    (req : AddEmailRequest) (ipAddress userAgent : String) (h : StoreOk db) :
    StoreOk (UpdateEmail env cfg db userID emailID req ipAddress userAgent).2 := by
  unfold UpdateEmail
  cases EmailService.GetEmailByID env db userID emailID with
  | error err => exact h
  | ok found =>
    simp only
    cases ValidateEmailCredentials env (NewOutlookService cfg.OutlookAPI)
        { found with
          EmailAddress := req.EmailAddress
          Password := req.Password
          ClientID := req.ClientID
          RefreshToken := req.RefreshToken
          Remark := req.Remark } with
    | some err => exact h
    | none =>
      simp only
      have hrepo := repoUpdateEmail_storeOk env db
        { found with
          EmailAddress := req.EmailAddress
          Password := req.Password
          ClientID := req.ClientID
          RefreshToken := req.RefreshToken
          Remark := req.Remark } h
      cases hupd : EmailRepository.UpdateEmail env db
          { found with
            EmailAddress := req.EmailAddress
            Password := req.Password
            ClientID := req.ClientID
            RefreshToken := req.RefreshToken
            Remark := req.Remark } with
      | mk err db1 =>
        rw [hupd] at hrepo
        cases err with
        | some e => exact hrepo
        | none => exact StoreOk_log env db1 _ hrepo

/-! ### Deleting credentials -/

theorem repoDeleteEmail_storeOk (env : Env) (db : DB) (id : Int) (h : StoreOk db) :
    StoreOk (EmailRepository.DeleteEmail env db id).2 := by
  unfold EmailRepository.DeleteEmail
  cases env.stmtErr queryDeleteEmail with
  | some err => exact h
  | none => exact StoreOk_filter db _ (fun r => !decide (r.ID = id)) rfl rfl h

theorem DeleteEmail_storeOk (env : Env) (db : DB) (userID emailID : Int)
    (ipAddress userAgent : String) (h : StoreOk db) :
    StoreOk (DeleteEmail env db userID emailID ipAddress userAgent).2 := by
  unfold DeleteEmail
  cases EmailService.GetEmailByID env db userID emailID with
  | error err => exact h
  | ok email =>
    simp only
    have hrepo := repoDeleteEmail_storeOk env db emailID h
    cases hdel : EmailRepository.DeleteEmail env db emailID with
    | mk err db1 =>
      rw [hdel] at hrepo
      cases err with
      | some e => exact hrepo
      | none => exact StoreOk_log env db1 _ hrepo

/-- What the first loop of the batch delete leaves when it goes through. -/
theorem deleteTagsLoop_spec (env : Env) :
    ∀ (ids : List Int) (cur cur1 : DB), deleteTagsLoop env ids cur = Except.ok cur1 →
      cur1.emails = cur.emails ∧ cur1.emailSeq = cur.emailSeq ∧
      cur1.operation_logs = cur.operation_logs ∧ cur1.logSeq = cur.logSeq ∧
      cur1.tags = cur.tags ∧ cur1.tagSeq = cur.tagSeq ∧
      cur1.users = cur.users ∧ cur1.userSeq = cur.userSeq ∧
      cur1.email_tags = cur.email_tags.filter (fun et => decide (et.email_id ∉ ids)) := by
  intro ids
  induction ids with
  | nil =>
    intro cur cur1 h
    simp only [deleteTagsLoop, Except.ok.injEq] at h
    subst h
    simp
  | cons id rest ih =>
    intro cur cur1 h
    unfold deleteTagsLoop at h
    cases hexec : env.execIDErr queryDeleteEmailTags id with
    | some err => rw [hexec] at h; cases h
    | none =>
      rw [hexec] at h
      obtain ⟨h1, h2, h3, h4, h5, h6, h8, h9, h7⟩ := ih _ cur1 h
      refine ⟨h1, h2, h3, h4, h5, h6, h8, h9, ?_⟩
      rw [h7, List.filter_filter]
      apply List.filter_congr
      intro et _
      by_cases hid : et.email_id = id <;> simp [hid]

/-- What the second loop of the batch delete leaves when it goes through. -/
theorem deleteEmailsLoop_spec (env : Env) :
    ∀ (ids : List Int) (cur cur1 : DB), deleteEmailsLoop env ids cur = Except.ok cur1 →
      cur1.emails = cur.emails.filter (fun r => decide (r.ID ∉ ids)) ∧
      cur1.emailSeq = cur.emailSeq ∧
      cur1.operation_logs = cur.operation_logs ∧ cur1.logSeq = cur.logSeq ∧
      cur1.tags = cur.tags ∧ cur1.tagSeq = cur.tagSeq ∧
      cur1.users = cur.users ∧ cur1.userSeq = cur.userSeq ∧
      cur1.email_tags =
        if env.foreignKeys then cur.email_tags.filter (fun et => decide (et.email_id ∉ ids))
        else cur.email_tags := by
  intro ids
  induction ids with
  | nil =>
    intro cur cur1 h
    simp only [deleteEmailsLoop, Except.ok.injEq] at h
    subst h
    simp
  | cons id rest ih =>
    intro cur cur1 h
    unfold deleteEmailsLoop at h
    cases hexec : env.execIDErr queryDeleteEmail id with
    | some err => rw [hexec] at h; cases h
    | none =>
      rw [hexec] at h
      obtain ⟨h1, h2, h3, h4, h5, h6, h8, h9, h7⟩ := ih _ cur1 h
      refine ⟨?_, h2, h3, h4, h5, h6, h8, h9, ?_⟩
      · rw [h1, List.filter_filter]
        apply List.filter_congr
        intro r _
        by_cases hid : r.ID = id <;> simp [hid]
      · rw [h7]
        cases env.foreignKeys with
        | false => rfl
        | true =>
          simp only [if_true]
          rw [List.filter_filter]
          apply List.filter_congr
          intro et _
          by_cases hid : et.email_id = id <;> simp [hid]

/-- The repository batch delete is all or nothing: on an error the database
is the one before the call, and without error the listed credentials and
their associations are gone and everything else is as before. -/
theorem repoBatchDelete_spec (env : Env) (db : DB) (ids : List Int) :
    ((EmailRepository.BatchDeleteEmails env db ids).1 ≠ none →
        (EmailRepository.BatchDeleteEmails env db ids).2 = db) ∧
    ((EmailRepository.BatchDeleteEmails env db ids).1 = none →
        (EmailRepository.BatchDeleteEmails env db ids).2 =
          { db with
            emails := db.emails.filter (fun r => decide (r.ID ∉ ids))
            email_tags := db.email_tags.filter (fun et => decide (et.email_id ∉ ids)) }) := by
  unfold EmailRepository.BatchDeleteEmails
  by_cases h0 : ids.length = 0
  · have hnil : ids = [] := List.length_eq_zero.1 h0
    subst hnil
    simp
  · rw [if_neg h0]
    cases env.beginErr with
    | some err => simp
    | none =>
      simp only
      cases env.prepareStmtErr queryDeleteEmailTags with
      | some err => simp [Tx.Rollback]
      | none =>
        simp only
        cases htags : deleteTagsLoop env ids db with
        | error err => simp [Tx.Rollback]
        | ok cur1 =>
          simp only
          cases env.prepareStmtErr queryDeleteEmail with
          | some err => simp [Tx.Rollback]
          | none =>
            simp only
            cases hrows : deleteEmailsLoop env ids cur1 with
            | error err => simp [Tx.Rollback]
            | ok cur2 =>
              simp only [Tx.Commit]
              cases env.commitErr with
              | some err => simp
              | none =>
                simp only [ne_eq, not_true_eq_false, false_implies, true_implies, true_and]
                obtain ⟨a1, a2, a3, a4, a5, a6, a8, a9, a7⟩ := deleteTagsLoop_spec env ids db cur1 htags
                obtain ⟨b1, b2, b3, b4, b5, b6, b8, b9, b7⟩ :=
                  deleteEmailsLoop_spec env ids cur1 cur2 hrows
                cases cur2 with
                | mk e es l ls t ts et us uq =>
                  simp only at b1 b2 b3 b4 b5 b6 b7 b8 b9
                  simp only [DB.mk.injEq]
                  refine ⟨?_, ?_, ?_, ?_, ?_, ?_, ?_, ?_, ?_⟩
                  · rw [b1, a1]
                  · rw [b2, a2]
                  · rw [b3, a3]
                  · rw [b4, a4]
                  · rw [b5, a5]
                  · rw [b6, a6]
                  · rw [b7, a7]
                    cases env.foreignKeys with
                    | false => rfl
                    | true =>
                      simp only [if_true]
                      rw [List.filter_filter]
                      apply List.filter_congr
                      intro x _
                      simp
                  · rw [b8, a8]
                  · rw [b9, a9]

theorem repoBatchDelete_storeOk (env : Env) (db : DB) (ids : List Int) (h : StoreOk db) :
    StoreOk (EmailRepository.BatchDeleteEmails env db ids).2 := by
  obtain ⟨herr, hok⟩ := repoBatchDelete_spec env db ids
  cases hres : (EmailRepository.BatchDeleteEmails env db ids).1 with
  | some err =>
    rw [herr (by rw [hres]; exact Option.some_ne_none _)]
    exact h
  | none =>
    rw [hok hres]
    exact StoreOk_filter db _ (fun r => decide (r.ID ∉ ids)) rfl rfl h

theorem BatchDeleteEmails_storeOk (env : Env) (db : DB) (userID : Int) (emailIDs : List Int)
    (ipAddress userAgent : String) (h : StoreOk db) :
    StoreOk (BatchDeleteEmails env db userID emailIDs ipAddress userAgent).2 := by
  unfold BatchDeleteEmails
  split
  · exact h
  · split
    · exact h
    · have hrepo := repoBatchDelete_storeOk env db emailIDs h
      cases hdel : EmailRepository.BatchDeleteEmails env db emailIDs with
      | mk err db1 =>
        rw [hdel] at hrepo
        cases err with
        | some e => exact hrepo
        | none => exact StoreOk_log env db1 _ hrepo

/-- Every reachable store is well formed. -/
theorem reachable_storeOk (db : DB) (h : Reachable db) : StoreOk db := by
  induction h with
  | empty => exact StoreOk_empty
  | addEmail env cfg db userID req ip ua _ ih =>
    exact AddEmail_storeOk env cfg db userID req ip ua ih
  | batchAddEmails env cfg sched db userID req ip ua _ ih =>
    exact BatchAddEmails_storeOk env cfg sched db userID req ip ua ih
  | updateEmail env cfg db userID emailID req ip ua _ ih =>
    exact UpdateEmail_storeOk env cfg db userID emailID req ip ua ih
  | deleteEmail env db userID emailID ip ua _ ih =>
    exact DeleteEmail_storeOk env db userID emailID ip ua ih
  | batchDeleteEmails env db userID emailIDs ip ua _ ih =>
    exact BatchDeleteEmails_storeOk env db userID emailIDs ip ua ih

/-! ### The batch delete of the service -/

/-- The service read returns a credential only for an identifier the account
owns. -/
theorem serviceGet_ok_owns (env : Env) (db : DB) (userID emailID : Int) (email : Email)
    (h : EmailService.GetEmailByID env db userID emailID = Except.ok email) :
    Owns db userID emailID := by
  unfold EmailService.GetEmailByID at h
  cases hrepo : EmailRepository.GetEmailByID env db emailID with
  | error err => rw [hrepo] at h; cases h
  | ok found =>
    rw [hrepo] at h
    simp only at h
    by_cases hne : found.UserID ≠ userID
    · rw [if_pos hne] at h; cases h
    · obtain ⟨row, hrow, heq⟩ := repoGetEmailByID_ok env db emailID found hrepo
      refine ⟨row, hrow, ?_⟩
      have howner : found.UserID = userID := not_not.1 hne
      rw [← howner, heq]

theorem serviceGet_not_owned (env : Env) (db : DB) (userID emailID : Int)
    (h : ¬ Owns db userID emailID) :
    (EmailService.GetEmailByID env db userID emailID).toBool = false := by
  cases hget : EmailService.GetEmailByID env db userID emailID with
  | error err => rfl
  | ok email => exact absurd (serviceGet_ok_owns env db userID emailID email hget) h

theorem serviceGet_owned (env : Env) (db : DB) (userID emailID : Int)
    (hsel : env.stmtErr queryGetEmailByID = none) (h : Owns db userID emailID) :
    (EmailService.GetEmailByID env db userID emailID).toBool = true := by
  obtain ⟨row, hrow, howner⟩ := h
  obtain ⟨tags, hrepo⟩ := repoGetEmailByID_found env db emailID row hsel hrow
  simp only [EmailService.GetEmailByID, hrepo]
  have : ¬ row.UserID ≠ userID := not_not.2 howner
  rw [if_neg this]
  rfl

theorem deleteTagsLoop_ok (env : Env)
    (h : ∀ id, env.execIDErr queryDeleteEmailTags id = none) :
    ∀ (ids : List Int) (cur : DB), ∃ cur1, deleteTagsLoop env ids cur = Except.ok cur1 := by
  intro ids
  induction ids with
  | nil => intro cur; exact ⟨cur, rfl⟩
  | cons id rest ih =>
    intro cur
    obtain ⟨cur1, h1⟩ := ih
      { cur with email_tags := cur.email_tags.filter (fun et => !decide (et.email_id = id)) }
    exact ⟨cur1, by simp only [deleteTagsLoop, h id, h1]⟩

theorem deleteEmailsLoop_ok (env : Env)
    (h : ∀ id, env.execIDErr queryDeleteEmail id = none) :
    ∀ (ids : List Int) (cur : DB), ∃ cur1, deleteEmailsLoop env ids cur = Except.ok cur1 := by
  intro ids
  induction ids with
  | nil => intro cur; exact ⟨cur, rfl⟩
  | cons id rest ih =>
    intro cur
    obtain ⟨cur1, h1⟩ := ih
      { cur with
        emails := cur.emails.filter (fun r => !decide (r.ID = id))
        email_tags :=
          if env.foreignKeys then cur.email_tags.filter (fun et => !decide (et.email_id = id))
          else cur.email_tags }
    exact ⟨cur1, by simp only [deleteEmailsLoop, h id, h1]⟩

/-- Without a fault the repository batch delete returns no error. -/
theorem repoBatchDelete_ok (env : Env) (db : DB) (ids : List Int) (h : NoDeleteFault env) :
    (EmailRepository.BatchDeleteEmails env db ids).1 = none := by
  obtain ⟨_, hbegin, hp1, hp2, he1, he2, hcommit⟩ := h
  unfold EmailRepository.BatchDeleteEmails
  split
  · rfl
  · obtain ⟨cur1, h1⟩ := deleteTagsLoop_ok env he1 ids db
    obtain ⟨cur2, h2⟩ := deleteEmailsLoop_ok env he2 ids cur1
    simp only [hbegin, hp1, hp2, h1, h2, Tx.Commit, hcommit]

/-- The service batch delete, once every identifier has passed the check. -/
theorem BatchDeleteEmails_checked (env : Env) (db : DB) (userID : Int) (emailIDs : List Int)
    (ipAddress userAgent : String) (err : Option String) (db1 : DB)
    (h0 : emailIDs.length ≠ 0)
    (hall : emailIDs.find?
      (fun emailID => !(EmailService.GetEmailByID env db userID emailID).toBool) = none)
    (hdel : EmailRepository.BatchDeleteEmails env db emailIDs = (err, db1)) :
    BatchDeleteEmails env db userID emailIDs ipAddress userAgent =
      (err,
        if err.isSome then db1
        else
          (LogEmail env db1 userID "batch_delete_emails" 0
            ("批量删除邮箱，数量: " ++ toString emailIDs.length) ipAddress userAgent).2) := by
  unfold BatchDeleteEmails
  rw [if_neg h0, hall, hdel]
  cases err <;> rfl

/-- On an error the service batch delete leaves the database as it was. -/
theorem BatchDeleteEmails_error (env : Env) (db : DB) (userID : Int) (emailIDs : List Int)
    (ipAddress userAgent : String)
    (h : (BatchDeleteEmails env db userID emailIDs ipAddress userAgent).1 ≠ none) :
    (BatchDeleteEmails env db userID emailIDs ipAddress userAgent).2 = db := by
  by_cases h0 : emailIDs.length = 0
  · simp only [BatchDeleteEmails, h0, if_true]
  · cases hfind : emailIDs.find?
        (fun emailID => !(EmailService.GetEmailByID env db userID emailID).toBool) with
    | some bad => simp only [BatchDeleteEmails, h0, if_false, hfind]
    | none =>
      obtain ⟨herr, _⟩ := repoBatchDelete_spec env db emailIDs
      cases hdel : EmailRepository.BatchDeleteEmails env db emailIDs with
      | mk err db1 =>
        rw [BatchDeleteEmails_checked env db userID emailIDs ipAddress userAgent err db1 h0
          hfind hdel] at h ⊢
        rw [hdel] at herr
        cases err with
        | some e => exact herr (Option.some_ne_none _)
        | none => exact absurd rfl h

/-! ### What an operation may write to the audit log -/

theorem writesOnly_refl (ks : List String) (db : DB) : WritesOnly ks db db :=
  fun _ hl => Or.inl hl

theorem writesOnly_logs (ks : List String) (db db0 db1 : DB)
    (h : db1.operation_logs = db0.operation_logs) (h0 : WritesOnly ks db db0) :
    WritesOnly ks db db1 := by
  intro l hl
  rw [h] at hl
  exact h0 l hl

theorem writesOnly_mono (ks ks1 : List String) (db db1 : DB) (hsub : ∀ k ∈ ks, k ∈ ks1)
    (h : WritesOnly ks db db1) : WritesOnly ks1 db db1 := by
  intro l hl
  rcases h l hl with h1 | h1
  · exact Or.inl h1
  · exact Or.inr (hsub _ h1)

theorem writesOnly_createLog (env : Env) (ks : List String) (db db0 : DB) (log : OperationLog)
    (hk : log.OperationType ∈ ks) (h0 : WritesOnly ks db db0) :
    WritesOnly ks db (CreateLog env db0 log).2 := by
  unfold CreateLog
  cases env.logErr log with
  | some err => exact h0
  | none =>
    intro l hl
    simp only [List.mem_append, List.mem_singleton] at hl
    rcases hl with hl | hl
    · exact h0 l hl
    · subst hl
      exact Or.inr hk

theorem writesOnly_logEmail (env : Env) (ks : List String) (db db0 : DB) (userID : Int)
    (operation : String) (emailID : Int) (description ipAddress userAgent : String)
    (hk : operation ∈ ks) (h0 : WritesOnly ks db db0) :
    WritesOnly ks db
      (LogEmail env db0 userID operation emailID description ipAddress userAgent).2 :=
  writesOnly_createLog env ks db db0 _ hk h0

theorem writesOnly_logTag (env : Env) (ks : List String) (db db0 : DB) (userID : Int)
    (operation : String) (tagID : Int) (description ipAddress userAgent : String)
    (hk : operation ∈ ks) (h0 : WritesOnly ks db db0) :
    WritesOnly ks db
      (LogTag env db0 userID operation tagID description ipAddress userAgent).2 :=
  writesOnly_createLog env ks db db0 _ hk h0

theorem writesOnly_logAuth (env : Env) (ks : List String) (db db0 : DB) (userID : Int)
    (operation description ipAddress userAgent : String)
    (hk : operation ∈ ks) (h0 : WritesOnly ks db db0) :
    WritesOnly ks db (LogAuth env db0 userID operation description ipAddress userAgent).2 :=
  writesOnly_createLog env ks db db0 _ hk h0

/-! ### Repository calls that leave the audit log as it is -/

theorem execInsert_logs (env : Env) (db db1 : DB) (email : Email)
    (h : execInsert env db email = Except.ok db1) :
    db1.operation_logs = db.operation_logs := by
  unfold execInsert at h
  split at h
  · cases h
  · split at h
    · cases h
    · cases h
      rfl

theorem CreateEmail_logs (env : Env) (db : DB) (email : Email) :
    (CreateEmail env db email).2.operation_logs = db.operation_logs := by
  unfold CreateEmail
  cases h : execInsert env db email with
  | error err => rfl
  | ok db1 =>
    have h1 := execInsert_logs env db db1 email h
    cases env.lastInsertIdErr email <;> exact h1

theorem BatchCreateEmails_logs (env : Env) (db : DB) (emails : List Email) :
    (BatchCreateEmails env db emails).2.operation_logs = db.operation_logs := by
  by_cases h0 : emails.length = 0
  · simp [BatchCreateEmails, h0]
  · cases hb : env.beginErr <;> cases hp : env.prepareErr <;>
      cases hl : createLoop env emails db [] <;> cases hc : env.commitErr <;>
      simp [BatchCreateEmails, h0, hb, hp, hl, hc, Tx.Commit, Tx.Rollback]
    rename_i v
    obtain ⟨created, cur⟩ := v
    exact (createLoop_spec env emails db [] created cur hl).2.2.2.1

theorem repoUpdateEmail_logs (env : Env) (db : DB) (email : Email) :
    (EmailRepository.UpdateEmail env db email).2.operation_logs = db.operation_logs := by
  unfold EmailRepository.UpdateEmail
  split
  · rfl
  · split
    · rfl
    · split <;> rfl

theorem repoDeleteEmail_logs (env : Env) (db : DB) (id : Int) :
    (EmailRepository.DeleteEmail env db id).2.operation_logs = db.operation_logs := by
  unfold EmailRepository.DeleteEmail
  split <;> rfl

theorem repoBatchDelete_logs (env : Env) (db : DB) (ids : List Int) :
    (EmailRepository.BatchDeleteEmails env db ids).2.operation_logs = db.operation_logs := by
  obtain ⟨h1, h2⟩ := repoBatchDelete_spec env db ids
  cases h : (EmailRepository.BatchDeleteEmails env db ids).1 with
  | some err => rw [h1 (by rw [h]; exact Option.some_ne_none _)]
  | none => rw [h2 h]

theorem UpdateLastOperation_logs (env : Env) (db : DB) (emailID : Int) :
    (EmailRepository.UpdateLastOperation env db emailID).2.operation_logs =
      db.operation_logs := by
  unfold EmailRepository.UpdateLastOperation
  split <;> rfl

theorem insertEmailTag_logs (env : Env) (db : DB) (emailID tagID : Int) :
    (insertEmailTag env db emailID tagID).operation_logs = db.operation_logs := by
  unfold insertEmailTag
  split <;> rfl

theorem AddEmailTag_logs (env : Env) (db : DB) (emailID tagID : Int) :
    (AddEmailTag env db emailID tagID).2.operation_logs = db.operation_logs := by
  unfold AddEmailTag
  split
  · rfl
  · exact insertEmailTag_logs env db emailID tagID

theorem addTagsLoop_logs (env : Env) (tagID : Int) :
    ∀ (ids : List Int) (cur cur1 : DB), addTagsLoop env tagID ids cur = Except.ok cur1 →
      cur1.operation_logs = cur.operation_logs := by
  intro ids
  induction ids with
  | nil =>
    intro cur cur1 h
    simp only [addTagsLoop, Except.ok.injEq] at h
    rw [← h]
  | cons id rest ih =>
    intro cur cur1 h
    unfold addTagsLoop at h
    cases hexec : env.execIDErr queryAddEmailTag id with
    | some err => rw [hexec] at h; cases h
    | none =>
      rw [hexec] at h
      rw [ih _ cur1 h]
      exact insertEmailTag_logs env cur id tagID

theorem removeTagsLoop_logs (env : Env) (tagID : Int) :
    ∀ (ids : List Int) (cur cur1 : DB), removeTagsLoop env tagID ids cur = Except.ok cur1 →
      cur1.operation_logs = cur.operation_logs := by
  intro ids
  induction ids with
  | nil =>
    intro cur cur1 h
    simp only [removeTagsLoop, Except.ok.injEq] at h
    rw [← h]
  | cons id rest ih =>
    intro cur cur1 h
    unfold removeTagsLoop at h
    cases hexec : env.execIDErr queryRemoveEmailTag id with
    | some err => rw [hexec] at h; cases h
    | none =>
      rw [hexec] at h
      rw [ih _ cur1 h]

theorem BatchAddEmailTags_logs (env : Env) (db : DB) (ids : List Int) (tagID : Int) :
    (BatchAddEmailTags env db ids tagID).2.operation_logs = db.operation_logs := by
  unfold BatchAddEmailTags
  split
  · rfl
  · split
    · rfl
    · simp only
      split
      · rfl
      · split
        · rfl
        · next cur1 hloop =>
          unfold Tx.Commit
          split
          · rfl
          · exact addTagsLoop_logs env tagID ids db cur1 hloop

theorem BatchRemoveEmailTags_logs (env : Env) (db : DB) (ids : List Int) (tagID : Int) :
    (BatchRemoveEmailTags env db ids tagID).2.operation_logs = db.operation_logs := by
  unfold BatchRemoveEmailTags
  split
  · rfl
  · split
    · rfl
    · simp only
      split
      · rfl
      · split
        · rfl
        · next cur1 hloop =>
          unfold Tx.Commit
          split
          · rfl
          · exact removeTagsLoop_logs env tagID ids db cur1 hloop

theorem CreateTag_logs (env : Env) (db : DB) (tag : Tag) :
    (CreateTag env db tag).2.operation_logs = db.operation_logs := by
  unfold CreateTag
  split
  · rfl
  · split
    · rfl
    · simp only
      split <;> rfl

theorem UpdateTag_logs (env : Env) (db : DB) (tag : Tag) :
    (UpdateTag env db tag).2.operation_logs = db.operation_logs := by
  unfold UpdateTag
  split
  · rfl
  · split
    · rfl
    · split <;> rfl

theorem DeleteTag_logs (env : Env) (db : DB) (id : Int) :
    (DeleteTag env db id).2.operation_logs = db.operation_logs := by
  unfold DeleteTag RemoveAllEmailTags
  cases env.stmtErr queryRemoveAllEmailTags with
  | some err => rfl
  | none =>
    simp only
    cases env.stmtErr queryDeleteTag <;> rfl

theorem UserCreateUser_logs (env : Env) (db : DB) (username password : String) :
    (UserRepository.CreateUser env db username password).2.operation_logs =
      db.operation_logs := by
  unfold UserRepository.CreateUser
  split
  · rfl
  · split
    · rfl
    · split
      · rfl
      · simp only
        split <;> rfl

theorem ClearAllLogs_writes (env : Env) (ks : List String) (db : DB) (userID : Int) :
    WritesOnly ks db (ClearAllLogs env db userID).2 := by
  unfold ClearAllLogs
  split
  · exact writesOnly_refl ks db
  · intro l hl
    exact Or.inl (List.mem_of_mem_filter hl)

/-! ### The kinds each operation writes -/

theorem writesOnly_saveEmail (env : Env) (ks : List String) (db db0 : DB) (userID : Int)
    (req : AddEmailRequest) (email : Email) (ipAddress userAgent : String)
    (hk : "email_added" ∈ ks) (h0 : WritesOnly ks db db0) :
    WritesOnly ks db (saveEmail env db0 userID req email ipAddress userAgent).2 := by
  unfold saveEmail
  have hlogs := CreateEmail_logs env db0 email
  cases hc : CreateEmail env db0 email with
  | mk res db1 =>
    rw [hc] at hlogs
    have h1 : WritesOnly ks db db1 := writesOnly_logs ks db db0 db1 hlogs h0
    cases res with
    | error err => exact h1
    | ok saved => exact writesOnly_logEmail env ks db db1 _ _ _ _ _ _ hk h1

theorem AddEmail_writes (env : Env) (cfg : Config) (ks : List String) (db : DB) (userID : Int)
    (req : AddEmailRequest) (ipAddress userAgent : String)
    (h1 : "email_validation_failed" ∈ ks) (h2 : "email_validation_skipped" ∈ ks)
    (h3 : "email_added" ∈ ks) :
    WritesOnly ks db (AddEmail env cfg db userID req ipAddress userAgent).2 := by
  unfold AddEmail
  split
  · exact writesOnly_refl ks db
  · exact writesOnly_refl ks db
  · simp only
    split
    · split
      · exact writesOnly_logEmail env ks db db _ _ _ _ _ _ h1 (writesOnly_refl ks db)
      · exact writesOnly_saveEmail env ks db db _ _ _ _ _ h3 (writesOnly_refl ks db)
    · exact writesOnly_saveEmail env ks db _ _ _ _ _ _ h3
        (writesOnly_logEmail env ks db db _ _ _ _ _ _ h2 (writesOnly_refl ks db))

theorem writesOnly_logAdded (env : Env) (ks : List String) (db : DB) (userID : Int)
    (ipAddress userAgent : String) (hk : "email_added" ∈ ks) :
    ∀ (saved : List Email) (db0 : DB), WritesOnly ks db db0 →
      WritesOnly ks db (logAdded env userID ipAddress userAgent saved db0) := by
  intro saved
  induction saved with
  | nil => intro db0 h0; exact h0
  | cons e es ih =>
    intro db0 h0
    unfold logAdded
    exact ih _ (writesOnly_logEmail env ks db db0 _ _ _ _ _ _ hk h0)

theorem BatchAddEmails_writes (env : Env) (cfg : Config) (sched : List Nat) (ks : List String)
    (db : DB) (userID : Int) (req : BatchAddEmailRequest) (ipAddress userAgent : String)
    (h1 : "email_added" ∈ ks) (h2 : "batch_add_emails" ∈ ks) :
    WritesOnly ks db (BatchAddEmails env cfg sched db userID req ipAddress userAgent).2.1 := by
  unfold BatchAddEmails
  split
  · exact writesOnly_refl ks db
  · split
    · exact writesOnly_refl ks db
    · simp only
      split
      · have hlogs := BatchCreateEmails_logs env db
          (partitionResults (runPool env cfg db userID sched (initPool cfg req.Emails)).results).1
        split
        · next err db1 hb =>
          rw [hb] at hlogs
          exact writesOnly_logs ks db db db1 hlogs (writesOnly_refl ks db)
        · next saved db1 hb =>
          rw [hb] at hlogs
          exact writesOnly_logEmail env ks db _ _ _ _ _ _ _ h2
            (writesOnly_logAdded env ks db userID ipAddress userAgent h1 saved db1
              (writesOnly_logs ks db db db1 hlogs (writesOnly_refl ks db)))
      · exact writesOnly_logEmail env ks db db _ _ _ _ _ _ h2 (writesOnly_refl ks db)

theorem UpdateEmail_writes (env : Env) (cfg : Config) (ks : List String) (db : DB)
    (userID emailID : Int) (req : AddEmailRequest) (ipAddress userAgent : String)
    (h1 : "email_updated" ∈ ks) :
    WritesOnly ks db (UpdateEmail env cfg db userID emailID req ipAddress userAgent).2 := by
  unfold UpdateEmail
  split
  · exact writesOnly_refl ks db
  · simp only
    split
    · exact writesOnly_refl ks db
    · split
      · next err db1 hu =>
        have hlogs := congrArg (fun r => r.2.operation_logs) hu
        simp only [repoUpdateEmail_logs] at hlogs
        exact writesOnly_logs ks db db db1 hlogs.symm (writesOnly_refl ks db)
      · next db1 hu =>
        have hlogs := congrArg (fun r => r.2.operation_logs) hu
        simp only [repoUpdateEmail_logs] at hlogs
        exact writesOnly_logEmail env ks db db1 _ _ _ _ _ _ h1
          (writesOnly_logs ks db db db1 hlogs.symm (writesOnly_refl ks db))

theorem DeleteEmail_writes (env : Env) (ks : List String) (db : DB) (userID emailID : Int)
    (ipAddress userAgent : String) (h1 : "email_deleted" ∈ ks) :
    WritesOnly ks db (DeleteEmail env db userID emailID ipAddress userAgent).2 := by
  unfold DeleteEmail
  split
  · exact writesOnly_refl ks db
  · have hlogs := repoDeleteEmail_logs env db emailID
    split
    · next err db1 hu =>
      rw [hu] at hlogs
      exact writesOnly_logs ks db db db1 hlogs (writesOnly_refl ks db)
    · next db1 hu =>
      rw [hu] at hlogs
      exact writesOnly_logEmail env ks db db1 _ _ _ _ _ _ h1
        (writesOnly_logs ks db db db1 hlogs (writesOnly_refl ks db))

theorem BatchDeleteEmails_writes (env : Env) (ks : List String) (db : DB) (userID : Int)
    (emailIDs : List Int) (ipAddress userAgent : String) (h1 : "batch_delete_emails" ∈ ks) :
    WritesOnly ks db (BatchDeleteEmails env db userID emailIDs ipAddress userAgent).2 := by
  unfold BatchDeleteEmails
  split
  · exact writesOnly_refl ks db
  · split
    · exact writesOnly_refl ks db
    · have hlogs := repoBatchDelete_logs env db emailIDs
      split
      · next err db1 hu =>
        rw [hu] at hlogs
        exact writesOnly_logs ks db db db1 hlogs (writesOnly_refl ks db)
      · next db1 hu =>
        rw [hu] at hlogs
        exact writesOnly_logEmail env ks db db1 _ _ _ _ _ _ h1
          (writesOnly_logs ks db db db1 hlogs (writesOnly_refl ks db))

theorem serviceGetLatestMail_writes (env : Env) (cfg : Config) (ks : List String) (db : DB)
    (userID emailID : Int) (mailbox ipAddress userAgent : String)
    (h1 : "get_latest_mail_failed" ∈ ks) (h2 : "get_latest_mail" ∈ ks) :
    WritesOnly ks db
      (EmailService.GetLatestMail env cfg db userID emailID mailbox ipAddress userAgent).2 := by
  unfold EmailService.GetLatestMail
  split
  · exact writesOnly_refl ks db
  · split
    · exact writesOnly_logEmail env ks db db _ _ _ _ _ _ h1 (writesOnly_refl ks db)
    · exact writesOnly_logEmail env ks db _ _ _ _ _ _ _ h2
        (writesOnly_logs ks db db _ (UpdateLastOperation_logs env db emailID)
          (writesOnly_refl ks db))

theorem serviceGetAllMails_writes (env : Env) (cfg : Config) (ks : List String) (db : DB)
    (userID emailID : Int) (mailbox ipAddress userAgent : String)
    (h1 : "get_all_mails_failed" ∈ ks) (h2 : "get_all_mails" ∈ ks) :
    WritesOnly ks db
      (EmailService.GetAllMails env cfg db userID emailID mailbox ipAddress userAgent).2 := by
  unfold EmailService.GetAllMails
  split
  · exact writesOnly_refl ks db
  · split
    · exact writesOnly_logEmail env ks db db _ _ _ _ _ _ h1 (writesOnly_refl ks db)
    · exact writesOnly_logEmail env ks db _ _ _ _ _ _ _ h2
        (writesOnly_logs ks db db _ (UpdateLastOperation_logs env db emailID)
          (writesOnly_refl ks db))

theorem serviceClearInbox_writes (env : Env) (cfg : Config) (ks : List String) (db : DB)
    (userID emailID : Int) (ipAddress userAgent : String)
    (h1 : "clear_inbox_failed" ∈ ks) (h2 : "clear_inbox" ∈ ks) :
    WritesOnly ks db
      (EmailService.ClearInbox env cfg db userID emailID ipAddress userAgent).2 := by
  unfold EmailService.ClearInbox
  split
  · exact writesOnly_refl ks db
  · split
    · exact writesOnly_logEmail env ks db db _ _ _ _ _ _ h1 (writesOnly_refl ks db)
    · exact writesOnly_logEmail env ks db _ _ _ _ _ _ _ h2
        (writesOnly_logs ks db db _ (UpdateLastOperation_logs env db emailID)
          (writesOnly_refl ks db))

theorem clearInboxLoop_writes (env : Env) (cfg : Config) (ks : List String) (db : DB)
    (userID : Int) (ipAddress userAgent : String)
    (h1 : "clear_inbox_failed" ∈ ks) (h2 : "clear_inbox" ∈ ks) :
    ∀ (emailIDs : List Int) (db0 : DB) (successCount : Int) (errors : List String),
      WritesOnly ks db db0 →
      WritesOnly ks db
        (clearInboxLoop env cfg userID ipAddress userAgent emailIDs db0 successCount errors).1 := by
  intro emailIDs
  induction emailIDs with
  | nil => intro db0 successCount errors h0; exact h0
  | cons emailID rest ih =>
    intro db0 successCount errors h0
    unfold clearInboxLoop
    split
    · exact ih _ _ _ h0
    · split
      · exact ih _ _ _ (writesOnly_logEmail env ks db db0 _ _ _ _ _ _ h1 h0)
      · exact ih _ _ _ (writesOnly_logEmail env ks db _ _ _ _ _ _ _ h2
          (writesOnly_logs ks db db0 _ (UpdateLastOperation_logs env db0 emailID) h0))

theorem BatchClearInbox_writes (env : Env) (cfg : Config) (ks : List String) (db : DB)
    (userID : Int) (emailIDs : List Int) (ipAddress userAgent : String)
    (h1 : "clear_inbox_failed" ∈ ks) (h2 : "clear_inbox" ∈ ks)
    (h3 : "batch_clear_inbox" ∈ ks) :
    WritesOnly ks db (BatchClearInbox env cfg db userID emailIDs ipAddress userAgent).2 := by
  unfold BatchClearInbox
  split
  · exact writesOnly_refl ks db
  · have hloop := clearInboxLoop_writes env cfg ks db userID ipAddress userAgent h1 h2
      emailIDs db 0 [] (writesOnly_refl ks db)
    cases hl : clearInboxLoop env cfg userID ipAddress userAgent emailIDs db 0 [] with
    | mk db1 rest =>
      rw [hl] at hloop
      obtain ⟨successCount, errors⟩ := rest
      exact writesOnly_logEmail env ks db db1 _ _ _ _ _ _ h3 hloop

theorem ExportEmails_writes (env : Env) (ks : List String) (db : DB) (userID : Int)
    (req : ExportEmailRequest) (ipAddress userAgent : String) (h1 : "export_emails" ∈ ks) :
    WritesOnly ks db (ExportEmails env db userID req ipAddress userAgent).2 := by
  unfold ExportEmails
  simp only
  split
  · exact writesOnly_refl ks db
  · exact writesOnly_logEmail env ks db db _ _ _ _ _ _ h1 (writesOnly_refl ks db)

theorem Login_writes (env : Env) (cfg : Config) (ks : List String) (db : DB)
    (authToken ipAddress userAgent : String)
    (h1 : "login_failed" ∈ ks) (h2 : "login_success" ∈ ks) :
    WritesOnly ks db (Login env cfg db authToken ipAddress userAgent).2 := by
  unfold Login
  split
  · exact writesOnly_logAuth env ks db db _ _ _ _ _ h1 (writesOnly_refl ks db)
  · simp only
    split
    · exact writesOnly_refl ks db
    · exact writesOnly_logAuth env ks db db _ _ _ _ _ h2 (writesOnly_refl ks db)

theorem Logout_writes (env : Env) (ks : List String) (db : DB) (userID : Int)
    (ipAddress userAgent : String) (h1 : "logout" ∈ ks) :
    WritesOnly ks db (Logout env db userID ipAddress userAgent).2 :=
  writesOnly_logAuth env ks db db _ _ _ _ _ h1 (writesOnly_refl ks db)

theorem RefreshToken_writes (env : Env) (ks : List String) (db : DB)
    (tokenString ipAddress userAgent : String) (h1 : "token_refresh" ∈ ks) :
    WritesOnly ks db (Service.RefreshToken env db tokenString ipAddress userAgent).2 := by
  unfold Service.RefreshToken
  split
  · exact writesOnly_refl ks db
  · split
    · exact writesOnly_refl ks db
    · split
      · exact writesOnly_refl ks db
      · exact writesOnly_logAuth env ks db db _ _ _ _ _ h1 (writesOnly_refl ks db)

theorem ChangePassword_writes (env : Env) (ks : List String) (db : DB) (userID : Int)
    (oldPassword newPassword ipAddress userAgent : String)
    (h1 : "password_change_failed" ∈ ks) (h2 : "password_changed" ∈ ks) :
    WritesOnly ks db
      (Service.ChangePassword env db userID oldPassword newPassword ipAddress userAgent).2 := by
  unfold Service.ChangePassword
  split
  · exact writesOnly_refl ks db
  · split
    · exact writesOnly_logAuth env ks db db _ _ _ _ _ h1 (writesOnly_refl ks db)
    · next user _ _ =>
      have hlogs := UserCreateUser_logs env db (user.Username ++ "_temp") newPassword
      split
      · next err db1 hu =>
        rw [hu] at hlogs
        exact writesOnly_logs ks db db db1 hlogs (writesOnly_refl ks db)
      · next created db1 hu =>
        rw [hu] at hlogs
        exact writesOnly_logAuth env ks db db1 _ _ _ _ _ h2
          (writesOnly_logs ks db db db1 hlogs (writesOnly_refl ks db))

theorem CreateUser_writes (env : Env) (ks : List String) (db : DB)
    (username password ipAddress userAgent : String) (operatorID : Int)
    (h1 : "user_created" ∈ ks) :
    WritesOnly ks db
      (Service.CreateUser env db username password ipAddress userAgent operatorID).2 := by
  unfold Service.CreateUser
  split
  · exact writesOnly_refl ks db
  · exact writesOnly_refl ks db
  · have hlogs := UserCreateUser_logs env db username password
    split
    · next err db1 hu =>
      rw [hu] at hlogs
      exact writesOnly_logs ks db db db1 hlogs (writesOnly_refl ks db)
    · next user db1 hu =>
      rw [hu] at hlogs
      exact writesOnly_logAuth env ks db db1 _ _ _ _ _ h1
        (writesOnly_logs ks db db db1 hlogs (writesOnly_refl ks db))

theorem handleTagEmail_writes (env : Env) (ks : List String) (db : DB) (c : Context)
    (h1 : "email_tagged" ∈ ks) :
    WritesOnly ks db (handleTagEmail env db c).2 := by
  unfold handleTagEmail
  split
  · exact writesOnly_refl ks db
  · split
    · exact writesOnly_refl ks db
    · next emailID _ =>
      split
      · exact writesOnly_refl ks db
      · next req _ =>
        split
        · exact writesOnly_refl ks db
        · have hlogs := AddEmailTag_logs env db emailID req.TagID
          split
          · next err db1 hu =>
            rw [hu] at hlogs
            exact writesOnly_logs ks db db db1 hlogs (writesOnly_refl ks db)
          · next db1 hu =>
            rw [hu] at hlogs
            exact writesOnly_logEmail env ks db db1 _ _ _ _ _ _ h1
              (writesOnly_logs ks db db db1 hlogs (writesOnly_refl ks db))

theorem handleCreateTag_writes (env : Env) (ks : List String) (db : DB) (c : Context)
    (h1 : "tag_created" ∈ ks) :
    WritesOnly ks db (handleCreateTag env db c).2 := by
  unfold handleCreateTag
  split
  · exact writesOnly_refl ks db
  · split
    · exact writesOnly_refl ks db
    · next req _ =>
      split
      · exact writesOnly_refl ks db
      · exact writesOnly_refl ks db
      · have hlogs := CreateTag_logs env db
          { Name := req.Name, Description := req.Description, Color := req.Color }
        simp only
        split
        · next err db1 hu =>
          rw [hu] at hlogs
          exact writesOnly_logs ks db db db1 hlogs (writesOnly_refl ks db)
        · next created db1 hu =>
          rw [hu] at hlogs
          exact writesOnly_logTag env ks db db1 _ _ _ _ _ _ h1
            (writesOnly_logs ks db db db1 hlogs (writesOnly_refl ks db))

theorem saveTag_writes (env : Env) (ks : List String) (db : DB) (c : Context)
    (userID tagID : Int) (tag : Tag) (h1 : "tag_updated" ∈ ks) :
    WritesOnly ks db (saveTag env db c userID tagID tag).2 := by
  unfold saveTag
  have hlogs := UpdateTag_logs env db tag
  split
  · next err db1 hu =>
    rw [hu] at hlogs
    exact writesOnly_logs ks db db db1 hlogs (writesOnly_refl ks db)
  · next db1 hu =>
    rw [hu] at hlogs
    exact writesOnly_logTag env ks db db1 _ _ _ _ _ _ h1
      (writesOnly_logs ks db db db1 hlogs (writesOnly_refl ks db))

theorem handleUpdateTag_writes (env : Env) (ks : List String) (db : DB) (c : Context)
    (h1 : "tag_updated" ∈ ks) :
    WritesOnly ks db (handleUpdateTag env db c).2 := by
  unfold handleUpdateTag
  split
  · exact writesOnly_refl ks db
  · split
    · exact writesOnly_refl ks db
    · split
      · exact writesOnly_refl ks db
      · split
        · exact writesOnly_refl ks db
        · simp only
          split
          · split
            · exact writesOnly_refl ks db
            · exact writesOnly_refl ks db
            · exact saveTag_writes env ks db c _ _ _ h1
          · exact saveTag_writes env ks db c _ _ _ h1

theorem handleDeleteTag_writes (env : Env) (ks : List String) (db : DB) (c : Context)
    (h1 : "tag_deleted" ∈ ks) :
    WritesOnly ks db (handleDeleteTag env db c).2 := by
  unfold handleDeleteTag
  split
  · exact writesOnly_refl ks db
  · split
    · exact writesOnly_refl ks db
    · next tagID _ =>
      split
      · exact writesOnly_refl ks db
      · split
        · exact writesOnly_refl ks db
        · split
          · exact writesOnly_refl ks db
          · have hlogs := DeleteTag_logs env db tagID
            split
            · next err db1 hu =>
              rw [hu] at hlogs
              exact writesOnly_logs ks db db db1 hlogs (writesOnly_refl ks db)
            · next db1 hu =>
              rw [hu] at hlogs
              exact writesOnly_logTag env ks db db1 _ _ _ _ _ _ h1
                (writesOnly_logs ks db db db1 hlogs (writesOnly_refl ks db))

theorem handleBatchTagEmails_writes (env : Env) (ks : List String) (db : DB) (c : Context)
    (h1 : "batch_tag_emails" ∈ ks) :
    WritesOnly ks db (handleBatchTagEmails env db c).2 := by
  unfold handleBatchTagEmails
  split
  · exact writesOnly_refl ks db
  · split
    · exact writesOnly_refl ks db
    · next req _ =>
      split
      · exact writesOnly_refl ks db
      · split
        · exact writesOnly_refl ks db
        · have hlogs := BatchAddEmailTags_logs env db req.EmailIDs req.TagID
          split
          · next err db1 hu =>
            rw [hu] at hlogs
            exact writesOnly_logs ks db db db1 hlogs (writesOnly_refl ks db)
          · next db1 hu =>
            rw [hu] at hlogs
            exact writesOnly_logTag env ks db db1 _ _ _ _ _ _ h1
              (writesOnly_logs ks db db db1 hlogs (writesOnly_refl ks db))

theorem handleBatchUntagEmails_writes (env : Env) (ks : List String) (db : DB) (c : Context)
    (h1 : "batch_untag_emails" ∈ ks) :
    WritesOnly ks db (handleBatchUntagEmails env db c).2 := by
  unfold handleBatchUntagEmails
  split
  · exact writesOnly_refl ks db
  · split
    · exact writesOnly_refl ks db
    · next req _ =>
      split
      · exact writesOnly_refl ks db
      · split
        · exact writesOnly_refl ks db
        · have hlogs := BatchRemoveEmailTags_logs env db req.EmailIDs req.TagID
          split
          · next err db1 hu =>
            rw [hu] at hlogs
            exact writesOnly_logs ks db db db1 hlogs (writesOnly_refl ks db)
          · next db1 hu =>
            rw [hu] at hlogs
            exact writesOnly_logTag env ks db db1 _ _ _ _ _ _ h1
              (writesOnly_logs ks db db db1 hlogs (writesOnly_refl ks db))

theorem handleClearLogs_writes (env : Env) (ks : List String) (db : DB) (c : Context)
    (h1 : "clear_all_logs" ∈ ks) :
    WritesOnly ks db (handleClearLogs env db c).2 := by
  unfold handleClearLogs
  split
  · exact writesOnly_refl ks db
  · next userID _ =>
    have hclear := ClearAllLogs_writes env ks db userID
    split
    · next err db1 hu =>
      rw [hu] at hclear
      exact hclear
    · next db1 hu =>
      rw [hu] at hclear
      exact writesOnly_logAuth env ks db db1 _ _ _ _ _ h1 hclear

theorem handleLogout_writes (env : Env) (ks : List String) (db : DB) (c : Context)
    (h1 : "logout" ∈ ks) :
    WritesOnly ks db (handleLogout env db c).2 := by
  unfold handleLogout
  split
  · exact writesOnly_refl ks db
  · next userID _ =>
    have hlog := Logout_writes env ks db userID c.clientIP c.userAgent h1
    split
    · next err db1 hu =>
      rw [hu] at hlog
      exact hlog
    · next db1 hu =>
      rw [hu] at hlog
      exact hlog

/-! ## The claims -/

/-- C1 (as stated) fails: a batch of two candidates with the same new address
passes validation twice, the atomic save fails on the second row, and the
call returns a top-level error with two empty lists (lengths summing to 0,
not 2). -/
theorem batchAdd_lengths_counterexample :
    (({ Emails := [{ EmailAddress := "a@x.com", Password := "p", ClientID := "c",
                     RefreshToken := "r" },
                   { EmailAddress := "a@x.com", Password := "p", ClientID := "c",
                     RefreshToken := "r" }] } : BatchAddEmailRequest).Emails.length ≤ 30) ∧
    (BatchAddEmails {} {} [] {} 1
        { Emails := [{ EmailAddress := "a@x.com", Password := "p", ClientID := "c",
                       RefreshToken := "r" },
                     { EmailAddress := "a@x.com", Password := "p", ClientID := "c",
                       RefreshToken := "r" }] } "" "").1.successEmails.length +
      (BatchAddEmails {} {} [] {} 1
        { Emails := [{ EmailAddress := "a@x.com", Password := "p", ClientID := "c",
                       RefreshToken := "r" },
                     { EmailAddress := "a@x.com", Password := "p", ClientID := "c",
                       RefreshToken := "r" }] } "" "").1.errors.length ≠ 2 := by
  decide

/-- C1 (amended): whenever `BatchAddEmails` returns without a top-level error,
the lengths of its success list and of its error list sum to the number of
candidates of the batch, for every environment, configuration, schedule,
store state, account and batch. -/
theorem batchAdd_lengths (env : Env) (cfg : Config) (sched : List Nat) (db : DB)
    (userID : Int) (req : BatchAddEmailRequest) (ipAddress userAgent : String)
    (hok : (BatchAddEmails env cfg sched db userID req ipAddress userAgent).1.err = none) :
    (BatchAddEmails env cfg sched db userID req ipAddress userAgent).1.successEmails.length +
      (BatchAddEmails env cfg sched db userID req ipAddress userAgent).1.errors.length =
        req.Emails.length := by
  by_cases h0 : req.Emails.length = 0
  · simp [BatchAddEmails, h0]
  · by_cases h30 : req.Emails.length > 30
    · simp [BatchAddEmails, h0, h30] at hok
    · have heq := BatchAddEmails_eq env cfg sched db userID req ipAddress userAgent h0
        (by omega)
      rw [heq] at hok ⊢
      cases hsave : BatchCreateEmails env db
          ((batchResults env cfg db userID req.Emails).filterMap validOf) with
      | mk res db1 =>
        cases res with
        | error err => rw [hsave] at hok; simp at hok
        | ok saved =>
          have hs := (BatchCreateEmails_saved env db _ saved (by rw [hsave])).1
          simp only
          rw [hs, savedFrom_length]
          exact batchResults_lengths env cfg db userID req.Emails

/-- Witness of `batchAdd_lengths`: one new address and one address the
account already has give one success and one error. -/
theorem batchAdd_lengths_witness :
    (BatchAddEmails {} {} []
        { emails := [{ ID := 1, UserID := 1, EmailAddress := "b@x.com" }], emailSeq := 1 } 1
        { Emails := [{ EmailAddress := "a@x.com" }, { EmailAddress := "b@x.com" }] }
        "" "").1.successEmails.length +
      (BatchAddEmails {} {} []
        { emails := [{ ID := 1, UserID := 1, EmailAddress := "b@x.com" }], emailSeq := 1 } 1
        { Emails := [{ EmailAddress := "a@x.com" }, { EmailAddress := "b@x.com" }] }
        "" "").1.errors.length = 2 :=
  batchAdd_lengths {} {} [] _ 1 _ "" "" (by decide)

/-- C3: a batch of more than 30 candidates is rejected as a whole: the call
returns the top-level error with two empty lists, the database (credentials
and audit log) is the one before the call, and the trace is empty, so no
existence check and no gateway call has been made. -/
theorem batchAdd_too_many (env : Env) (cfg : Config) (sched : List Nat) (db : DB)
    (userID : Int) (req : BatchAddEmailRequest) (ipAddress userAgent : String)
    (h : 30 < req.Emails.length) :
    BatchAddEmails env cfg sched db userID req ipAddress userAgent =
      ({ successEmails := [], errors := [], err := some "批量添加邮箱数量不能超过30个" }, db, []) := by
  have h0 : ¬ req.Emails.length = 0 := by omega
  unfold BatchAddEmails
  rw [if_neg h0, if_pos h]

/-- Witness of `batchAdd_too_many`: a batch of 31 candidates. -/
theorem batchAdd_too_many_witness :
    30 < (List.replicate 31 ({ EmailAddress := "a@x.com" } : AddEmailRequest)).length ∧
    BatchAddEmails {} {} [1, 0, 2] {} 1
        { Emails := List.replicate 31 { EmailAddress := "a@x.com" } } "ip" "ua" =
      ({ successEmails := [], errors := [], err := some "批量添加邮箱数量不能超过30个" }, {}, []) :=
  ⟨by decide, batchAdd_too_many {} {} [1, 0, 2] {} 1 _ "ip" "ua" (by decide)⟩

/-- C6: when the atomic save of the validated candidates fails, the call
returns the top-level error built from the failure with two empty lists, and
the database after the call is the database before it: no credential of the
batch is stored and no audit record has been written. -/
theorem batchAdd_save_fails (env : Env) (cfg : Config) (sched : List Nat) (db : DB)
    (userID : Int) (req : BatchAddEmailRequest) (ipAddress userAgent : String) (err : String)
    (hn : req.Emails.length ≤ 30)
    (hfail : (BatchCreateEmails env db (partitionResults
      (runPool env cfg db userID sched (initPool cfg req.Emails)).results).1).1 =
        Except.error err) :
    (BatchAddEmails env cfg sched db userID req ipAddress userAgent).1 =
        { successEmails := [], errors := [], err := some ("批量保存邮箱失败: " ++ err) } ∧
      (BatchAddEmails env cfg sched db userID req ipAddress userAgent).2.1 = db := by
  rw [runPool_results, partitionResults_eq] at hfail
  have h0 : req.Emails.length ≠ 0 := by
    intro h0
    have hnil : req.Emails = [] := List.length_eq_zero.1 h0
    rw [hnil] at hfail
    simp [tasksFrom, BatchCreateEmails] at hfail
  have hall := BatchCreateEmails_error env db _ err hfail
  rw [BatchAddEmails_eq env cfg sched db userID req ipAddress userAgent h0 hn]
  simp only [batchResults]
  rw [hall]
  exact ⟨rfl, rfl⟩

/-- Witness of `batchAdd_save_fails`: two candidates with the same new address;
the second INSERT breaks the UNIQUE constraint. -/
theorem batchAdd_save_fails_witness :
    (BatchAddEmails {} {} [] { operation_logs := [{ ID := 1, UserID := 1 }], logSeq := 1 } 1
        { Emails := [{ EmailAddress := "a@x.com" }, { EmailAddress := "a@x.com" }] }
        "" "").1 =
      { successEmails := [], errors := [],
        err := some ("批量保存邮箱失败: " ++
          "UNIQUE constraint failed: emails.email_address, emails.user_id") } ∧
    (BatchAddEmails {} {} [] { operation_logs := [{ ID := 1, UserID := 1 }], logSeq := 1 } 1
        { Emails := [{ EmailAddress := "a@x.com" }, { EmailAddress := "a@x.com" }] }
        "" "").2.1 = { operation_logs := [{ ID := 1, UserID := 1 }], logSeq := 1 } :=
  batchAdd_save_fails {} {} [] _ 1 _ "" "" _ (by decide) (by rfl)

/-- C8: for the empty batch the call returns success with an empty success
list and an empty error list; the database (audit log included) is the one
before the call and the trace is empty, so no gateway call has been made. -/
theorem batchAdd_empty (env : Env) (cfg : Config) (sched : List Nat) (db : DB)
    (userID : Int) (ipAddress userAgent : String) :
    BatchAddEmails env cfg sched db userID { Emails := [] } ipAddress userAgent =
      ({ successEmails := [], errors := [], err := none }, db, []) := rfl

/-- C2: whatever the order in which the workers deliver their results (the
schedules `sched` and `sched2`), `BatchAddEmails` returns the same values and
leaves the same database. When it returns without a top-level error, the
success list is what the save returns for the accepted candidates taken in
input order, the error list is the failure messages taken in input order, and
merging the two lists by original index gives, position by position, the
address of the accepted candidate or the failure message of the rejected one,
in the order of the input. -/
theorem batchAdd_input_order (env : Env) (cfg : Config) (db : DB) (userID : Int)
    (req : BatchAddEmailRequest) (ipAddress userAgent : String) (sched sched2 : List Nat) :
    (BatchAddEmails env cfg sched db userID req ipAddress userAgent).1 =
        (BatchAddEmails env cfg sched2 db userID req ipAddress userAgent).1 ∧
      (BatchAddEmails env cfg sched db userID req ipAddress userAgent).2.1 =
        (BatchAddEmails env cfg sched2 db userID req ipAddress userAgent).2.1 ∧
      ((BatchAddEmails env cfg sched db userID req ipAddress userAgent).1.err = none →
        (BatchAddEmails env cfg sched db userID req ipAddress userAgent).1.successEmails =
            savedFrom db.emailSeq
              ((batchResults env cfg db userID req.Emails).filterMap validOf) ∧
          (BatchAddEmails env cfg sched db userID req ipAddress userAgent).1.errors =
            (batchResults env cfg db userID req.Emails).filterMap errorOf ∧
          (mergeByIndex
              ((batchResults env cfg db userID req.Emails).map (fun r => decide (r.error ≠ "")))
              (BatchAddEmails env cfg sched db userID req ipAddress userAgent).1.successEmails
              (BatchAddEmails env cfg sched db userID req ipAddress userAgent).1.errors).map
            (Sum.map Email.EmailAddress id) =
          (tasksFrom 0 req.Emails).map (fun task =>
            if (processTask env cfg db userID task).error ≠ "" then
              Sum.inr (processTask env cfg db userID task).error
            else Sum.inl task.req.EmailAddress)) := by
  by_cases h0 : req.Emails.length = 0
  · have hnil : req.Emails = [] := List.length_eq_zero.1 h0
    refine ⟨by simp [BatchAddEmails, h0], by simp [BatchAddEmails, h0], ?_⟩
    intro _
    simp [BatchAddEmails, h0, hnil, batchResults, tasksFrom, savedFrom, mergeByIndex]
  · by_cases h30 : req.Emails.length > 30
    · refine ⟨by simp [BatchAddEmails, h0, h30], by simp [BatchAddEmails, h0, h30], ?_⟩
      intro hok
      simp [BatchAddEmails, h0, h30] at hok
    · have h1 := BatchAddEmails_eq env cfg sched db userID req ipAddress userAgent h0 (by omega)
      have h2 := BatchAddEmails_eq env cfg sched2 db userID req ipAddress userAgent h0 (by omega)
      refine ⟨?_, ?_, ?_⟩
      · rw [h1, h2]
        cases BatchCreateEmails env db
            ((batchResults env cfg db userID req.Emails).filterMap validOf) with
        | mk res db1 => cases res <;> rfl
      · rw [h1, h2]
        cases BatchCreateEmails env db
            ((batchResults env cfg db userID req.Emails).filterMap validOf) with
        | mk res db1 => cases res <;> rfl
      · intro hok
        obtain ⟨db1, _, _, hres, _⟩ :=
          BatchAddEmails_ok env cfg sched db userID req ipAddress userAgent h0 hok
        rw [hres]
        refine ⟨rfl, rfl, ?_⟩
        exact merge_results env cfg db userID (tasksFrom 0 req.Emails) db.emailSeq

/-- Witness of `batchAdd_input_order`: three candidates, the second already
stored, run under two different schedules. -/
theorem batchAdd_input_order_witness :
    (BatchAddEmails {} {} [0, 0, 0, 0, 3, 2, 1, 3, 3, 2, 1]
        { emails := [{ ID := 1, UserID := 1, EmailAddress := "b@x.com" }], emailSeq := 1 } 1
        { Emails := [{ EmailAddress := "a@x.com" }, { EmailAddress := "b@x.com" },
                     { EmailAddress := "c@x.com" }] } "" "").1 =
      (BatchAddEmails {} {} []
        { emails := [{ ID := 1, UserID := 1, EmailAddress := "b@x.com" }], emailSeq := 1 } 1
        { Emails := [{ EmailAddress := "a@x.com" }, { EmailAddress := "b@x.com" },
                     { EmailAddress := "c@x.com" }] } "" "").1 ∧
    (BatchAddEmails {} {} [0, 0, 0, 0, 3, 2, 1, 3, 3, 2, 1]
        { emails := [{ ID := 1, UserID := 1, EmailAddress := "b@x.com" }], emailSeq := 1 } 1
        { Emails := [{ EmailAddress := "a@x.com" }, { EmailAddress := "b@x.com" },
                     { EmailAddress := "c@x.com" }] } "" "").1.errors =
      (batchResults {} {}
        { emails := [{ ID := 1, UserID := 1, EmailAddress := "b@x.com" }], emailSeq := 1 } 1
        [{ EmailAddress := "a@x.com" }, { EmailAddress := "b@x.com" },
         { EmailAddress := "c@x.com" }]).filterMap errorOf :=
  ⟨(batchAdd_input_order {} {} _ 1 _ "" "" [0, 0, 0, 0, 3, 2, 1, 3, 3, 2, 1] []).1,
    ((batchAdd_input_order {} {} _ 1 _ "" "" [0, 0, 0, 0, 3, 2, 1, 3, 3, 2, 1] []).2.2
      (by decide)).2.1⟩

/-- C4: a candidate (item `i`, request `r`) whose (account, address) pair the
existence check finds in the store gets the duplicate failure as its result,
with no credential; that message is in the returned error list whenever the
call returns without a top-level error; and no gateway call is made for the
item. For every item `j`, a recorded duplicate failure excludes any gateway
call for `j`, hence any gateway validation failure. -/
theorem batchAdd_duplicate (env : Env) (cfg : Config) (sched : List Nat) (db : DB)
    (userID : Int) (req : BatchAddEmailRequest) (ipAddress userAgent : String)
    (i : Nat) (r : AddEmailRequest)
    (hi : req.Emails[i]? = some r)
    (hex : EmailExists env db userID r.EmailAddress = (true, none)) :
    (runPool env cfg db userID sched (initPool cfg req.Emails)).results[i]? =
        some { email := none, error := duplicateError r.EmailAddress, index := i } ∧
      ((BatchAddEmails env cfg sched db userID req ipAddress userAgent).1.err = none →
        duplicateError r.EmailAddress ∈
          (BatchAddEmails env cfg sched db userID req ipAddress userAgent).1.errors) ∧
      (∀ email : Email, Event.gatewayCall i email ∉
        (BatchAddEmails env cfg sched db userID req ipAddress userAgent).2.2) ∧
      (∀ (j : Nat) (rj : AddEmailRequest) (resj : emailResult) (email : Email),
        req.Emails[j]? = some rj →
        (runPool env cfg db userID sched (initPool cfg req.Emails)).results[j]? = some resj →
        resj.error = duplicateError rj.EmailAddress →
        Event.gatewayCall j email ∉
          (BatchAddEmails env cfg sched db userID req ipAddress userAgent).2.2) := by
  have hres : (runPool env cfg db userID sched (initPool cfg req.Emails)).results =
      batchResults env cfg db userID req.Emails := runPool_results env cfg db userID sched _
  have hrec : (batchResults env cfg db userID req.Emails)[i]? =
      some { email := none, error := duplicateError r.EmailAddress, index := i } := by
    rw [batchResults_getElem?, hi]
    simp only [Option.map_some']
    rw [processTask_duplicate env cfg db userID { index := i, req := r } hex]
  refine ⟨by rw [hres]; exact hrec, ?_, ?_, ?_⟩
  · intro hok
    have h0 : req.Emails.length ≠ 0 := by
      intro h0
      rw [List.length_eq_zero.1 h0] at hi
      cases hi
    obtain ⟨_, _, _, hlists, _⟩ :=
      BatchAddEmails_ok env cfg sched db userID req ipAddress userAgent h0 hok
    rw [hlists]
    refine List.mem_filterMap.2 ⟨_, List.getElem?_mem hrec, ?_⟩
    have hne : duplicateError r.EmailAddress ≠ "" := fun h => duplicate_ne_empty _ h.symm
    simp [errorOf, hne]
  · intro email
    exact no_gateway_call env cfg sched db userID req ipAddress userAgent i r email hi hex
  · intro j rj resj email hj hrj hdup
    rw [hres, batchResults_getElem?, hj] at hrj
    simp only [Option.map_some', Option.some.injEq] at hrj
    subst hrj
    have hfound := duplicate_only_if_found env cfg db userID { index := j, req := rj } hdup
    exact no_gateway_call env cfg sched db userID req ipAddress userAgent j rj email hj hfound

/-- Witness of `batchAdd_duplicate`: three candidates, the second (index 1)
already stored for the account. -/
theorem batchAdd_duplicate_witness :
    (runPool {} {}
        { emails := [{ ID := 1, UserID := 1, EmailAddress := "b@x.com" }], emailSeq := 1 } 1
        [2, 0, 1]
        (initPool {} [{ EmailAddress := "a@x.com" }, { EmailAddress := "b@x.com" },
                      { EmailAddress := "c@x.com" }])).results[1]? =
      some { email := none, error := duplicateError "b@x.com", index := 1 } ∧
    (∀ email : Email, Event.gatewayCall 1 email ∉
      (BatchAddEmails {} {} [2, 0, 1]
        { emails := [{ ID := 1, UserID := 1, EmailAddress := "b@x.com" }], emailSeq := 1 } 1
        { Emails := [{ EmailAddress := "a@x.com" }, { EmailAddress := "b@x.com" },
                     { EmailAddress := "c@x.com" }] } "" "").2.2) :=
  ⟨(batchAdd_duplicate {} {} [2, 0, 1] _ 1
      { Emails := [{ EmailAddress := "a@x.com" }, { EmailAddress := "b@x.com" },
                   { EmailAddress := "c@x.com" }] } "" "" 1 { EmailAddress := "b@x.com" }
      (by decide) (by decide)).1,
    (batchAdd_duplicate {} {} [2, 0, 1] _ 1
      { Emails := [{ EmailAddress := "a@x.com" }, { EmailAddress := "b@x.com" },
                   { EmailAddress := "c@x.com" }] } "" "" 1 { EmailAddress := "b@x.com" }
      (by decide) (by decide)).2.2.1⟩

/-- C5 (as stated) fails: a one-candidate batch whose gateway check fails is
not stored by the first submission, so the second submission finds no
duplicate and reports the gateway failure again, not a duplicate error. -/
theorem batchAdd_resubmit_counterexample :
    (BatchAddEmails { httpDo := fun _ => Except.ok { StatusCode := 401, body := Except.ok "unauthorized" } } {} []
        (BatchAddEmails { httpDo := fun _ => Except.ok { StatusCode := 401, body := Except.ok "unauthorized" } } {} [] {} 1
          { Emails := [{ EmailAddress := "a@x.com" }] } "" "").2.1 1
        { Emails := [{ EmailAddress := "a@x.com" }] } "" "").1.errors =
      ["邮箱 a@x.com: 验证邮箱 a@x.com 凭据失败: API请求失败，状态码: 401, 响应: unauthorized"] ∧
    "邮箱 a@x.com: 验证邮箱 a@x.com 凭据失败: API请求失败，状态码: 401, 响应: unauthorized" ≠ duplicateError "a@x.com" := by
  decide

/-- A successful existence check found a row of the account with the
address. -/
theorem EmailExists_found (env : Env) (db : DB) (userID : Int) (emailAddress : String)
    (h : EmailExists env db userID emailAddress = (true, none)) :
    ∃ row ∈ db.emails, row.UserID = userID ∧ row.EmailAddress = emailAddress := by
  unfold EmailExists at h
  cases hq : env.queryErr userID emailAddress with
  | some err => rw [hq] at h; cases h
  | none =>
    rw [hq] at h
    simp only [Prod.mk.injEq, decide_eq_true_eq, and_true] at h
    have hpos : 0 < db.emails.countP
        (fun e => decide (e.UserID = userID) && decide (e.EmailAddress = emailAddress)) := by
      exact_mod_cast h
    obtain ⟨row, hrow, hp⟩ := List.countP_pos_iff.1 hpos
    simp only [Bool.and_eq_true, decide_eq_true_eq] at hp
    exact ⟨row, hrow, hp.1, hp.2⟩

/-- When the error list of a batch is the list of the duplicate errors of all
its candidates, every candidate got the duplicate error. -/
theorem duplicates_only (env : Env) (cfg : Config) (db : DB) (userID : Int) :
    ∀ tasks : List emailTask,
      (tasks.map (processTask env cfg db userID)).filterMap errorOf =
        tasks.map (fun task => duplicateError task.req.EmailAddress) →
      ∀ task ∈ tasks,
        (processTask env cfg db userID task).error = duplicateError task.req.EmailAddress := by
  intro tasks
  induction tasks with
  | nil => intro _ task htask; cases htask
  | cons t ts ih =>
    intro h task htask
    simp only [List.map_cons, List.filterMap_cons] at h
    cases he : errorOf (processTask env cfg db userID t) with
    | none =>
      rw [he] at h
      simp only at h
      have hle := List.length_filterMap_le errorOf (ts.map (processTask env cfg db userID))
      rw [h] at hle
      simp only [List.length_cons, List.length_map] at hle
      omega
    | some msg =>
      rw [he] at h
      simp only [List.cons.injEq] at h
      rcases List.mem_cons.1 htask with heq | hmem
      · subst heq
        unfold errorOf at he
        split at he
        · simp only [Option.some.injEq] at he
          rw [he, h.1]
        · cases he
      · exact ih h.2 task hmem

/-- A candidate that the first submission accepted or rejected as a duplicate
has its address in the store that submission leaves. -/
theorem stored_after (env : Env) (cfg : Config) (sched : List Nat) (db : DB)
    (userID : Int) (req : BatchAddEmailRequest) (ipAddress userAgent : String)
    (hok : (BatchAddEmails env cfg sched db userID req ipAddress userAgent).1.err = none)
    (task : emailTask) (htask : task ∈ tasksFrom 0 req.Emails)
    (hres : (processTask env cfg db userID task).error = "" ∨
      (processTask env cfg db userID task).error = duplicateError task.req.EmailAddress) :
    ∃ row ∈ (BatchAddEmails env cfg sched db userID req ipAddress userAgent).2.1.emails,
      row.UserID = userID ∧ row.EmailAddress = task.req.EmailAddress := by
  have h0 : req.Emails.length ≠ 0 := by
    intro h0
    have hnil : req.Emails = [] := List.length_eq_zero.1 h0
    rw [hnil] at htask
    cases htask
  obtain ⟨db1, hrows, _, _, hdb⟩ :=
    BatchAddEmails_ok env cfg sched db userID req ipAddress userAgent h0 hok
  rw [hdb, (writeLogs_spec env _ db1).1, hrows]
  rcases hres with hempty | hdup
  · have hmem : newEmail userID task.req ∈
        (batchResults env cfg db userID req.Emails).filterMap validOf := by
      unfold batchResults
      rw [List.mem_filterMap]
      refine ⟨processTask env cfg db userID task, List.mem_map_of_mem _ htask, ?_⟩
      rcases processTask_cases env cfg db userID task with ⟨msg, hne, h⟩ | h
      · rw [h] at hempty
        exact absurd hempty hne
      · rw [h]
        simp [validOf]
    obtain ⟨row, hrow, h1, h2⟩ := rowsFrom_mem env _ db.emailSeq _ hmem
    exact ⟨row, List.mem_append_right _ hrow, h1, h2⟩
  · obtain ⟨row, hrow, h1, h2⟩ := EmailExists_found env db userID _
      (duplicate_only_if_found env cfg db userID task hdup)
    exact ⟨row, List.mem_append_left _ hrow, h1, h2⟩

/-- On a store that holds every address of the batch for the account, a
submission whose existence checks go through returns one duplicate error per
candidate and nothing else. -/
theorem resubmit_all_duplicates (env : Env) (cfg : Config) (sched : List Nat) (db : DB)
    (userID : Int) (req : BatchAddEmailRequest) (ipAddress userAgent : String)
    (hq : ∀ a, env.queryErr userID a = none) (h30 : req.Emails.length ≤ 30)
    (hstored : ∀ r ∈ req.Emails, ∃ row ∈ db.emails,
      row.UserID = userID ∧ row.EmailAddress = r.EmailAddress) :
    (BatchAddEmails env cfg sched db userID req ipAddress userAgent).1 =
      { successEmails := []
        errors := req.Emails.map (fun r => duplicateError r.EmailAddress)
        err := none } := by
  by_cases h0 : req.Emails.length = 0
  · have hnil : req.Emails = [] := List.length_eq_zero.1 h0
    simp [BatchAddEmails, h0, hnil]
  · have hreq := tasksFrom_req req.Emails 0
    have htasks : ∀ task ∈ tasksFrom 0 req.Emails, ∃ row ∈ db.emails,
        row.UserID = userID ∧ row.EmailAddress = task.req.EmailAddress := by
      intro task htask
      apply hstored
      rw [← hreq]
      exact List.mem_map_of_mem _ htask
    obtain ⟨hv, he⟩ := all_duplicates env cfg db userID hq (tasksFrom 0 req.Emails) htasks
    rw [BatchAddEmails_eq env cfg sched db userID req ipAddress userAgent h0 h30]
    simp only [batchResults]
    rw [hv, he]
    simp only [BatchCreateEmails, List.length_nil, if_true, List.map_map]
    congr 1
    conv_rhs => rw [← hreq]
    rw [List.map_map]
    rfl

/-- A submission that returns one duplicate error per candidate and nothing
else ran on a store that holds every address of the batch for the account. -/
theorem resubmit_only_duplicates (env : Env) (cfg : Config) (sched : List Nat) (db : DB)
    (userID : Int) (req : BatchAddEmailRequest) (ipAddress userAgent : String)
    (h : (BatchAddEmails env cfg sched db userID req ipAddress userAgent).1 =
      { successEmails := []
        errors := req.Emails.map (fun r => duplicateError r.EmailAddress)
        err := none }) :
    req.Emails.length ≤ 30 ∧
      ∀ r ∈ req.Emails, ∃ row ∈ db.emails,
        row.UserID = userID ∧ row.EmailAddress = r.EmailAddress := by
  have hok : (BatchAddEmails env cfg sched db userID req ipAddress userAgent).1.err = none := by
    rw [h]
  have h30 : req.Emails.length ≤ 30 := by
    by_contra hcon
    have hgt : req.Emails.length > 30 := by omega
    have h0 : req.Emails.length ≠ 0 := by omega
    simp [BatchAddEmails, h0, hgt] at hok
  refine ⟨h30, ?_⟩
  by_cases h0 : req.Emails.length = 0
  · have hnil : req.Emails = [] := List.length_eq_zero.1 h0
    rw [hnil]
    intro r hr
    cases hr
  · obtain ⟨db1, _, _, hres, _⟩ :=
      BatchAddEmails_ok env cfg sched db userID req ipAddress userAgent h0 hok
    rw [hres] at h
    have herrors : (batchResults env cfg db userID req.Emails).filterMap errorOf =
        req.Emails.map (fun r => duplicateError r.EmailAddress) := by
      injection h
    have hreq := tasksFrom_req req.Emails 0
    have herrors2 : ((tasksFrom 0 req.Emails).map (processTask env cfg db userID)).filterMap
        errorOf = (tasksFrom 0 req.Emails).map
          (fun task => duplicateError task.req.EmailAddress) := by
      unfold batchResults at herrors
      rw [herrors]
      conv_lhs => rw [← hreq]
      rw [List.map_map]
      rfl
    have hdup := duplicates_only env cfg db userID _ herrors2
    intro r hr
    rw [← hreq] at hr
    obtain ⟨task, htask, rfl⟩ := List.mem_map.1 hr
    exact EmailExists_found env db userID _
      (duplicate_only_if_found env cfg db userID task (hdup task htask))

/-- C5 (amended): the second submission of a batch for the same account, on
the database the first one left, returns zero successes, no top-level error
and one duplicate error per candidate, in input order, exactly when the batch
has at most 30 candidates and that database holds, for the account, a
credential with the address of every candidate (the existence checks of the
second submission going through). This is so whenever the first submission
returned without a top-level error and gave every candidate either no error
(the candidate was stored) or the duplicate error (it was stored before); a
candidate that failed the first time for another reason is not stored by it.
The two submissions may differ in environment, configuration and schedule. -/
theorem batchAdd_resubmit (env1 env2 : Env) (cfg1 cfg2 : Config) (sched1 sched2 : List Nat)
    (db : DB) (userID : Int) (req : BatchAddEmailRequest) (ip1 ua1 ip2 ua2 : String)
    (hq : ∀ a, env2.queryErr userID a = none) :
    ((BatchAddEmails env2 cfg2 sched2
          (BatchAddEmails env1 cfg1 sched1 db userID req ip1 ua1).2.1 userID req ip2 ua2).1 =
        { successEmails := []
          errors := req.Emails.map (fun r => duplicateError r.EmailAddress)
          err := none } ↔
      (req.Emails.length ≤ 30 ∧
        ∀ r ∈ req.Emails,
          ∃ row ∈ (BatchAddEmails env1 cfg1 sched1 db userID req ip1 ua1).2.1.emails,
            row.UserID = userID ∧ row.EmailAddress = r.EmailAddress)) ∧
    ((BatchAddEmails env1 cfg1 sched1 db userID req ip1 ua1).1.err = none →
      (∀ (i : Nat) (r : AddEmailRequest) (res : emailResult), req.Emails[i]? = some r →
        (runPool env1 cfg1 db userID sched1 (initPool cfg1 req.Emails)).results[i]? =
          some res →
        res.error = "" ∨ res.error = duplicateError r.EmailAddress) →
      (BatchAddEmails env2 cfg2 sched2
          (BatchAddEmails env1 cfg1 sched1 db userID req ip1 ua1).2.1 userID req ip2 ua2).1 =
        { successEmails := []
          errors := req.Emails.map (fun r => duplicateError r.EmailAddress)
          err := none }) := by
  refine ⟨⟨resubmit_only_duplicates env2 cfg2 sched2 _ userID req ip2 ua2,
    fun h => resubmit_all_duplicates env2 cfg2 sched2 _ userID req ip2 ua2 hq h.1 h.2⟩, ?_⟩
  intro hok hfirst
  have h30 : req.Emails.length ≤ 30 := by
    by_contra hcon
    have hgt : req.Emails.length > 30 := by omega
    have h0 : req.Emails.length ≠ 0 := by omega
    simp [BatchAddEmails, h0, hgt] at hok
  apply resubmit_all_duplicates env2 cfg2 sched2 _ userID req ip2 ua2 hq h30
  intro r hr
  obtain ⟨i, hi, hget⟩ := List.getElem_of_mem hr
  have hi2 : req.Emails[i]? = some r := by
    rw [List.getElem?_eq_getElem hi, hget]
  have hres : (runPool env1 cfg1 db userID sched1 (initPool cfg1 req.Emails)).results =
      batchResults env1 cfg1 db userID req.Emails := runPool_results env1 cfg1 db userID sched1 _
  have hpool := hfirst i r (processTask env1 cfg1 db userID { index := i, req := r }) hi2
    (by rw [hres, batchResults_getElem?, hi2]; rfl)
  have htask : ({ index := i, req := r } : emailTask) ∈ tasksFrom 0 req.Emails := by
    have hti := tasksFrom_getElem?_eq req.Emails 0 i
    rw [hi2] at hti
    simp only [Option.map_some', zero_add] at hti
    exact List.getElem?_mem hti
  exact stored_after env1 cfg1 sched1 db userID req ip1 ua1 hok { index := i, req := r }
    htask hpool

/-- Witness of `batchAdd_resubmit`: the store holds b@x.com before, the batch
is a@x.com and b@x.com; the first submission stores the one and rejects the
other as a duplicate, the second rejects both as duplicates. -/
theorem batchAdd_resubmit_witness :
    (BatchAddEmails {} {} [] { emails := [{ ID := 1, UserID := 1, EmailAddress := "b@x.com" }], emailSeq := 1 }
        1 { Emails := [{ EmailAddress := "a@x.com" }, { EmailAddress := "b@x.com" }] }
        "" "").1.errors = [duplicateError "b@x.com"] ∧
    (BatchAddEmails {} {} [1, 0]
        (BatchAddEmails {} {} [] { emails := [{ ID := 1, UserID := 1, EmailAddress := "b@x.com" }], emailSeq := 1 }
          1 { Emails := [{ EmailAddress := "a@x.com" }, { EmailAddress := "b@x.com" }] }
          "" "").2.1 1
        { Emails := [{ EmailAddress := "a@x.com" }, { EmailAddress := "b@x.com" }] }
        "" "").1 =
      { successEmails := []
        errors := [duplicateError "a@x.com", duplicateError "b@x.com"]
        err := none } :=
  ⟨by decide,
    (batchAdd_resubmit {} {} {} {} [] [1, 0]
      { emails := [{ ID := 1, UserID := 1, EmailAddress := "b@x.com" }], emailSeq := 1 } 1
      { Emails := [{ EmailAddress := "a@x.com" }, { EmailAddress := "b@x.com" }] }
      "" "" "" "" (fun _ => rfl)).1.2 ⟨by decide, by decide⟩⟩

/-- C7: for a non-empty batch that `BatchAddEmails` completes without a
top-level error, the database gains exactly the rows of the credentials of
the success list (same identifiers, owners and addresses, same order), and
the audit log gains, after the records it had, the records handed to the log
writer whose write goes through, those records being one `email_added` per
credential of the success list, in success-list order, followed by one
`batch_add_emails` summary whose description carries the two counts
(`batchLogs`). When no audit write fails the log gains exactly these records. -/
theorem batchAdd_audit (env : Env) (cfg : Config) (sched : List Nat) (db : DB)
    (userID : Int) (req : BatchAddEmailRequest) (ipAddress userAgent : String)
    (hne : req.Emails ≠ [])
    (hok : (BatchAddEmails env cfg sched db userID req ipAddress userAgent).1.err = none) :
    ∃ (rows : List Email) (added : List OperationLog),
      (BatchAddEmails env cfg sched db userID req ipAddress userAgent).2.1.emails =
        db.emails ++ rows ∧
      rows.map (fun e => (e.ID, e.UserID, e.EmailAddress)) =
        (BatchAddEmails env cfg sched db userID req ipAddress userAgent).1.successEmails.map
          (fun e => (e.ID, e.UserID, e.EmailAddress)) ∧
      (BatchAddEmails env cfg sched db userID req ipAddress userAgent).2.1.operation_logs =
        db.operation_logs ++ added ∧
      added.map stripLog =
        (batchLogs userID ipAddress userAgent
          (BatchAddEmails env cfg sched db userID req ipAddress userAgent).1.successEmails
          (BatchAddEmails env cfg sched db userID req ipAddress userAgent).1.errors).filter
          (fun l => (env.logErr l).isNone) ∧
      ((∀ l, env.logErr l = none) →
        added.map stripLog =
          batchLogs userID ipAddress userAgent
            (BatchAddEmails env cfg sched db userID req ipAddress userAgent).1.successEmails
            (BatchAddEmails env cfg sched db userID req ipAddress userAgent).1.errors) := by
  have h0 : req.Emails.length ≠ 0 := fun h => hne (List.length_eq_zero.1 h)
  obtain ⟨db1, hrows, hlogs, hres, hdb⟩ :=
    BatchAddEmails_ok env cfg sched db userID req ipAddress userAgent h0 hok
  obtain ⟨he, _, added, hadd, hstrip⟩ := writeLogs_spec env
    (batchLogs userID ipAddress userAgent
      (savedFrom db.emailSeq ((batchResults env cfg db userID req.Emails).filterMap validOf))
      ((batchResults env cfg db userID req.Emails).filterMap errorOf)) db1
  rw [map_stripLog_filter] at hstrip
  rw [hdb, hres]
  refine ⟨_, added, by rw [he, hrows], rowsFrom_id env _ _, by rw [hadd, hlogs], hstrip, ?_⟩
  intro hall
  rw [hstrip]
  apply List.filter_eq_self.2
  intro l _
  simp [hall l]

/-- Witness of `batchAdd_audit`, the scenario of the specification: three
candidates of which the second already exists give two successes, one
duplicate error naming the second address, two `email_added` records and one
summary. -/
theorem batchAdd_audit_witness :
    (∃ (rows : List Email) (added : List OperationLog),
      (BatchAddEmails {} {} []
        { emails := [{ ID := 1, UserID := 1, EmailAddress := "b@x.com" }], emailSeq := 1 } 1
        { Emails := [{ EmailAddress := "a@x.com" }, { EmailAddress := "b@x.com" },
                     { EmailAddress := "c@x.com" }] } "ip" "ua").2.1.emails =
        [{ ID := 1, UserID := 1, EmailAddress := "b@x.com" }] ++ rows ∧
      rows.map (fun e => (e.ID, e.UserID, e.EmailAddress)) =
        (BatchAddEmails {} {} []
          { emails := [{ ID := 1, UserID := 1, EmailAddress := "b@x.com" }], emailSeq := 1 } 1
          { Emails := [{ EmailAddress := "a@x.com" }, { EmailAddress := "b@x.com" },
                       { EmailAddress := "c@x.com" }] } "ip" "ua").1.successEmails.map
          (fun e => (e.ID, e.UserID, e.EmailAddress)) ∧
      (BatchAddEmails {} {} []
        { emails := [{ ID := 1, UserID := 1, EmailAddress := "b@x.com" }], emailSeq := 1 } 1
        { Emails := [{ EmailAddress := "a@x.com" }, { EmailAddress := "b@x.com" },
                     { EmailAddress := "c@x.com" }] } "ip" "ua").2.1.operation_logs =
        [] ++ added ∧
      added.map stripLog =
        (batchLogs 1 "ip" "ua"
          (BatchAddEmails {} {} []
            { emails := [{ ID := 1, UserID := 1, EmailAddress := "b@x.com" }], emailSeq := 1 } 1
            { Emails := [{ EmailAddress := "a@x.com" }, { EmailAddress := "b@x.com" },
                         { EmailAddress := "c@x.com" }] } "ip" "ua").1.successEmails
          (BatchAddEmails {} {} []
            { emails := [{ ID := 1, UserID := 1, EmailAddress := "b@x.com" }], emailSeq := 1 } 1
            { Emails := [{ EmailAddress := "a@x.com" }, { EmailAddress := "b@x.com" },
                         { EmailAddress := "c@x.com" }] } "ip" "ua").1.errors).filter
          (fun l => (({} : Env).logErr l).isNone) ∧
      ((∀ l, ({} : Env).logErr l = none) →
        added.map stripLog =
          batchLogs 1 "ip" "ua"
            (BatchAddEmails {} {} []
              { emails := [{ ID := 1, UserID := 1, EmailAddress := "b@x.com" }], emailSeq := 1 } 1
              { Emails := [{ EmailAddress := "a@x.com" }, { EmailAddress := "b@x.com" },
                           { EmailAddress := "c@x.com" }] } "ip" "ua").1.successEmails
            (BatchAddEmails {} {} []
              { emails := [{ ID := 1, UserID := 1, EmailAddress := "b@x.com" }], emailSeq := 1 } 1
              { Emails := [{ EmailAddress := "a@x.com" }, { EmailAddress := "b@x.com" },
                           { EmailAddress := "c@x.com" }] } "ip" "ua").1.errors)) ∧
    (BatchAddEmails {} {} []
        { emails := [{ ID := 1, UserID := 1, EmailAddress := "b@x.com" }], emailSeq := 1 } 1
        { Emails := [{ EmailAddress := "a@x.com" }, { EmailAddress := "b@x.com" },
                     { EmailAddress := "c@x.com" }] } "ip" "ua").1.successEmails.map
        (fun e => (e.ID, e.EmailAddress)) = [(2, "a@x.com"), (3, "c@x.com")] ∧
    (BatchAddEmails {} {} []
        { emails := [{ ID := 1, UserID := 1, EmailAddress := "b@x.com" }], emailSeq := 1 } 1
        { Emails := [{ EmailAddress := "a@x.com" }, { EmailAddress := "b@x.com" },
                     { EmailAddress := "c@x.com" }] } "ip" "ua").1.errors =
      ["邮箱 b@x.com: 邮箱已存在"] ∧
    (BatchAddEmails {} {} []
        { emails := [{ ID := 1, UserID := 1, EmailAddress := "b@x.com" }], emailSeq := 1 } 1
        { Emails := [{ EmailAddress := "a@x.com" }, { EmailAddress := "b@x.com" },
                     { EmailAddress := "c@x.com" }] } "ip" "ua").2.1.operation_logs.map
        (fun l => (l.OperationType, l.TargetID, l.Description)) =
      [("email_added", some 2, "添加邮箱: a@x.com"), ("email_added", some 3, "添加邮箱: c@x.com"),
       ("batch_add_emails", some 0, "批量添加邮箱，成功: 2, 失败: 1")] :=
  ⟨batchAdd_audit {} {} []
      { emails := [{ ID := 1, UserID := 1, EmailAddress := "b@x.com" }], emailSeq := 1 } 1
      { Emails := [{ EmailAddress := "a@x.com" }, { EmailAddress := "b@x.com" },
                   { EmailAddress := "c@x.com" }] } "ip" "ua" (by decide) (by decide),
    by decide, by decide, by decide⟩

/-- C9 (as stated) fails: for a batch of one candidate and a worker count of
five, the pool `BatchAddEmails` starts has five workers, more than items. -/
theorem batchAdd_workers_counterexample :
    (initPool { EmailValidationWorkers := 5 } [{ EmailAddress := "a@x.com" }]).workers.length = 5 ∧
    ¬ ((initPool { EmailValidationWorkers := 5 } [{ EmailAddress := "a@x.com" }]).workers.length ≤
      [({ EmailAddress := "a@x.com" } : AddEmailRequest)].length) := by
  decide

/-- C9 (amended): the number of workers `BatchAddEmails` starts is the
effective worker count (the configured count when positive, otherwise 5),
whatever the size of the batch, and it stays so in every state of a run; at
every moment the number of workers that hold an item is at most the minimum
of the batch size and the worker count. -/
theorem batchAdd_workers (env : Env) (cfg : Config) (db : DB) (userID : Int)
    (emails : List AddEmailRequest) (sched : List Nat) :
    maxWorkers cfg = (if cfg.EmailValidationWorkers ≤ 0 then 5 else cfg.EmailValidationWorkers) ∧
      (initPool cfg emails).workers.length = (maxWorkers cfg).toNat ∧
      (exec env cfg db userID sched (initPool cfg emails)).workers.length =
        (maxWorkers cfg).toNat ∧
      busy (exec env cfg db userID sched (initPool cfg emails)) ≤
        min emails.length (maxWorkers cfg).toNat := by
  have hinv := inv_reachable env cfg db userID emails sched
  refine ⟨rfl, by simp [initPool], hinv.wlen, ?_⟩
  have h := busy_le env cfg db userID _ _ _ hinv
  rwa [tasksFrom_length] at h

/-- C10: in every state a run of the pool of `BatchAddEmails` goes through
(the state any schedule leads to from the start of the batch), the number of
gateway calls in flight is at most the minimum of the batch size and the
worker count; the run `BatchAddEmails` makes for a schedule is itself such a
run. -/
theorem gateway_calls_in_flight (env : Env) (cfg : Config) (db : DB) (userID : Int)
    (emails : List AddEmailRequest) (sched : List Nat) :
    inFlight (exec env cfg db userID sched (initPool cfg emails)) ≤
        min emails.length (maxWorkers cfg).toNat ∧
      ∃ rest : List Nat,
        runPool env cfg db userID sched (initPool cfg emails) =
          exec env cfg db userID (sched ++ rest) (initPool cfg emails) := by
  have hinv := inv_reachable env cfg db userID emails sched
  have h := busy_le env cfg db userID _ _ _ hinv
  rw [tasksFrom_length] at h
  exact ⟨le_trans (inFlight_le_busy _) h, runPool_exec env cfg db userID sched _⟩

/-- C11: when the gateway answers the fetch-latest request with status 200
and a body that is the empty JSON array, `GetLatestMail` returns the error
"API返回空邮件数组" and no message: the result is not a message of any kind. -/
theorem getLatestMail_empty_array (env : Env) (s : OutlookService) (email : Email)
    (mailbox responseType body : String)
    (hresp : Answers env (s.baseURL ++ "/api/mail-new") 200 body)
    (hbody : env.jsonParse body = Except.ok (JSON.arr [])) :
    GetLatestMail env s email mailbox responseType = Except.error "API返回空邮件数组" ∧
      ∀ mail, GetLatestMail env s email mailbox responseType ≠ Except.ok mail := by
  have h : GetLatestMail env s email mailbox responseType =
      Except.error "API返回空邮件数组" :=
    GetLatestMail_nil env s email mailbox responseType body _ hresp
      (unmarshalMap_arr env body [] hbody) (by rw [unmarshalMaps_arr env body [] hbody]; rfl)
  refine ⟨h, ?_⟩
  intro mail hmail
  rw [h] at hmail
  cases hmail

/-- Witness of `getLatestMail_empty_array`: the gateway answers `[]`. -/
theorem getLatestMail_empty_array_witness :
    GetLatestMail
        { httpDo := fun _ => Except.ok { StatusCode := 200, body := Except.ok "[]" }
          jsonParse := fun _ => Except.ok (JSON.arr []) }
        { baseURL := "http://gateway" } { EmailAddress := "a@x.com" } "INBOX" "json" =
      Except.error "API返回空邮件数组" :=
  (getLatestMail_empty_array _ { baseURL := "http://gateway" } { EmailAddress := "a@x.com" }
    "INBOX" "json" "[]" (answers_const 200 "[]" _ _ _) rfl).1

/-- C12 (as stated) fails: in the response object both `html` and `text` are
present, `html` being the empty string and `text` being "plain"; the message
`GetLatestMail` returns has the body "plain", which is not the value of
`html`. -/
theorem latestMail_body_counterexample :
    mapLookup [("html", JSON.str ""), ("text", JSON.str "plain")] "html" = some (JSON.str "") ∧
    mapLookup [("html", JSON.str ""), ("text", JSON.str "plain")] "text" =
      some (JSON.str "plain") ∧
    (GetLatestMail
        { httpDo := fun _ => Except.ok
            { StatusCode := 200, body := Except.ok "\x7b\"html\":\"\",\"text\":\"plain\"\x7d" }
          jsonParse := fun _ =>
            Except.ok (JSON.obj [("html", JSON.str ""), ("text", JSON.str "plain")]) }
        {} {} "INBOX" "json").map OutlookMail.Body = Except.ok "plain" ∧
    "plain" ≠ "" :=
  ⟨rfl, rfl, rfl, by decide⟩

/-- C12 (amended): for a 200 response to fetch-latest that is an object
which `json.Unmarshal` decodes (every number in it fits a float64), the
message `GetLatestMail` returns has as its body the value of `html` whenever
that value is a non-empty string, whatever `text` is; and when `html` is
absent, not a string or the empty string, the body is what `text` gives (its
value when a string, the empty string otherwise). An object with a number
that does not fit a float64 is not decoded, and `GetLatestMail` returns no
message for it. -/
theorem latestMail_body (env : Env) (s : OutlookService) (email : Email)
    (mailbox responseType body : String) (fields : List (String × JSON))
    (hresp : Answers env (s.baseURL ++ "/api/mail-new") 200 body)
    (hbody : env.jsonParse body = Except.ok (JSON.obj fields)) :
    (floatErrFields env.parseFloatErr fields = none →
      (∀ html, mapLookup fields "html" = some (JSON.str html) → html ≠ "" →
        ∃ mail, GetLatestMail env s email mailbox responseType = Except.ok mail ∧
          mail.Body = html) ∧
      (getStringFromMap fields "html" = "" →
        ∃ mail, GetLatestMail env s email mailbox responseType = Except.ok mail ∧
          mail.Body = getStringFromMap fields "text")) ∧
    (∀ err, floatErrFields env.parseFloatErr fields = some err →
      GetLatestMail env s email mailbox responseType =
        Except.error ("解析响应失败: " ++ err ++ ", 响应内容: " ++ body)) := by
  refine ⟨?_, ?_⟩
  · intro hnum
    have h := GetLatestMail_map env s email mailbox responseType body fields hresp
      (unmarshalMap_obj env body fields hbody hnum)
    constructor
    · intro html hhtml hne
      have hs := getStringFromMap_str fields "html" html hhtml
      refine ⟨_, h, ?_⟩
      rw [latestMail_body_html env fields (by rw [hs]; exact hne), hs]
    · intro hempty
      exact ⟨_, h, latestMail_body_text env fields hempty⟩
  · intro err hnum
    exact GetLatestMail_rejected env s email mailbox responseType body err _ hresp
      (unmarshalMap_obj_error env body fields err hbody hnum)
      (unmarshalMaps_obj env body fields hbody)

/-- Witness of `latestMail_body`: both fields present and non-empty. -/
theorem latestMail_body_witness :
    ∃ mail,
      GetLatestMail
          { httpDo := fun _ => Except.ok { StatusCode := 200, body := Except.ok "object" }
            jsonParse := fun _ =>
              Except.ok (JSON.obj [("html", JSON.str "<p>hi</p>"), ("text", JSON.str "hi")]) }
          {} {} "INBOX" "json" = Except.ok mail ∧
        mail.Body = "<p>hi</p>" :=
  ((latestMail_body _ {} {} "INBOX" "json" "object"
    [("html", JSON.str "<p>hi</p>"), ("text", JSON.str "hi")]
    (answers_const 200 "object" _ _ _) rfl).1 rfl).1 "<p>hi</p>" rfl (by decide)

/-- C13: a message object in which neither `date` nor `receivedDateTime` is a
string that parses as an RFC 3339 timestamp is normalised to a message with
the zero timestamp, by the code of `GetLatestMail` and by the code of
`GetAllMails`. Whether the two calls fail does not depend on how timestamps
parse: with any other `time.Parse` they fail or succeed on the same
responses. And on a 200 response that `json.Unmarshal` decodes (every number
of its objects fits a float64) `GetLatestMail` returns that message, without
error, for such an object or an array of objects that starts with one, and
`GetAllMails` returns one message per object, each with the zero timestamp,
without error, for an array of such objects. -/
theorem timestamps_best_effort (env : Env) (s : OutlookService) (email : Email)
    (mailbox responseType body : String) :
    (∀ m, NoTimestamp env m →
      (latestMail env m).ReceivedAt = 0 ∧ (listedMail env m).ReceivedAt = 0) ∧
    (∀ parse : String → Option Nat,
      (GetLatestMail { env with parseRFC3339 := parse } s email mailbox responseType).isOk =
          (GetLatestMail env s email mailbox responseType).isOk ∧
        (GetAllMails { env with parseRFC3339 := parse } s email mailbox).isOk =
          (GetAllMails env s email mailbox).isOk) ∧
    (∀ fields, Answers env (s.baseURL ++ "/api/mail-new") 200 body →
      env.jsonParse body = Except.ok (JSON.obj fields) →
      floatErrFields env.parseFloatErr fields = none → NoTimestamp env fields →
      ∃ mail, GetLatestMail env s email mailbox responseType = Except.ok mail ∧
        mail.ReceivedAt = 0) ∧
    (∀ (fields : JSONMap) (rest : List JSONMap),
      Answers env (s.baseURL ++ "/api/mail-new") 200 body →
      env.jsonParse body = Except.ok (JSON.arr ((fields :: rest).map JSON.obj)) →
      (∀ m ∈ fields :: rest, floatErrFields env.parseFloatErr m = none) →
      NoTimestamp env fields →
      ∃ mail, GetLatestMail env s email mailbox responseType = Except.ok mail ∧
        mail.ReceivedAt = 0) ∧
    (∀ objs : List JSONMap, Answers env (s.baseURL ++ "/api/mail-all") 200 body →
      env.jsonParse body = Except.ok (JSON.arr (objs.map JSON.obj)) →
      (∀ m ∈ objs, floatErrFields env.parseFloatErr m = none) →
      (∀ m ∈ objs, NoTimestamp env m) →
      ∃ mails, GetAllMails env s email mailbox = Except.ok mails ∧
        mails.length = objs.length ∧ ∀ mail ∈ mails, mail.ReceivedAt = 0) := by
  refine ⟨fun m hm => ⟨latestMail_zero env m hm, listedMail_zero env m hm⟩, ?_, ?_, ?_, ?_⟩
  · intro parse
    exact ⟨GetLatestMail_isOk_time env parse s email mailbox responseType,
      GetAllMails_isOk_time env parse s email mailbox⟩
  · intro fields hresp hbody hnum hno
    exact ⟨_, GetLatestMail_map env s email mailbox responseType body fields hresp
      (unmarshalMap_obj env body fields hbody hnum), latestMail_zero env fields hno⟩
  · intro fields rest hresp hbody hnum hno
    exact ⟨_, GetLatestMail_first env s email mailbox responseType body _ fields rest hresp
      (unmarshalMap_arr env body _ hbody) (unmarshalMaps_objs env body _ hbody hnum),
      latestMail_zero env fields hno⟩
  · intro objs hresp hbody hnum hall
    refine ⟨_, GetAllMails_decoded env s email mailbox body objs hresp
      (unmarshalMaps_objs env body objs hbody hnum), by simp, ?_⟩
    intro mail hmail
    obtain ⟨m, hm, rfl⟩ := List.mem_map.1 hmail
    exact listedMail_zero env m (hall m hm)

/-- Witness of `timestamps_best_effort`: the gateway lists one message whose
`date` does not parse and which has no `receivedDateTime`. -/
theorem timestamps_best_effort_witness :
    (latestMail {} [("date", JSON.str "yesterday"), ("subject", JSON.str "hi")]).ReceivedAt
        = 0 ∧
      ∃ mails,
        GetAllMails
            { httpDo := fun _ => Except.ok { StatusCode := 200, body := Except.ok "array" }
              jsonParse := fun _ => Except.ok (JSON.arr
                [JSON.obj [("date", JSON.str "yesterday"), ("subject", JSON.str "hi")]]) }
            {} {} "INBOX" = Except.ok mails ∧
          mails.length = 1 ∧ ∀ mail ∈ mails, mail.ReceivedAt = 0 :=
  ⟨((timestamps_best_effort {} {} {} "INBOX" "json" "").1
      [("date", JSON.str "yesterday"), ("subject", JSON.str "hi")]
      ⟨fun _ _ => rfl, fun _ _ => rfl⟩).1,
    (timestamps_best_effort _ {} {} "INBOX" "json" "array").2.2.2.2
      [[("date", JSON.str "yesterday"), ("subject", JSON.str "hi")]]
      (answers_const 200 "array" _ _ _) rfl
      (fun m hm => by
        rw [List.mem_singleton] at hm
        subst hm
        rfl)
      (fun m hm => by
        rw [List.mem_singleton] at hm
        subst hm
        exact ⟨fun _ _ => rfl, fun _ _ => rfl⟩)⟩

/-- C14: for every decoded object `m` and every key, `getStringFromMap` gives
the empty string when the key is absent or its value is not a string, and the
value when it is a string; `getBoolFromMap` gives false when the key is
absent or its value is not a boolean, and the value when it is one. Both are
total functions, and so is the normalisation built on them: even the nil map
is normalised, to the zero message. -/
theorem getFromMap_defaults (env : Env) (m : JSONMap) (key : String) :
    ((∀ v, (key, v) ∉ m) → getStringFromMap m key = "" ∧ getBoolFromMap m key = false) ∧
    ((∀ str, mapLookup m key ≠ some (JSON.str str)) → getStringFromMap m key = "") ∧
    ((∀ b, mapLookup m key ≠ some (JSON.bool b)) → getBoolFromMap m key = false) ∧
    (∀ str, mapLookup m key = some (JSON.str str) → getStringFromMap m key = str) ∧
    (∀ b, mapLookup m key = some (JSON.bool b) → getBoolFromMap m key = b) ∧
    latestMail env [] = {} ∧ listedMail env [] = {} := by
  refine ⟨?_, getStringFromMap_default m key, getBoolFromMap_default m key,
    getStringFromMap_str m key, getBoolFromMap_bool m key, rfl, rfl⟩
  intro habsent
  have hnone := (mapLookup_eq_none m key).2 habsent
  exact ⟨getStringFromMap_default m key (by rw [hnone]; intro str h; cases h),
    getBoolFromMap_default m key (by rw [hnone]; intro b h; cases h)⟩

/-- Witness of `getFromMap_defaults`: `isRead` holds a string and `subject`
a number. -/
theorem getFromMap_defaults_witness :
    getBoolFromMap [("isRead", JSON.str "yes"), ("subject", JSON.num "7")] "isRead" = false ∧
      getStringFromMap [("isRead", JSON.str "yes"), ("subject", JSON.num "7")] "subject" = "" ∧
      getStringFromMap [("isRead", JSON.str "yes"), ("subject", JSON.num "7")] "id" = "" :=
  ⟨(getFromMap_defaults {} [("isRead", JSON.str "yes"), ("subject", JSON.num "7")]
      "isRead").2.2.1 (fun b h => by cases h),
    (getFromMap_defaults {} [("isRead", JSON.str "yes"), ("subject", JSON.num "7")]
      "subject").2.1 (fun str h => by cases h),
    ((getFromMap_defaults {} [("isRead", JSON.str "yes"), ("subject", JSON.num "7")]
      "id").1 (fun v h => by simp at h)).1⟩

/-- C15: when the gateway answers with a status code other than 200 (every
non-2xx code is one) and the body `body`, each of `GetLatestMail`,
`GetAllMails` and `ClearInbox` returns the error
"API请求失败，状态码: " ++ status ++ ", 响应: " ++ body, which carries the
status code in decimal and the raw body. -/
theorem gateway_status_error (env : Env) (s : OutlookService) (email : Email)
    (mailbox responseType : String) (status : Nat) (body : String) (hstatus : status ≠ 200) :
    (Answers env (s.baseURL ++ "/api/mail-new") status body →
      GetLatestMail env s email mailbox responseType =
        Except.error (statusError status body)) ∧
    (Answers env (s.baseURL ++ "/api/mail-all") status body →
      GetAllMails env s email mailbox = Except.error (statusError status body)) ∧
    (Answers env (s.baseURL ++ "/api/process-inbox") status body →
      ClearInbox env s email = some (statusError status body)) ∧
    statusError status body =
      "API请求失败，状态码: " ++ toString status ++ ", 响应: " ++ body := by
  refine ⟨?_, ?_, ?_, rfl⟩
  · intro h
    simp only [GetLatestMail, post_status env _ _ status body h hstatus]
  · intro h
    simp only [GetAllMails, post_status env _ _ status body h hstatus]
  · intro h
    simp only [ClearInbox, post_status env _ _ status body h hstatus]

/-- Witness of `gateway_status_error`: the gateway answers 503. -/
theorem gateway_status_error_witness :
    GetAllMails
        { httpDo := fun _ => Except.ok { StatusCode := 503, body := Except.ok "busy" } }
        {} {} "INBOX" =
      Except.error "API请求失败，状态码: 503, 响应: busy" :=
  (gateway_status_error _ {} {} "INBOX" "" 503 "busy" (by decide)).2.1
    (answers_const 503 "busy" _ _ _)

/-- C16 (as stated) fails: the body `null` is neither a JSON object nor a
JSON array of objects, and `GetLatestMail` returns no error for it but the
message with every field empty. -/
theorem getLatestMail_null_counterexample :
    GetLatestMail
        { httpDo := fun _ => Except.ok { StatusCode := 200, body := Except.ok "null" }
          jsonParse := fun _ => Except.ok JSON.null }
        {} {} "INBOX" "json" =
      Except.ok { ID := "", Subject := "", From := "", To := "", Body := "", IsRead := false,
                  ReceivedAt := 0, VerifyCode := "" } :=
  rfl

/-- C16 (amended): when the gateway answers the fetch-latest request with
status 200 and a body that is not JSON, or is a JSON value other than an
object, `null`, or an array all of whose elements are objects or `null`,
`GetLatestMail` returns the error
"解析响应失败: " ++ err ++ ", 响应内容: " ++ body, which carries the raw
body. -/
theorem getLatestMail_undecodable (env : Env) (s : OutlookService) (email : Email)
    (mailbox responseType body : String)
    (hresp : Answers env (s.baseURL ++ "/api/mail-new") 200 body)
    (hobj : ∀ v, env.jsonParse body = Except.ok v → v.isObjectOrNull = false)
    (harr : ∀ items, env.jsonParse body = Except.ok (JSON.arr items) →
      ∃ v ∈ items, v.isObjectOrNull = false) :
    ∃ err, GetLatestMail env s email mailbox responseType =
      Except.error ("解析响应失败: " ++ err ++ ", 响应内容: " ++ body) := by
  obtain ⟨err, herr⟩ := unmarshalMap_error env body hobj
  obtain ⟨arrayErr, harrayErr⟩ := unmarshalMaps_error env body hobj harr
  exact ⟨err, GetLatestMail_rejected env s email mailbox responseType body err arrayErr hresp
    herr harrayErr⟩

/-- Witness of `getLatestMail_undecodable`: the body is not JSON. -/
theorem getLatestMail_undecodable_witness :
    ∃ err,
      GetLatestMail
          { httpDo := fun _ => Except.ok { StatusCode := 200, body := Except.ok "<html>" }
            jsonParse := fun _ => Except.error "invalid character" }
          {} {} "INBOX" "json" =
        Except.error ("解析响应失败: " ++ err ++ ", 响应内容: " ++ "<html>") :=
  getLatestMail_undecodable _ {} {} "INBOX" "json" "<html>" (answers_const 200 "<html>" _ _ _)
    (fun _ h => by cases h) (fun _ h => by cases h)

/-- C17 (as stated) fails: the body `null` is not a JSON object, and
`ClearInbox` does not fail on it. -/
theorem clearInbox_null_counterexample :
    ClearInbox
        { httpDo := fun _ => Except.ok { StatusCode := 200, body := Except.ok "null" }
          jsonParse := fun _ => Except.ok JSON.null }
        {} {} = none :=
  rfl

/-- C17 (amended): on a 200 response to clear-inbox, `ClearInbox` fails if
and only if `json.Unmarshal` does not decode the body into a map (the body is
not JSON, or is a JSON value other than an object and `null`, or is an object
with a number that does not fit a float64), or the body is an object whose
`error` is a non-empty string; in the latter case, the object being decoded,
the returned error is "API返回错误: " followed by that string, and for an
object that is not decoded it is the decode error with the raw body. -/
theorem clearInbox_fails_iff (env : Env) (s : OutlookService) (email : Email) (body : String)
    (hresp : Answers env (s.baseURL ++ "/api/process-inbox") 200 body) :
    (ClearInbox env s email ≠ none ↔
      ((∀ v, env.jsonParse body = Except.ok v → v.isObjectOrNull = false) ∨
        (∃ fields, env.jsonParse body = Except.ok (JSON.obj fields) ∧
          floatErrFields env.parseFloatErr fields ≠ none) ∨
        ∃ fields str, env.jsonParse body = Except.ok (JSON.obj fields) ∧
          mapLookup fields "error" = some (JSON.str str) ∧ str ≠ "")) ∧
    (∀ fields str, env.jsonParse body = Except.ok (JSON.obj fields) →
      floatErrFields env.parseFloatErr fields = none →
      mapLookup fields "error" = some (JSON.str str) → str ≠ "" →
      ClearInbox env s email = some ("API返回错误: " ++ str)) ∧
    (∀ fields err, env.jsonParse body = Except.ok (JSON.obj fields) →
      floatErrFields env.parseFloatErr fields = some err →
      ClearInbox env s email = some ("解析响应失败: " ++ err ++ ", 响应内容: " ++ body)) := by
  refine ⟨⟨ClearInbox_fails_only env s email body hresp, ?_⟩,
    fun fields str hobj hnum herr hne =>
      ClearInbox_error_field env s email body fields str hresp hobj hnum herr hne,
    fun fields err hobj hnum =>
      ClearInbox_rejected env s email body err hresp
        (unmarshalMap_obj_error env body fields err hobj hnum)⟩
  rintro (hbad | ⟨fields, hobj, hnum⟩ | ⟨fields, str, hobj, herr, hne⟩)
  · obtain ⟨err, herr⟩ := unmarshalMap_error env body hbad
    rw [ClearInbox_rejected env s email body err hresp herr]
    exact Option.some_ne_none _
  · cases hf : floatErrFields env.parseFloatErr fields with
    | none => exact absurd hf hnum
    | some err =>
      rw [ClearInbox_rejected env s email body err hresp
        (unmarshalMap_obj_error env body fields err hobj hf)]
      exact Option.some_ne_none _
  · cases hf : floatErrFields env.parseFloatErr fields with
    | none =>
      rw [ClearInbox_error_field env s email body fields str hresp hobj hf herr hne]
      exact Option.some_ne_none _
    | some err =>
      rw [ClearInbox_rejected env s email body err hresp
        (unmarshalMap_obj_error env body fields err hobj hf)]
      exact Option.some_ne_none _

/-- Witness of `clearInbox_fails_iff`: the acknowledgement carries an
`error`. -/
theorem clearInbox_fails_iff_witness :
    ClearInbox
        { httpDo := fun _ => Except.ok { StatusCode := 200, body := Except.ok "object" }
          jsonParse := fun _ => Except.ok (JSON.obj [("error", JSON.str "token expired")]) }
        {} {} = some "API返回错误: token expired" :=
  (clearInbox_fails_iff _ {} {} "object" (answers_const 200 "object" _ _ _)).2.1
    [("error", JSON.str "token expired")] "token expired" rfl rfl rfl (by decide)

/-- C18: `EmailService.GetEmailByID` for the account `userID` returns a
credential only when the stored credential with that identifier is owned by
`userID` (and then it returns that row); when the row exists and is owned by
another account it returns the error "无权访问此邮箱"; when no row has the
identifier it returns `sql.ErrNoRows`, a different error. The last two hold
when the SELECT itself goes through. -/
theorem getEmailByID_owner (env : Env) (db : DB) (userID emailID : Int) :
    (∀ email, EmailService.GetEmailByID env db userID emailID = Except.ok email →
      email.UserID = userID ∧
        ∃ row, db.emails.find? (fun e => decide (e.ID = emailID)) = some row ∧
          row.UserID = userID ∧ email = { row with Tags := email.Tags }) ∧
    (∀ row, env.stmtErr queryGetEmailByID = none →
      db.emails.find? (fun e => decide (e.ID = emailID)) = some row → row.UserID ≠ userID →
      EmailService.GetEmailByID env db userID emailID = Except.error "无权访问此邮箱") ∧
    (env.stmtErr queryGetEmailByID = none → (∀ e ∈ db.emails, e.ID ≠ emailID) →
      EmailService.GetEmailByID env db userID emailID = Except.error ErrNoRows) ∧
    ErrNoRows ≠ "无权访问此邮箱" := by
  refine ⟨?_, ?_, ?_, by decide⟩
  · intro email h
    unfold EmailService.GetEmailByID at h
    cases hrepo : EmailRepository.GetEmailByID env db emailID with
    | error err => rw [hrepo] at h; cases h
    | ok found =>
      rw [hrepo] at h
      simp only at h
      by_cases hne : found.UserID ≠ userID
      · rw [if_pos hne] at h; cases h
      · rw [if_neg hne] at h
        have hfound : found = email := by injection h
        subst hfound
        have howner : found.UserID = userID := not_not.1 hne
        obtain ⟨row, hrow, heq⟩ := repoGetEmailByID_ok env db emailID found hrepo
        refine ⟨howner, row, hrow, ?_, heq⟩
        rw [← howner, heq]
  · intro row hsel hrow hne
    obtain ⟨tags, hrepo⟩ := repoGetEmailByID_found env db emailID row hsel hrow
    simp only [EmailService.GetEmailByID, hrepo]
    rw [if_pos hne]
  · intro hsel habsent
    have hnone : db.emails.find? (fun e => decide (e.ID = emailID)) = none := by
      rw [List.find?_eq_none]
      intro e he
      simp [habsent e he]
    simp only [EmailService.GetEmailByID, repoGetEmailByID_absent env db emailID hsel hnone]

/-- Witness of `getEmailByID_owner`: credential 1 is owned by account 2 and
account 1 asks for it. -/
theorem getEmailByID_owner_witness :
    EmailService.GetEmailByID {}
        { emails := [{ ID := 1, UserID := 2, EmailAddress := "b@x.com" }], emailSeq := 1 } 1 1 =
      Except.error "无权访问此邮箱" :=
  (getEmailByID_owner {}
      { emails := [{ ID := 1, UserID := 2, EmailAddress := "b@x.com" }], emailSeq := 1 }
      1 1).2.1 { ID := 1, UserID := 2, EmailAddress := "b@x.com" } rfl rfl (by decide)

/-- C19: while at least one association references the tag, the delete-tag
handler answers with a status other than 200 and `Success = false`, and
leaves the database as it is, whatever the environment does; when the path
parameter names an existing tag that no association references, the caller
is authenticated and no statement fails, it answers 200 with
`Success = true` and the tag is gone; and that is the case in the state
`RemoveEmailTag` leaves when it removes the association of the only
credential that still references the tag. -/
theorem deleteTag_blocked_while_referenced (env : Env) (db : DB) (c : Context) (tagID : Int)
    (hid : env.atoi c.paramID = some tagID) :
    ((∃ et ∈ db.email_tags, et.tag_id = tagID) →
      (handleDeleteTag env db c).1.1 ≠ 200 ∧
        (handleDeleteTag env db c).1.2.Success = false ∧
        (handleDeleteTag env db c).2 = db) ∧
    (∀ userID tag, c.currentUserID = some userID → (∀ q, env.stmtErr q = none) →
      db.tags.find? (fun t => decide (t.ID = tagID)) = some tag →
      (∀ et ∈ db.email_tags, et.tag_id ≠ tagID) →
      (handleDeleteTag env db c).1.1 = 200 ∧
        (handleDeleteTag env db c).1.2.Success = true ∧
        (∀ t ∈ (handleDeleteTag env db c).2.tags, t.ID ≠ tagID) ∧
        (handleDeleteTag env db c).2.email_tags = db.email_tags) ∧
    (∀ userID tag emailID, c.currentUserID = some userID → (∀ q, env.stmtErr q = none) →
      db.tags.find? (fun t => decide (t.ID = tagID)) = some tag →
      (∀ et ∈ db.email_tags, et.tag_id = tagID → et.email_id = emailID) →
      (handleDeleteTag env (RemoveEmailTag env db emailID tagID).2 c).1.1 = 200 ∧
        (handleDeleteTag env (RemoveEmailTag env db emailID tagID).2 c).1.2.Success = true ∧
        ∀ t ∈ (handleDeleteTag env (RemoveEmailTag env db emailID tagID).2 c).2.tags,
          t.ID ≠ tagID) := by
  have hgone : ∀ (rows : List Tag), ∀ t ∈ rows.filter (fun t => !decide (t.ID = tagID)),
      t.ID ≠ tagID := by
    intro rows t ht
    have := (List.mem_filter.1 ht).2
    simpa using this
  refine ⟨?_, ?_, ?_⟩
  · intro href
    unfold handleDeleteTag
    cases c.currentUserID with
    | none => simp
    | some userID =>
      simp only [hid]
      cases GetTagByID env db tagID with
      | error err => simp
      | ok tag =>
        simp only
        cases hcount : GetTagEmailCount env db tagID with
        | mk emailCount err =>
          cases err with
          | some e => simp
          | none =>
            have hpos := GetTagEmailCount_pos env db tagID emailCount href hcount
            simp [hpos]
  · intro userID tag huser hq htag href
    obtain ⟨h1, h2, h3, h4⟩ :=
      handleDeleteTag_unreferenced env db c userID tagID tag huser hid hq htag href
    refine ⟨h1, h2, ?_, h4⟩
    rw [h3]
    exact hgone db.tags
  · intro userID tag emailID huser hq htag honly
    obtain ⟨href, htags⟩ := RemoveEmailTag_last env db emailID tagID (hq _) honly
    obtain ⟨h1, h2, h3, _⟩ :=
      handleDeleteTag_unreferenced env (RemoveEmailTag env db emailID tagID).2 c userID tagID
        tag huser hid hq (by rw [htags]; exact htag) href
    refine ⟨h1, h2, ?_⟩
    rw [h3]
    exact hgone _

/-- Witness of `deleteTag_blocked_while_referenced`: tag 7 is referenced by
credential 1 only; the handler refuses with 400, and answers 200 once the
association is removed. -/
theorem deleteTag_blocked_while_referenced_witness :
    (handleDeleteTag { atoi := fun _ => some 7 }
        { tags := [{ ID := 7, Name := "vip" }], tagSeq := 7
          email_tags := [{ email_id := 1, tag_id := 7 }] }
        { currentUserID := some 1, paramID := "7" }).1.1 ≠ 200 ∧
    (handleDeleteTag { atoi := fun _ => some 7 }
        (RemoveEmailTag { atoi := fun _ => some 7 }
          { tags := [{ ID := 7, Name := "vip" }], tagSeq := 7
            email_tags := [{ email_id := 1, tag_id := 7 }] } 1 7).2
        { currentUserID := some 1, paramID := "7" }).1.1 = 200 :=
  ⟨((deleteTag_blocked_while_referenced { atoi := fun _ => some 7 }
      { tags := [{ ID := 7, Name := "vip" }], tagSeq := 7
        email_tags := [{ email_id := 1, tag_id := 7 }] }
      { currentUserID := some 1, paramID := "7" } 7 rfl).1
      ⟨{ email_id := 1, tag_id := 7 }, by simp, rfl⟩).1,
    ((deleteTag_blocked_while_referenced { atoi := fun _ => some 7 }
      { tags := [{ ID := 7, Name := "vip" }], tagSeq := 7
        email_tags := [{ email_id := 1, tag_id := 7 }] }
      { currentUserID := some 1, paramID := "7" } 7 rfl).2.2
      1 { ID := 7, Name := "vip" } 1 rfl (fun _ => rfl) rfl
      (fun et het _ => by simp at het; rw [het])).1⟩

/-- C20: when `AddEmail` accepts a request (it returns a credential) on a
store whose identifiers do not exceed the AUTOINCREMENT counter, reading the
returned identifier back with `EmailService.GetEmailByID` for the same
account, on the database `AddEmail` left and with a SELECT that goes
through, returns a credential with the address, password, client id, refresh
token and remark of the request, owned by the adding account, under the
returned identifier. -/
theorem addEmail_roundtrip (env env2 : Env) (cfg : Config) (db db1 : DB) (userID : Int)
    (req : AddEmailRequest) (ipAddress userAgent : String) (saved : Email)
    (hwf : ∀ e ∈ db.emails, e.ID ≤ db.emailSeq)
    (hadd : AddEmail env cfg db userID req ipAddress userAgent = (Except.ok saved, db1))
    (hsel : env2.stmtErr queryGetEmailByID = none) :
    ∃ email, EmailService.GetEmailByID env2 db1 userID saved.ID = Except.ok email ∧
      email.ID = saved.ID ∧ email.UserID = userID ∧
      email.EmailAddress = req.EmailAddress ∧ email.Password = req.Password ∧
      email.ClientID = req.ClientID ∧ email.RefreshToken = req.RefreshToken ∧
      email.Remark = req.Remark := by
  have hsave : ∃ db0 : DB, db0.emails = db.emails ∧ db0.emailSeq = db.emailSeq ∧
      saveEmail env db0 userID req
        { UserID := userID
          EmailAddress := req.EmailAddress
          Password := req.Password
          ClientID := req.ClientID
          RefreshToken := req.RefreshToken
          Remark := req.Remark } ipAddress userAgent = (Except.ok saved, db1) := by
    unfold AddEmail at hadd
    split at hadd
    · cases hadd
    · cases hadd
    · split at hadd
      · dsimp only at hadd
        split at hadd
        · cases hadd
        · exact ⟨db, rfl, rfl, hadd⟩
      · exact ⟨_, (LogEmail_tables env db userID _ _ _ _ _).1,
          (LogEmail_tables env db userID _ _ _ _ _).2, hadd⟩
  obtain ⟨db0, hrows, hseq, hsaved⟩ := hsave
  obtain ⟨hid, hfind⟩ := saveEmail_ok env db0 db1 userID req _ saved ipAddress userAgent
    (by rw [hrows, hseq]; exact hwf) hsaved
  rw [← hid] at hfind
  obtain ⟨tags, hrepo⟩ := repoGetEmailByID_found env2 db1 saved.ID _ hsel hfind
  refine ⟨{ ID := saved.ID
            UserID := userID
            EmailAddress := req.EmailAddress
            Password := req.Password
            ClientID := req.ClientID
            RefreshToken := req.RefreshToken
            Remark := req.Remark
            CreatedAt := env.now
            UpdatedAt := env.now
            Tags := tags }, ?_, rfl, rfl, rfl, rfl, rfl, rfl, rfl⟩
  simp only [EmailService.GetEmailByID, hrepo]
  simp

/-- Witness of `addEmail_roundtrip`: a request added with validation
skipped to a store that already holds one credential. -/
theorem addEmail_roundtrip_witness :
    ∃ email,
      EmailService.GetEmailByID {}
          (AddEmail {} { SkipEmailValidation := true }
            { emails := [{ ID := 1, UserID := 1, EmailAddress := "a@x.com" }], emailSeq := 1 } 1
            { EmailAddress := "b@x.com", Password := "pw", ClientID := "cid",
              RefreshToken := "tok", Remark := "work" } "" "").2 1 2 = Except.ok email ∧
        email.ID = 2 ∧ email.UserID = 1 ∧
        email.EmailAddress = "b@x.com" ∧ email.Password = "pw" ∧
        email.ClientID = "cid" ∧ email.RefreshToken = "tok" ∧ email.Remark = "work" :=
  addEmail_roundtrip {} {} { SkipEmailValidation := true }
    { emails := [{ ID := 1, UserID := 1, EmailAddress := "a@x.com" }], emailSeq := 1 } _ 1
    { EmailAddress := "b@x.com", Password := "pw", ClientID := "cid",
      RefreshToken := "tok", Remark := "work" } "" ""
    { ID := 2, UserID := 1, EmailAddress := "b@x.com", Password := "pw", ClientID := "cid",
      RefreshToken := "tok", Remark := "work" }
    (by decide) rfl rfl

/-- C21 (the code at the failing input): account 1 has two audit entries of
kind `get_latest_mail_failed` and one of kind `get_all_mails_failed`. Both
kinds have the display label "获取邮件失败", so the second row of the query
overwrites the first in `stats`: the map `GetOperationStats` returns holds 1
under that label, not the 2 entries of kind `get_latest_mail_failed`. -/
theorem getOperationStats_shared_label :
    GetOperationStats {}
        { operation_logs :=
            [{ ID := 1, UserID := 1, OperationType := "get_latest_mail_failed" },
             { ID := 2, UserID := 1, OperationType := "get_all_mails_failed" },
             { ID := 3, UserID := 1, OperationType := "get_latest_mail_failed" }]
          logSeq := 3 } 1 = Except.ok [("获取邮件失败", 1)] ∧
    GetOperationTypeName "get_latest_mail_failed" = "获取邮件失败" ∧
    GetOperationTypeName "get_all_mails_failed" = "获取邮件失败" ∧
    List.countP (fun l => decide (l.UserID = 1 ∧ l.OperationType = "get_latest_mail_failed"))
        [({ ID := 1, UserID := 1, OperationType := "get_latest_mail_failed" } : OperationLog),
         { ID := 2, UserID := 1, OperationType := "get_all_mails_failed" },
         { ID := 3, UserID := 1, OperationType := "get_latest_mail_failed" }] = 2 :=
  ⟨rfl, by decide, by decide, by decide⟩

/-- C22: for every string `s`, `GetOperationTypeName s` is the label that
`OperationTypeNames` assigns to `s` when `s` is one of its keys, and `s`
itself when it is not. -/
theorem getOperationTypeName_lookup (s : String) :
    (∀ label, (s, label) ∈ OperationTypeNames → GetOperationTypeName s = label) ∧
    ((∀ label, (s, label) ∉ OperationTypeNames) → GetOperationTypeName s = s) := by
  constructor
  · intro label hmem
    simp only [GetOperationTypeName,
      lookup_of_mem s label OperationTypeNames OperationTypeNames_keys hmem]
  · intro habsent
    simp only [GetOperationTypeName, lookup_of_not_mem s OperationTypeNames habsent]

/-- Witness of `getOperationTypeName_lookup`: a key and a string that is not
a key. -/
theorem getOperationTypeName_lookup_witness :
    GetOperationTypeName "tag_deleted" = "删除标签" ∧
      GetOperationTypeName "export_emails" = "export_emails" :=
  ⟨(getOperationTypeName_lookup "tag_deleted").1 "删除标签" (by decide),
    (getOperationTypeName_lookup "export_emails").2 (fun label => by
      simp [OperationTypeNames])⟩

/-- C24 (the code at the failing input): `Logout` returns what its audit
write returns. With a write that goes through it returns nil and
`handleLogout` answers 200; with a write that fails it returns that error and
`handleLogout` answers 500 "登出失败". `Login`, in the same file, drops the
error of its audit write and returns the same response in both cases. -/
theorem logout_audit_failure :
    (Logout {} {} 1 "10.0.0.1" "curl").1 = none ∧
    (Logout { logErr := fun _ => some "database is locked" } {} 1 "10.0.0.1" "curl").1 =
      some "database is locked" ∧
    (handleLogout {} {} { currentUserID := some 1 }).1.1 = 200 ∧
    (handleLogout { logErr := fun _ => some "database is locked" } {}
      { currentUserID := some 1 }).1.1 = 500 ∧
    (Login { logErr := fun _ => some "database is locked" } { AuthToken := "secret" } {}
        "secret" "10.0.0.1" "curl").1 =
      (Login {} { AuthToken := "secret" } {} "secret" "10.0.0.1" "curl").1 :=
  ⟨rfl, rfl, by decide, by decide, rfl⟩

/-- C25 (as stated) fails: `AddEmail` with validation skipped writes an audit
entry of kind `email_validation_skipped`, which is not a key of
`OperationTypeNames`. -/
theorem written_kinds_counterexample :
    (AddEmail {} { SkipEmailValidation := true } {} 1 { EmailAddress := "a@x.com" } ""
        "").2.operation_logs.map OperationLog.OperationType =
      ["email_validation_skipped", "email_added"] ∧
    "email_validation_skipped" ∉ OperationTypeNames.map Prod.fst ∧
    GetOperationTypeName "email_validation_skipped" = "email_validation_skipped" :=
  ⟨by decide, by decide, by decide⟩

/-- C25 (amended): every record that a method of the services or a handler
writes to the audit log has a kind that is a key of `OperationTypeNames` or
one of the seven kinds `email_validation_skipped`, `batch_clear_inbox`,
`export_emails`, `token_refresh`, `password_change_failed`,
`password_changed` and `user_created`. This holds of every call of every
writer: the ten methods of `EmailService` and the five of `auth.Service`
that log, the seven handlers that log themselves and `handleLogout` (all
records of the database after the call were there before or have such a
kind). None of the seven kinds is a key,
`GetOperationTypeName` returns each of them as it is, and each of them is
written by some call. -/
theorem written_kinds_labelled (env : Env) (cfg : Config) (sched : List Nat) (db : DB)
    (userID emailID operatorID : Int) (emailIDs : List Int) (req : AddEmailRequest)
    (batch : BatchAddEmailRequest) (exportReq : ExportEmailRequest) (c : Context)
    (mailbox authToken tokenString oldPassword newPassword username password : String)
    (ipAddress userAgent : String) :
    (WritesOnly (OperationTypeNames.map Prod.fst ++ unlabelledKinds) db
        (AddEmail env cfg db userID req ipAddress userAgent).2 ∧
      WritesOnly (OperationTypeNames.map Prod.fst ++ unlabelledKinds) db
        (BatchAddEmails env cfg sched db userID batch ipAddress userAgent).2.1 ∧
      WritesOnly (OperationTypeNames.map Prod.fst ++ unlabelledKinds) db
        (UpdateEmail env cfg db userID emailID req ipAddress userAgent).2 ∧
      WritesOnly (OperationTypeNames.map Prod.fst ++ unlabelledKinds) db
        (DeleteEmail env db userID emailID ipAddress userAgent).2 ∧
      WritesOnly (OperationTypeNames.map Prod.fst ++ unlabelledKinds) db
        (BatchDeleteEmails env db userID emailIDs ipAddress userAgent).2 ∧
      WritesOnly (OperationTypeNames.map Prod.fst ++ unlabelledKinds) db
        (EmailService.GetLatestMail env cfg db userID emailID mailbox ipAddress userAgent).2 ∧
      WritesOnly (OperationTypeNames.map Prod.fst ++ unlabelledKinds) db
        (EmailService.GetAllMails env cfg db userID emailID mailbox ipAddress userAgent).2 ∧
      WritesOnly (OperationTypeNames.map Prod.fst ++ unlabelledKinds) db
        (EmailService.ClearInbox env cfg db userID emailID ipAddress userAgent).2 ∧
      WritesOnly (OperationTypeNames.map Prod.fst ++ unlabelledKinds) db
        (BatchClearInbox env cfg db userID emailIDs ipAddress userAgent).2 ∧
      WritesOnly (OperationTypeNames.map Prod.fst ++ unlabelledKinds) db
        (ExportEmails env db userID exportReq ipAddress userAgent).2) ∧
    (WritesOnly (OperationTypeNames.map Prod.fst ++ unlabelledKinds) db
        (Login env cfg db authToken ipAddress userAgent).2 ∧
      WritesOnly (OperationTypeNames.map Prod.fst ++ unlabelledKinds) db
        (Logout env db userID ipAddress userAgent).2 ∧
      WritesOnly (OperationTypeNames.map Prod.fst ++ unlabelledKinds) db
        (Service.RefreshToken env db tokenString ipAddress userAgent).2 ∧
      WritesOnly (OperationTypeNames.map Prod.fst ++ unlabelledKinds) db
        (Service.ChangePassword env db userID oldPassword newPassword ipAddress userAgent).2 ∧
      WritesOnly (OperationTypeNames.map Prod.fst ++ unlabelledKinds) db
        (Service.CreateUser env db username password ipAddress userAgent operatorID).2) ∧
    (WritesOnly (OperationTypeNames.map Prod.fst ++ unlabelledKinds) db
        (handleLogout env db c).2 ∧
      WritesOnly (OperationTypeNames.map Prod.fst ++ unlabelledKinds) db
        (handleTagEmail env db c).2 ∧
      WritesOnly (OperationTypeNames.map Prod.fst ++ unlabelledKinds) db
        (handleCreateTag env db c).2 ∧
      WritesOnly (OperationTypeNames.map Prod.fst ++ unlabelledKinds) db
        (handleUpdateTag env db c).2 ∧
      WritesOnly (OperationTypeNames.map Prod.fst ++ unlabelledKinds) db
        (handleDeleteTag env db c).2 ∧
      WritesOnly (OperationTypeNames.map Prod.fst ++ unlabelledKinds) db
        (handleBatchTagEmails env db c).2 ∧
      WritesOnly (OperationTypeNames.map Prod.fst ++ unlabelledKinds) db
        (handleBatchUntagEmails env db c).2 ∧
      WritesOnly (OperationTypeNames.map Prod.fst ++ unlabelledKinds) db
        (handleClearLogs env db c).2) ∧
    (∀ k ∈ unlabelledKinds,
      k ∉ OperationTypeNames.map Prod.fst ∧ GetOperationTypeName k = k) ∧
    (kindsOf (AddEmail {} { SkipEmailValidation := true } {} 1 { EmailAddress := "a@x.com" }
        "" "").2 = ["email_validation_skipped", "email_added"] ∧
      kindsOf (BatchClearInbox {} {} {} 1 [5] "" "").2 = ["batch_clear_inbox"] ∧
      kindsOf (ExportEmails {} {} 1 { Range := "all", Format := "txt" } "" "").2 =
        ["export_emails"] ∧
      kindsOf (Service.RefreshToken
        { parseWithClaims := fun _ =>
            Except.ok ({ UserID := 1, Username := "admin", ExpiresAt := some 100 }, true) }
        { users := [{ ID := 1, Username := "admin" }], userSeq := 1 } "token" "" "").2 =
        ["token_refresh"] ∧
      kindsOf (Service.ChangePassword {}
        { users := [{ ID := 1, Username := "admin", PasswordHash := "old" }], userSeq := 1 }
        1 "wrong" "new" "" "").2 = ["password_change_failed"] ∧
      kindsOf (Service.ChangePassword {}
        { users := [{ ID := 1, Username := "admin", PasswordHash := "old" }], userSeq := 1 }
        1 "old" "new" "" "").2 = ["password_changed"] ∧
      kindsOf (Service.CreateUser {} {} "bob" "pw" "" "" 1).2 = ["user_created"]) := by
  refine ⟨⟨?_, ?_, ?_, ?_, ?_, ?_, ?_, ?_, ?_, ?_⟩, ⟨?_, ?_, ?_, ?_, ?_⟩,
    ⟨?_, ?_, ?_, ?_, ?_, ?_, ?_, ?_⟩, by decide, by decide⟩
  · exact AddEmail_writes env cfg _ db userID req ipAddress userAgent
      (by decide) (by decide) (by decide)
  · exact BatchAddEmails_writes env cfg sched _ db userID batch ipAddress userAgent
      (by decide) (by decide)
  · exact UpdateEmail_writes env cfg _ db userID emailID req ipAddress userAgent (by decide)
  · exact DeleteEmail_writes env _ db userID emailID ipAddress userAgent (by decide)
  · exact BatchDeleteEmails_writes env _ db userID emailIDs ipAddress userAgent (by decide)
  · exact serviceGetLatestMail_writes env cfg _ db userID emailID mailbox ipAddress userAgent
      (by decide) (by decide)
  · exact serviceGetAllMails_writes env cfg _ db userID emailID mailbox ipAddress userAgent
      (by decide) (by decide)
  · exact serviceClearInbox_writes env cfg _ db userID emailID ipAddress userAgent
      (by decide) (by decide)
  · exact BatchClearInbox_writes env cfg _ db userID emailIDs ipAddress userAgent
      (by decide) (by decide) (by decide)
  · exact ExportEmails_writes env _ db userID exportReq ipAddress userAgent (by decide)
  · exact Login_writes env cfg _ db authToken ipAddress userAgent (by decide) (by decide)
  · exact Logout_writes env _ db userID ipAddress userAgent (by decide)
  · exact RefreshToken_writes env _ db tokenString ipAddress userAgent (by decide)
  · exact ChangePassword_writes env _ db userID oldPassword newPassword ipAddress userAgent
      (by decide) (by decide)
  · exact CreateUser_writes env _ db username password ipAddress userAgent operatorID
      (by decide)
  · exact handleLogout_writes env _ db c (by decide)
  · exact handleTagEmail_writes env _ db c (by decide)
  · exact handleCreateTag_writes env _ db c (by decide)
  · exact handleUpdateTag_writes env _ db c (by decide)
  · exact handleDeleteTag_writes env _ db c (by decide)
  · exact handleBatchTagEmails_writes env _ db c (by decide)
  · exact handleBatchUntagEmails_writes env _ db c (by decide)
  · exact handleClearLogs_writes env _ db c (by decide)

/-- C27 (the code at the failing input): the TXT export writes address,
password, refresh token, client id in this order, and `parseEmailFile` reads
the third field as the client id and the fourth as the refresh token. The
export of a credential with client id "cid" and refresh token "tok" is parsed
into a record with client id "tok" and refresh token "cid". -/
theorem export_import_swaps_fields :
    generateExportContent {}
        [{ EmailAddress := "a@x.com", Password := "pw", ClientID := "cid",
           RefreshToken := "tok" }] "txt" = "a@x.com----pw----tok----cid\n" ∧
    parseEmailFile
        (generateExportContent {}
          [{ EmailAddress := "a@x.com", Password := "pw", ClientID := "cid",
             RefreshToken := "tok" }] "txt") =
      ([{ EmailAddress := "a@x.com", Password := "pw", ClientID := "tok",
          RefreshToken := "cid" }], []) :=
  ⟨by decide, by decide⟩

/-- C28: for every file content, the records and the errors `parseEmailFile`
returns are together as many as the lines of the content that are not empty
once trimmed: every such line adds one record or one error, a blank line
adds nothing. -/
theorem parseEmailFile_lengths (content : String) :
    (parseEmailFile content).1.length + (parseEmailFile content).2.length =
      ((strings.Split content "\n").filter
        (fun line => decide (strings.TrimSpace line ≠ ""))).length := by
  unfold parseEmailFile
  rw [parseEmailLoop_lengths]
  simp

/-- C29 (the code at the failing input): the message object has the field
`receivedDateTime` with a timestamp that parses, and no `date`. As the body
of the fetch-latest response it is normalised by `GetLatestMail` to a message
with that timestamp; as the element of the fetch-all response it is
normalised by `GetAllMails` to a message with the zero timestamp, since
`GetAllMails` does not read `receivedDateTime`. -/
theorem normalisation_differs :
    GetLatestMail
        { httpDo := fun _ => Except.ok { StatusCode := 200, body := Except.ok "object" }
          jsonParse := fun _ => Except.ok (JSON.obj
            [("id", JSON.str "m1"), ("receivedDateTime", JSON.str "2023-11-14T22:13:20Z")])
          parseRFC3339 := fun _ => some 1700000000 }
        {} {} "INBOX" "json" = Except.ok { ID := "m1", ReceivedAt := 1700000000 } ∧
    GetAllMails
        { httpDo := fun _ => Except.ok { StatusCode := 200, body := Except.ok "array" }
          jsonParse := fun _ => Except.ok (JSON.arr [JSON.obj
            [("id", JSON.str "m1"), ("receivedDateTime", JSON.str "2023-11-14T22:13:20Z")]])
          parseRFC3339 := fun _ => some 1700000000 }
        {} {} "INBOX" = Except.ok [{ ID := "m1", ReceivedAt := 0 }] :=
  ⟨rfl, rfl⟩

/-- C30 (as stated) fails: the gateway answers with status 200 and the JSON
object whose member `size` is the number 1e999, which does not fit a float64.
`json.Unmarshal` returns an error for it, so `GetLatestMail` fails,
`ValidateEmailCredentials` rejects the response and the batch reports the
candidate as failed. -/
theorem object_response_counterexample :
    GetLatestMail
        { httpDo := fun _ => Except.ok
            { StatusCode := 200, body := Except.ok "\x7b\"id\":\"m1\",\"size\":1e999\x7d" }
          jsonParse := fun _ =>
            Except.ok (JSON.obj [("id", JSON.str "m1"), ("size", JSON.num "1e999")])
          parseFloatErr := fun text => text == "1e999" }
        (NewOutlookService "http://gateway") { EmailAddress := "a@x.com" } "INBOX" "json" =
      Except.error
        ("解析响应失败: json: cannot unmarshal number 1e999 into Go value of type float64" ++
          ", 响应内容: \x7b\"id\":\"m1\",\"size\":1e999\x7d") ∧
    ValidateEmailCredentials
        { httpDo := fun _ => Except.ok
            { StatusCode := 200, body := Except.ok "\x7b\"id\":\"m1\",\"size\":1e999\x7d" }
          jsonParse := fun _ =>
            Except.ok (JSON.obj [("id", JSON.str "m1"), ("size", JSON.num "1e999")])
          parseFloatErr := fun text => text == "1e999" }
        (NewOutlookService "http://gateway") { EmailAddress := "a@x.com" } ≠ none ∧
    (BatchAddEmails
        { httpDo := fun _ => Except.ok
            { StatusCode := 200, body := Except.ok "\x7b\"id\":\"m1\",\"size\":1e999\x7d" }
          jsonParse := fun _ =>
            Except.ok (JSON.obj [("id", JSON.str "m1"), ("size", JSON.num "1e999")])
          parseFloatErr := fun text => text == "1e999" }
        { OutlookAPI := "http://gateway" } [] {} 1
        { Emails := [{ EmailAddress := "a@x.com" }] } "" "").1.successEmails = [] :=
  ⟨rfl, by decide, by decide⟩

/-- C30 (amended): when the gateway answers the fetch-latest request with
status 200 and a body that is a JSON object which `json.Unmarshal` decodes
(every number in it fits a float64), whatever its fields (an `error` field
included), `GetLatestMail` returns the normalised object without error,
`ValidateEmailCredentials` returns nil, and the batch validator gives a
candidate whose address is new the result that carries its credential and no
error, for every schedule. When a number of the object does not fit a
float64, `GetLatestMail` returns the decode error with the raw body,
`ValidateEmailCredentials` returns it behind its prefix and, validation not
being skipped, the batch validator gives the candidate that error and no
credential. -/
theorem object_response_validates (env : Env) (cfg : Config) (db : DB) (userID : Int)
    (body : String) (fields : List (String × JSON))
    (hresp : Answers env (cfg.OutlookAPI ++ "/api/mail-new") 200 body)
    (hbody : env.jsonParse body = Except.ok (JSON.obj fields)) :
    (floatErrFields env.parseFloatErr fields = none →
      (∀ (email : Email) (mailbox responseType : String),
        GetLatestMail env (NewOutlookService cfg.OutlookAPI) email mailbox responseType =
          Except.ok (latestMail env fields)) ∧
      (∀ email : Email,
        ValidateEmailCredentials env (NewOutlookService cfg.OutlookAPI) email = none) ∧
      (∀ (sched : List Nat) (req : BatchAddEmailRequest) (i : Nat) (r : AddEmailRequest),
        req.Emails[i]? = some r → EmailExists env db userID r.EmailAddress = (false, none) →
        (runPool env cfg db userID sched (initPool cfg req.Emails)).results[i]? =
          some { email := some (newEmail userID r), error := "", index := i })) ∧
    (∀ err, floatErrFields env.parseFloatErr fields = some err →
      (∀ (email : Email) (mailbox responseType : String),
        GetLatestMail env (NewOutlookService cfg.OutlookAPI) email mailbox responseType =
          Except.error ("解析响应失败: " ++ err ++ ", 响应内容: " ++ body)) ∧
      (∀ email : Email,
        ValidateEmailCredentials env (NewOutlookService cfg.OutlookAPI) email =
          some ("验证邮箱 " ++ email.EmailAddress ++ " 凭据失败: " ++
            ("解析响应失败: " ++ err ++ ", 响应内容: " ++ body))) ∧
      (∀ (sched : List Nat) (req : BatchAddEmailRequest) (i : Nat) (r : AddEmailRequest),
        req.Emails[i]? = some r → EmailExists env db userID r.EmailAddress = (false, none) →
        cfg.SkipEmailValidation = false →
        (runPool env cfg db userID sched (initPool cfg req.Emails)).results[i]? =
          some { email := none
                 error := "邮箱 " ++ r.EmailAddress ++ ": " ++
                   ("验证邮箱 " ++ r.EmailAddress ++ " 凭据失败: " ++
                     ("解析响应失败: " ++ err ++ ", 响应内容: " ++ body))
                 index := i })) := by
  refine ⟨fun hnum => ⟨?_, ?_, ?_⟩, fun err hnum => ⟨?_, ?_, ?_⟩⟩
  · intro email mailbox responseType
    exact GetLatestMail_object env (NewOutlookService cfg.OutlookAPI) email mailbox
      responseType body fields hresp hbody hnum
  · intro email
    exact Validate_object env (NewOutlookService cfg.OutlookAPI) email body fields hresp hbody
      hnum
  · intro sched req i r hi hnew
    have hres : (runPool env cfg db userID sched (initPool cfg req.Emails)).results =
        batchResults env cfg db userID req.Emails := runPool_results env cfg db userID sched _
    rw [hres, batchResults_getElem?, hi]
    simp only [Option.map_some']
    rw [processTask_validated env cfg db userID { index := i, req := r } hnew
      (Validate_object env (NewOutlookService cfg.OutlookAPI) _ body fields hresp hbody hnum)]
  · intro email mailbox responseType
    exact GetLatestMail_object_error env (NewOutlookService cfg.OutlookAPI) email mailbox
      responseType body fields err hresp hbody hnum
  · intro email
    exact Validate_object_error env (NewOutlookService cfg.OutlookAPI) email body fields err
      hresp hbody hnum
  · intro sched req i r hi hnew hskip
    have hres : (runPool env cfg db userID sched (initPool cfg req.Emails)).results =
        batchResults env cfg db userID req.Emails := runPool_results env cfg db userID sched _
    rw [hres, batchResults_getElem?, hi]
    simp only [Option.map_some']
    rw [processTask_rejected env cfg db userID { index := i, req := r } _ hnew hskip
      (Validate_object_error env (NewOutlookService cfg.OutlookAPI) _ body fields err hresp
        hbody hnum)]
    rfl

/-- Witness of `object_response_validates`: the gateway answers every
request with an object that carries an `error`. -/
theorem object_response_validates_witness :
    ValidateEmailCredentials
        { httpDo := fun _ => Except.ok { StatusCode := 200, body := Except.ok "object" }
          jsonParse := fun _ => Except.ok (JSON.obj [("error", JSON.str "invalid_grant")]) }
        (NewOutlookService "http://gateway") { EmailAddress := "a@x.com" } = none :=
  ((object_response_validates _ { OutlookAPI := "http://gateway" } {} 1 "object"
    [("error", JSON.str "invalid_grant")] (answers_const 200 "object" _ _ _) rfl).1 rfl).2.1
    { EmailAddress := "a@x.com" }

/-- C23: in every store state that `AddEmail`, `BatchAddEmails`,
`UpdateEmail`, `DeleteEmail` and `BatchDeleteEmails` lead to from the empty
store, no two credentials share the pair (account, mailbox address): two
rows of the table with the same account and the same address are the same
row. -/
theorem unique_account_address (db : DB) (h : Reachable db) :
    UniquePairs db ∧
    ∀ (i j : Nat) (a b : Email), db.emails[i]? = some a → db.emails[j]? = some b →
      a.UserID = b.UserID → a.EmailAddress = b.EmailAddress → i = j := by
  have hpairs : UniquePairs db := (reachable_storeOk db h).2.2
  refine ⟨hpairs, ?_⟩
  unfold UniquePairs at hpairs
  rw [List.pairwise_iff_getElem] at hpairs
  intro i j a b hi hj hu ha
  obtain ⟨hil, hia⟩ := List.getElem?_eq_some.1 hi
  obtain ⟨hjl, hjb⟩ := List.getElem?_eq_some.1 hj
  by_contra hne
  rcases Nat.lt_or_gt_of_ne hne with hlt | hgt
  · exact hpairs i j hil hjl hlt (by rw [hia, hjb]; exact ⟨hu, ha⟩)
  · exact hpairs j i hjl hil hgt (by rw [hia, hjb]; exact ⟨hu.symm, ha.symm⟩)

/-- Witness of `unique_account_address`: the store after two single adds of
the same address for the same account; the second add is refused. -/
theorem unique_account_address_witness :
    UniquePairs
      (AddEmail {} { SkipEmailValidation := true }
        (AddEmail {} { SkipEmailValidation := true } {} 1 { EmailAddress := "a@x.com" }
          "" "").2 1 { EmailAddress := "a@x.com" } "" "").2 :=
  (unique_account_address _
    (Reachable.addEmail {} { SkipEmailValidation := true } _ 1 { EmailAddress := "a@x.com" }
      "" ""
      (Reachable.addEmail {} { SkipEmailValidation := true } {} 1
        { EmailAddress := "a@x.com" } "" "" Reachable.empty))).1

/-- C26: `EmailService.BatchDeleteEmails` is all or nothing. When some listed
identifier does not name a credential of the account, it returns an error and
leaves the database as it was (nothing deleted, no audit entry), whatever the
environment does; whenever it returns an error the database is as it was; and
when every listed identifier names a credential of the account and no step of
the transaction fails, it returns nil, the credentials with a listed
identifier and the tag associations of those credentials are gone, and all
other credentials, all other associations and the tags are as before. -/
theorem batchDelete_all_or_nothing (env : Env) (db : DB) (userID : Int)
    (emailIDs : List Int) (ipAddress userAgent : String) :
    ((∃ id ∈ emailIDs, ¬ Owns db userID id) →
      (BatchDeleteEmails env db userID emailIDs ipAddress userAgent).1 ≠ none ∧
        (BatchDeleteEmails env db userID emailIDs ipAddress userAgent).2 = db) ∧
    ((BatchDeleteEmails env db userID emailIDs ipAddress userAgent).1 ≠ none →
      (BatchDeleteEmails env db userID emailIDs ipAddress userAgent).2 = db) ∧
    ((∀ id ∈ emailIDs, Owns db userID id) → NoDeleteFault env →
      (BatchDeleteEmails env db userID emailIDs ipAddress userAgent).1 = none ∧
        (BatchDeleteEmails env db userID emailIDs ipAddress userAgent).2.emails =
          db.emails.filter (fun r => decide (r.ID ∉ emailIDs)) ∧
        (BatchDeleteEmails env db userID emailIDs ipAddress userAgent).2.email_tags =
          db.email_tags.filter (fun et => decide (et.email_id ∉ emailIDs)) ∧
        (BatchDeleteEmails env db userID emailIDs ipAddress userAgent).2.tags = db.tags) := by
  refine ⟨?_, BatchDeleteEmails_error env db userID emailIDs ipAddress userAgent, ?_⟩
  · rintro ⟨id, hid, hbad⟩
    have h0 : emailIDs.length ≠ 0 := by
      intro h0
      rw [List.length_eq_zero.1 h0] at hid
      cases hid
    have hfail : (BatchDeleteEmails env db userID emailIDs ipAddress userAgent).1 ≠ none := by
      cases hfind : emailIDs.find?
          (fun emailID => !(EmailService.GetEmailByID env db userID emailID).toBool) with
      | some bad =>
        simp only [BatchDeleteEmails, h0, if_false, hfind]
        exact Option.some_ne_none _
      | none =>
        have := List.find?_eq_none.1 hfind id hid
        simp [serviceGet_not_owned env db userID id hbad] at this
    exact ⟨hfail, BatchDeleteEmails_error env db userID emailIDs ipAddress userAgent hfail⟩
  · intro hall hfault
    by_cases h0 : emailIDs.length = 0
    · have hnil : emailIDs = [] := List.length_eq_zero.1 h0
      subst hnil
      simp [BatchDeleteEmails]
    · have hfind : emailIDs.find?
          (fun emailID => !(EmailService.GetEmailByID env db userID emailID).toBool) =
          none := by
        rw [List.find?_eq_none]
        intro id hid
        simp [serviceGet_owned env db userID id hfault.1 (hall id hid)]
      have hok := repoBatchDelete_ok env db emailIDs hfault
      have hspec := (repoBatchDelete_spec env db emailIDs).2 hok
      cases hdel : EmailRepository.BatchDeleteEmails env db emailIDs with
      | mk err db1 =>
        rw [BatchDeleteEmails_checked env db userID emailIDs ipAddress userAgent err db1 h0
          hfind hdel]
        rw [hdel] at hok hspec
        simp only at hok hspec
        subst hok
        subst hspec
        exact ⟨rfl, (CreateLog_tables env _ _).1, (CreateLog_tables env _ _).2.2.2,
          (CreateLog_tables env _ _).2.2.1⟩

/-- Witness of `batchDelete_all_or_nothing`: account 1 owns credentials 1
and 2, credential 3 is owned by account 2; deleting 1 and 3 is refused and
deletes nothing, deleting 1 and 2 removes both and the association of 1. -/
theorem batchDelete_all_or_nothing_witness :
    (BatchDeleteEmails {}
        { emails := [{ ID := 1, UserID := 1, EmailAddress := "a@x.com" },
                     { ID := 2, UserID := 1, EmailAddress := "b@x.com" },
                     { ID := 3, UserID := 2, EmailAddress := "c@x.com" }]
          emailSeq := 3
          tags := [{ ID := 7, Name := "vip" }]
          tagSeq := 7
          email_tags := [{ email_id := 1, tag_id := 7 }, { email_id := 3, tag_id := 7 }] }
        1 [1, 3] "" "").2 =
      { emails := [{ ID := 1, UserID := 1, EmailAddress := "a@x.com" },
                   { ID := 2, UserID := 1, EmailAddress := "b@x.com" },
                   { ID := 3, UserID := 2, EmailAddress := "c@x.com" }]
        emailSeq := 3
        tags := [{ ID := 7, Name := "vip" }]
        tagSeq := 7
        email_tags := [{ email_id := 1, tag_id := 7 }, { email_id := 3, tag_id := 7 }] } ∧
    (BatchDeleteEmails {}
        { emails := [{ ID := 1, UserID := 1, EmailAddress := "a@x.com" },
                     { ID := 2, UserID := 1, EmailAddress := "b@x.com" },
                     { ID := 3, UserID := 2, EmailAddress := "c@x.com" }]
          emailSeq := 3
          tags := [{ ID := 7, Name := "vip" }]
          tagSeq := 7
          email_tags := [{ email_id := 1, tag_id := 7 }, { email_id := 3, tag_id := 7 }] }
        1 [1, 2] "" "").1 = none :=
  ⟨((batchDelete_all_or_nothing {} _ 1 [1, 3] "" "").1
      ⟨3, by decide, by
        rintro ⟨row, hrow, howner⟩
        simp [List.find?] at hrow
        subst hrow
        simp at howner⟩).2,
    ((batchDelete_all_or_nothing {} _ 1 [1, 2] "" "").2.2
      (fun id hid => by
        simp only [List.mem_cons, List.mem_singleton, List.not_mem_nil, or_false] at hid
        rcases hid with rfl | rfl
        · exact ⟨_, rfl, rfl⟩
        · exact ⟨_, rfl, rfl⟩)
      ⟨rfl, rfl, rfl, rfl, fun _ => rfl, fun _ => rfl, rfl⟩).1⟩

end OutlookHelper
